import Mathlib

/-!
# st4sd-runtime-k8s: path escape codec and pod assembly

A shallow embedding of `api/v1alpha1/utilities.go` and of `newPodForCR`
(`controllers/workflow_controller.go`).

Go strings are modelled as lists of characters (`List Char`).
-/

namespace St4sd

/-! ## Go standard library: `strings` -/

/-- Go `strings.HasPrefix(s, pre)`. -/
def HasPrefix (s pre : List Char) : Bool := pre.isPrefixOf s

/-- Worker of `ReplaceAll` for a non-empty `old`: scans `s` left to right; the
counter is the number of characters of an occurrence just matched that are still
to be skipped (Go: `start = j + len(old)`). -/
def replaceScan (old new : List Char) : Nat → List Char → List Char
  | _, [] => []
  | k + 1, _ :: cs => replaceScan old new k cs
  | 0, c :: cs =>
    if old.isPrefixOf (c :: cs) then new ++ replaceScan old new (old.length - 1) cs
    else c :: replaceScan old new 0 cs

/-- Go `strings.ReplaceAll(s, old, new)` for a non-empty `old`: every
non-overlapping occurrence of `old`, found left to right, is replaced by `new`. -/
def ReplaceAll (s old new : List Char) : List Char := replaceScan old new 0 s

/-! ## Go standard library: `regexp` (leftmost-first backtracking semantics)

`regexp.MustCompile` gives Perl-like leftmost-first matching: the match starts as
early as possible and is the first one a backtracking search finds. A negated
class such as `[^:]` matches the line feed, `.` does not. -/

/-- The fragment of regular expression syntax used by the repository. -/
inductive Regex where
  | cls (p : Char → Bool)
  | seq (a b : Regex)
  | alt (a b : Regex)
  | plus (a : Regex)
  | group (idx : Nat) (a : Regex)

/-- A thread of the backtracking search: the unread input and the submatches
recorded so far (most recent first). -/
abbrev Thread := List Char × List (Nat × List Char)

/-- Greedy one-or-more: after one successful step, first try to iterate again,
then fall back to stopping. Results are listed in backtracking order. -/
def iterPlus (step : Thread → List Thread) : Nat → Thread → List Thread
  | 0, _ => []
  | fuel + 1, t =>
    (step t).flatMap fun t1 =>
      if t1.1.length < t.1.length then iterPlus step fuel t1 ++ [t1] else [t1]

/-- All ways of matching a regex at the start of the unread input, in the order
in which a backtracking matcher finds them. -/
def Regex.run : Regex → Thread → List Thread
  | .cls p, t =>
    match t.1 with
    | [] => []
    | c :: cs => if p c then [(cs, t.2)] else []
  | .seq a b, t => (run a t).flatMap (run b)
  | .alt a b, t => run a t ++ run b t
  | .plus a, t => iterPlus (run a) (t.1.length + 1) t
  | .group i a, t =>
    (run a t).map fun t1 => (t1.1, (i, t.1.take (t.1.length - t1.1.length)) :: t1.2)

/-- Leftmost-first search (unanchored): the earliest start offset that admits a
match, and there the first match in backtracking order. Returns the submatches. -/
def Regex.find (re : Regex) : List Char → Option (List (Nat × List Char))
  | [] => (re.run ([], [])).head?.map Prod.snd
  | c :: cs =>
    match (re.run (c :: cs, [])).head? with
    | some t => some t.2
    | none => find re cs

/-- Text of submatch `i` as in `FindStringSubmatch` (empty when the group did not
take part in the match). -/
def submatch (m : List (Nat × List Char)) (i : Nat) : List Char :=
  (m.lookup i).getD []

/-! ## `api/v1alpha1/utilities.go` -/

structure SourcePathToTargetFileName where
  SourcePath : List Char
  TargetName : Option (List Char)
  deriving DecidableEq, Repr

/-- `Unescape`: replaces `\:` with `:` and then `\\` with `\`. -/
def Unescape (text : List Char) : List Char :=
  let text := ReplaceAll text ['\\', ':'] [':']
  let text := ReplaceAll text ['\\', '\\'] ['\\']
  text

/-- The inner parenthesis `([^:]|\:)` of `strPattern` (Go numbers it group 2); in
the regex `\:` is an escaped colon, i.e. the literal character `:`. -/
def reInner : Regex :=
  .group 2 (.alt (.cls fun c => c != ':') (.cls fun c => c == ':'))

/-- The group `(?P<SourcePath>([^:]|\:)+[^\\])` of `strPattern` (group 1). -/
def reSourcePath : Regex :=
  .group 1 (.seq (.plus reInner) (.cls fun c => c != '\\'))

/-- The group `(?P<TargetName>.+)` of `strPattern` (group 3); `.` matches every
character but the line feed. -/
def reTargetName : Regex :=
  .group 3 (.plus (.cls fun c => c != '\n'))

/-- The compiled `strPattern`
`(?P<SourcePath>([^:]|\:)+[^\\]):(?P<TargetName>.+)`. -/
def strPattern : Regex :=
  .seq reSourcePath (.seq (.cls fun c => c == ':') reTargetName)

/-- `SplitPathToSourcePathAndTargetName`: `match[SubexpIndex("SourcePath")]` is
submatch 1 and `match[SubexpIndex("TargetName")]` is submatch 3. -/
def SplitPathToSourcePathAndTargetName (path : List Char) : SourcePathToTargetFileName :=
  let ret : SourcePathToTargetFileName :=
    match strPattern.find path with
    | some m =>
      let tn := submatch m 3
      { SourcePath := submatch m 1, TargetName := if tn ≠ [] then some tn else none }
    | none => { SourcePath := path, TargetName := none }
  { SourcePath := Unescape ret.SourcePath, TargetName := ret.TargetName.map Unescape }

/-! ## Auxiliary notions for the codec claims -/

/-- What a thread of `strPattern`, entered on input `s`, does once the `+` loop of
the source group has stopped: `[^\\]`, end of group 1, `:`, group 3. -/
def afterPlus (s : List Char) (t1 : Thread) : List Thread :=
  ((Regex.run (.cls fun c => c != '\\') t1).map fun t =>
      (t.1, (1, s.take (s.length - t.1.length)) :: t.2)).flatMap
    (Regex.run (.seq (.cls fun c => c == ':') reTargetName))

/-- The unread input `r` lets a thread that stopped the `+` loop complete a match:
a character other than a backslash, a colon, a character other than a line feed. -/
def Viable (r : List Char) : Prop :=
  ∃ x y b, r = x :: ':' :: y :: b ∧ x ≠ '\\' ∧ y ≠ '\n'

/-- Escaping of the file-reference syntax: `\` becomes `\\` and `:` becomes `\:`. -/
def esc (x : List Char) : List Char :=
  x.flatMap fun c => if c = '\\' then ['\\', '\\'] else if c = ':' then ['\\', ':'] else [c]

/-- One pass over the text, left to right, that replaces each non-overlapping
occurrence of the two-character sequence `a b` by the character `r`. -/
def replacePair (a b r : Char) : List Char → List Char
  | x :: y :: rest =>
    if x = a ∧ y = b then r :: replacePair a b r rest else x :: replacePair a b r (y :: rest)
  | [x] => [x]
  | [] => []

/-- The contract of `Unescape` as the specification words it: first every `\:`
becomes `:`, then every `\\` becomes `\`. -/
def unescapeSpec (text : List Char) : List Char :=
  replacePair '\\' '\\' '\\' (replacePair '\\' ':' ':' text)

/-- Escaping with the colons left alone: the text after the first pass of
`Unescape` over an escaped string. -/
def escBackslash (x : List Char) : List Char :=
  x.flatMap fun c => if c = '\\' then ['\\', '\\'] else [c]

/-- No suffix of `l` is viable. -/
def Dead (l : List Char) : Prop := ∀ a r, l = a ++ r → ¬ Viable r

/-- Position `i` of `path` holds a colon that is not immediately preceded by a
backslash and is followed by at least one character. -/
def IsSeparator (path : List Char) (i : Nat) : Prop :=
  path[i]? = some ':' ∧ (i = 0 ∨ path[i - 1]? ≠ some '\\') ∧ i + 1 < path.length

/-! ## Go standard library: `path`, `path/filepath` -/

/-- Go `strings.Split(s, "/")`. -/
def splitSlash : List Char → List (List Char)
  | [] => [[]]
  | c :: cs =>
    if c = '/' then [] :: splitSlash cs
    else
      match splitSlash cs with
      | [] => [[c]]
      | h :: t => (c :: h) :: t

/-- Go `strings.Join(elems, "/")`. -/
def joinSlash : List (List Char) → List Char
  | [] => []
  | [e] => e
  | e :: es => e ++ '/' :: joinSlash es

/-- One path element processed by `path.Clean`; the stack holds the elements
kept so far, the most recent first. Empty elements and `.` are dropped; `..`
removes the element before it, is dropped at the root of a rooted path, and is
kept at the start of a relative path. -/
def cleanStep (rooted : Bool) (stack : List (List Char)) (e : List Char) : List (List Char) :=
  if e = [] ∨ e = ['.'] then stack
  else if e = ['.', '.'] then
    match stack with
    | [] => if rooted then [] else [e]
    | top :: rest => if top = ['.', '.'] then e :: stack else rest
  else e :: stack

/-- Go `path.Clean`. -/
def pathClean (p : List Char) : List Char :=
  if p = [] then ['.']
  else
    let rooted := HasPrefix p ['/']
    let body := joinSlash ((splitSlash p).foldl (cleanStep rooted) []).reverse
    let out := if rooted then '/' :: body else body
    if out = [] then ['.'] else out

/-- Go `path.Join(a, b)`: the non-empty elements joined by a slash and cleaned;
the empty string when both are empty. -/
def pathJoin (a b : List Char) : List Char :=
  if a = [] ∧ b = [] then []
  else pathClean (joinSlash ([a, b].filter fun e => e ≠ []))

/-- Go `path.Base`. -/
def pathBase (p : List Char) : List Char :=
  if p = [] then ['.']
  else
    let q := (p.reverse.dropWhile fun c => c = '/').reverse
    let r := (q.reverse.takeWhile fun c => c ≠ '/').reverse
    if r = [] then ['/'] else r

/-- Go `filepath.IsAbs` (on Unix). -/
def filepathIsAbs (p : List Char) : Bool := HasPrefix p ['/']

/-! ## Kubernetes API types (the fields the controller reads or writes) -/

structure ConfigMapVolumeSource where
  Name : List Char
  deriving DecidableEq, Repr

structure PersistentVolumeClaimVolumeSource where
  ClaimName : List Char
  ReadOnly : Bool
  deriving DecidableEq, Repr

structure SecretVolumeSource where
  SecretName : List Char
  DefaultMode : Option Int
  deriving DecidableEq, Repr

structure EmptyDirVolumeSource where
  deriving DecidableEq, Repr

structure VolumeSource where
  ConfigMap : Option ConfigMapVolumeSource := none
  PersistentVolumeClaim : Option PersistentVolumeClaimVolumeSource := none
  Secret : Option SecretVolumeSource := none
  EmptyDir : Option EmptyDirVolumeSource := none
  deriving DecidableEq, Repr

structure Volume where
  Name : List Char
  VolumeSource : VolumeSource := {}
  deriving DecidableEq, Repr

structure VolumeMount where
  Name : List Char
  MountPath : List Char
  SubPath : List Char := []
  deriving DecidableEq, Repr

structure SecretKeySelector where
  Name : List Char
  Key : List Char
  deriving DecidableEq, Repr

structure EnvVarSource where
  SecretKeyRef : Option SecretKeySelector := none
  deriving DecidableEq, Repr

structure EnvVar where
  Name : List Char
  Value : List Char := []
  ValueFrom : Option EnvVarSource := none
  deriving DecidableEq, Repr

/-- A `resource.Quantity`, kept as the text it was parsed from. -/
structure Quantity where
  text : List Char
  deriving DecidableEq, Repr

/-- A `corev1.ResourceList` with the two keys the controller sets. -/
structure ResourceList where
  cpu : Quantity
  memory : Quantity
  deriving DecidableEq, Repr

structure ResourceRequirements where
  Limits : ResourceList
  Requests : ResourceList
  deriving DecidableEq, Repr

structure SecurityContext where
  RunAsUser : Int
  RunAsGroup : Int
  deriving DecidableEq, Repr

/-- A `corev1.Lifecycle` with an exec pre-stop handler. -/
structure Lifecycle where
  PreStopExecCommand : List (List Char)
  deriving DecidableEq, Repr

structure Container where
  Name : List Char
  Image : List Char
  Command : List (List Char) := []
  Args : List (List Char) := []
  WorkingDir : List Char := []
  Env : List EnvVar := []
  Resources : ResourceRequirements
  VolumeMounts : List VolumeMount := []
  Lifecycle : Option Lifecycle := none
  ImagePullPolicy : List Char
  SecurityContext : Option SecurityContext := none
  deriving DecidableEq, Repr

structure PodSecurityContext where
  FSGroup : Int
  RunAsUser : Int
  RunAsGroup : Int
  deriving DecidableEq, Repr

structure PodSpec where
  ServiceAccountName : List Char
  RestartPolicy : List Char
  Volumes : List Volume
  TerminationGracePeriodSeconds : Int
  Containers : List Container
  InitContainers : List Container
  SecurityContext : PodSecurityContext
  ImagePullSecrets : List (List Char) := []
  deriving DecidableEq, Repr

/-- A `corev1.Pod`; the label map is a finite map from keys to values. -/
structure Pod where
  Name : List Char
  Namespace : List Char
  Labels : List Char → Option (List Char)
  Spec : PodSpec

/-! ## `api/v1alpha1/workflow_types.go` -/

structure S3InputVariable where
  Value : List Char := []
  ValueFrom : Option EnvVarSource := none
  deriving DecidableEq, Repr

structure S3BucketInfo where
  Dataset : List Char := []
  AccessKeyID : S3InputVariable := {}
  SecretAccessKey : S3InputVariable := {}
  Endpoint : S3InputVariable := {}
  Bucket : S3InputVariable := {}
  Region : S3InputVariable := {}
  deriving DecidableEq, Repr

structure Gitrepo where
  URL : List Char := []
  Branch : List Char := []
  CommitId : List Char := []
  Mount : List Char := []
  Gitsecret : List Char := []
  FromConfigMap : List Char := []
  FromPath : List Char := []
  WithManifest : List Char := []
  deriving DecidableEq, Repr

structure Resourcedefinition where
  Cpu : List Char := []
  Memory : List Char := []
  deriving DecidableEq, Repr

structure Resourcespec where
  ElaunchPrimary : Option Resourcedefinition := none
  Monitor : Option Resourcedefinition := none
  GitFetch : Option Resourcedefinition := none
  deriving DecidableEq, Repr

structure WorkflowSpec where
  Image : List Char := []
  ImagePullSecrets : List (List Char) := []
  Package : Option Gitrepo := none
  Instance : List Char := []
  Debug : Bool := false
  Command : List Char := []
  Volumes : List Volume := []
  VolumeMounts : List VolumeMount := []
  WorkingVolume : Volume := { Name := [] }
  InputDataVolume : Option Volume := none
  Inputs : List (List Char) := []
  Variables : List (List Char) := []
  Data : List (List Char) := []
  AdditionalOptions : List (List Char) := []
  Resources : Option Resourcespec := none
  Env : List EnvVar := []
  S3BucketInput : Option S3BucketInfo := none
  S3FetchFilesImage : List Char := []
  deriving DecidableEq, Repr

/-- A `Workflow` object: the metadata the controller reads, and the spec. -/
structure Workflow where
  Name : List Char := []
  Namespace : List Char := []
  UID : List Char := []
  Labels : List Char → Option (List Char) := fun _ => none
  Spec : WorkflowSpec := {}

structure DefaultWorkflowOptions where
  GitSyncImage : List Char := []
  WorkflowMonitoringImage : List Char := []
  S3FetchFilesImage : List Char := []
  FlowImage : List Char := []
  ImagePullSecrets : List (List Char) := []
  WorkingVolume : List Char := []
  GitSecret : List Char := []
  GitSecretOAuth : List Char := []
  deriving DecidableEq, Repr

structure ConsumableComputingConfig where
  Image : List Char := []
  GitSecret : List Char := []
  GitSecretOAuth : List Char := []
  WorkingVolume : List Char := []
  InputDataDir : List Char := []
  S3FetchFilesImage : List Char := []
  GitSyncImage : List Char := []
  WorkflowMonitoringImage : List Char := []
  ImagePullSecrets : List (List Char) := []
  deriving DecidableEq, Repr

/-! ## The outside world of the controller -/

/-- Result of a Go call that may return a value, return an error, or panic at run
time (nil dereference, index out of range, `MustParse` of a malformed text). -/
inductive Outcome (α : Type) where
  | ok (a : α)
  | error (msg : List Char)
  | panic

/-- Sequencing: the first error or panic ends the call. -/
def Outcome.bind {α β : Type} (x : Outcome α) (f : α → Outcome β) : Outcome β :=
  match x with
  | .ok a => f a
  | .error e => .error e
  | .panic => .panic

instance : Monad Outcome where
  pure := Outcome.ok
  bind := Outcome.bind

/-- A parsed `url.URL` (the fields the controller reads). -/
structure URL where
  Host : List Char
  Path : List Char
  deriving DecidableEq, Repr

/-- Everything outside the program that one call of `newPodForCR` depends on. -/
structure World where
  /-- Go `os.LookupEnv`. -/
  lookupEnv : List Char → Option (List Char)
  /-- Go `strconv.ParseInt(s, 10, 64)`, the error being dropped by the caller. -/
  parseInt : List Char → Int
  /-- The `Data` of a ConfigMap as `r.Client.Get` returns it, if it is found. -/
  getConfigMap : (ns name : List Char) → Option (List Char → Option (List Char))
  /-- Go `json.Unmarshal` into a `ConsumableComputingConfig`: the value decoded
  (possibly in part) and whether decoding succeeded. -/
  jsonUnmarshal : List Char → ConsumableComputingConfig × Bool
  /-- Go `url.Parse`. -/
  urlParse : List Char → Except (List Char) URL
  /-- Whether `resource.MustParse` accepts the text; it panics otherwise. -/
  quantityOk : List Char → Bool
  /-- Order in which a `range` over a map visits its entries in this run. -/
  rangeOrder : List (List Char × List Char) → List (List Char × List Char)

/-- Go `os.Getenv`. -/
def Getenv (w : World) (key : List Char) : List Char :=
  (w.lookupEnv key).getD []

/-- Go `resource.MustParse`. -/
def MustParse (w : World) (s : List Char) : Outcome Quantity :=
  if w.quantityOk s then .ok ⟨s⟩ else .panic

/-! ## `controllers/workflow_controller.go` -/

/-- `getDefaultValues`. -/
def getDefaultValues (w : World) (ns configmap_name : List Char) : DefaultWorkflowOptions :=
  let options : DefaultWorkflowOptions :=
    { GitSyncImage := Getenv w "GIT_SYNC_IMAGE".toList
      WorkflowMonitoringImage := Getenv w "WORKFLOW_MONITORING_IMAGE".toList
      S3FetchFilesImage := Getenv w "S3_FETCH_FILES_IMAGE".toList
      FlowImage := Getenv w "FLOW_IMAGE".toList }
  match w.getConfigMap ns configmap_name with
  | none => options
  | some data =>
    match data "config.json".toList with
    | none => options
    | some configJSONStr =>
      let config := (w.jsonUnmarshal configJSONStr).1
      let options :=
        if config.Image.length > 0 then { options with FlowImage := config.Image } else options
      let options :=
        if config.GitSyncImage.length > 0 then
          { options with GitSyncImage := config.GitSyncImage }
        else options
      let options :=
        if config.S3FetchFilesImage.length > 0 then
          { options with S3FetchFilesImage := config.S3FetchFilesImage }
        else options
      let options :=
        if config.WorkflowMonitoringImage.length > 0 then
          { options with WorkflowMonitoringImage := config.WorkflowMonitoringImage }
        else options
      { options with
        GitSecret := config.GitSecret
        GitSecretOAuth := config.GitSecretOAuth
        WorkingVolume := config.WorkingVolume
        ImagePullSecrets := config.ImagePullSecrets }

/-- `rewrite_absolute_paths`. -/
def rewrite_absolute_paths (paths : List (List Char)) (new_root : List Char) :
    List (List Char) :=
  paths.map fun v => if !HasPrefix v ['/'] then new_root ++ ['/'] ++ v else v

def WorkflowSourcePackageHTTPS : List Char := "https".toList
def WorkflowSourcePackageSSH : List Char := "ssh".toList
def WorkflowSourcePackageConfigMap : List Char := "configMap".toList
def WorkflowSourceUnknown : List Char := "unknown".toList
def WorkflowSourceInstance : List Char := "instance".toList
def WorkflowSourcePackageFromPath : List Char := "fromPath".toList

/-- The package-source classification of `newPodForCR` (lines 385-416): the
resolved `packageSource`, or the error the function returns. -/
def resolvePackageSource (spec : WorkflowSpec) : Outcome (List Char) :=
  let packageSource := WorkflowSourceUnknown
  let afterPackage : Outcome (List Char) :=
    match spec.Package with
    | none => .ok packageSource
    | some pkg =>
      let packageSource :=
        if HasPrefix pkg.URL "https".toList then WorkflowSourcePackageHTTPS
        else if HasPrefix pkg.URL "git@".toList then WorkflowSourcePackageSSH
        else if pkg.FromPath.length > 0 then WorkflowSourcePackageFromPath
        else packageSource
      if pkg.FromConfigMap.length > 0 then
        if packageSource ≠ WorkflowSourceUnknown then
          .error ("spec.package.fromConfigMap set but package is already configured ".toList
            ++ "as ".toList ++ packageSource)
        else .ok WorkflowSourcePackageConfigMap
      else .ok packageSource
  afterPackage.bind fun packageSource =>
    let afterInstance : Outcome (List Char) :=
      if spec.Instance.length > 0 then
        if packageSource ≠ WorkflowSourceUnknown then
          .error ("spec.instance set but spec.package is set too (these fields are ".toList
            ++ "mutually exclusive)".toList)
        else .ok WorkflowSourceInstance
      else .ok packageSource
    afterInstance.bind fun packageSource =>
      if packageSource = WorkflowSourceUnknown then
        .error "workflow object does not have a proper populated spec.package/instance".toList
      else .ok packageSource

/-- Default of `spec.s3FetchFilesImage` (lines 421-424). -/
def injectS3FetchFilesImage (options : DefaultWorkflowOptions) (spec : WorkflowSpec) :
    WorkflowSpec :=
  if spec.S3FetchFilesImage = [] then
    { spec with S3FetchFilesImage := options.S3FetchFilesImage }
  else spec

/-- Default of `spec.image` (lines 426-429). -/
def injectImage (options : DefaultWorkflowOptions) (spec : WorkflowSpec) : WorkflowSpec :=
  if spec.Image = [] then { spec with Image := options.FlowImage } else spec

/-- Default of `spec.package.gitsecret` (lines 431-439). -/
def injectGitsecret (options : DefaultWorkflowOptions) (packageSource : List Char)
    (spec : WorkflowSpec) : WorkflowSpec :=
  match spec.Package with
  | some pkg =>
    if pkg.Gitsecret = [] then
      if packageSource = WorkflowSourcePackageSSH then
        { spec with Package := some { pkg with Gitsecret := options.GitSecret } }
      else if packageSource = WorkflowSourcePackageHTTPS then
        { spec with Package := some { pkg with Gitsecret := options.GitSecretOAuth } }
      else spec
    else spec
  | none => spec

/-- Default of `spec.imagePullSecrets` (lines 441-444). -/
def injectImagePullSecrets (options : DefaultWorkflowOptions) (spec : WorkflowSpec) :
    WorkflowSpec :=
  if spec.ImagePullSecrets.length = 0 then
    { spec with ImagePullSecrets := options.ImagePullSecrets }
  else spec

/-- Default of `spec.workingVolume` (lines 446-458). -/
def injectWorkingVolume (options : DefaultWorkflowOptions) (spec : WorkflowSpec) :
    WorkflowSpec :=
  if spec.WorkingVolume.Name = [] ∧ options.WorkingVolume ≠ [] then
    { spec with
      WorkingVolume :=
        { Name := "working-volume".toList
          VolumeSource :=
            { PersistentVolumeClaim :=
                some { ClaimName := options.WorkingVolume, ReadOnly := false } } } }
  else spec

/-- The "fill in the blanks" step of `newPodForCR` (lines 418-458) as a function
on the spec. -/
def injectValues (options : DefaultWorkflowOptions) (packageSource : List Char)
    (spec : WorkflowSpec) : WorkflowSpec :=
  let spec := injectS3FetchFilesImage options spec
  let spec := injectImage options spec
  let spec := injectGitsecret options packageSource spec
  let spec := injectImagePullSecrets options spec
  let spec := injectWorkingVolume options spec
  spec

def rootDirConfigMapInputData : List Char := "/tmp/inputdir".toList

def rootDirS3InputData : List Char := "/tmp/s3-root-dir".toList

/-- The variable `inputdir` (lines 463, 491-494). -/
def inputdirOf (spec : WorkflowSpec) : List Char :=
  if spec.S3BucketInput.isSome then rootDirS3InputData ++ "/input".toList
  else rootDirConfigMapInputData

/-- The variable `datadir` (lines 464, 491-494). -/
def datadirOf (spec : WorkflowSpec) : List Char :=
  if spec.S3BucketInput.isSome then rootDirS3InputData ++ "/data".toList
  else rootDirConfigMapInputData

/-- The variable `variabledir` (line 465). -/
def variabledir : List Char := rootDirConfigMapInputData

/-- Migration of the deprecated `spec.inputDataVolume` (lines 500-509). -/
def migrateInputDataVolume (spec : WorkflowSpec) : WorkflowSpec :=
  match spec.InputDataVolume with
  | some vol =>
    if vol.Name.length > 0 then
      { spec with
        Volumes := spec.Volumes ++ [vol]
        VolumeMounts :=
          spec.VolumeMounts ++
            [({ Name := vol.Name, MountPath := rootDirConfigMapInputData } : VolumeMount)]
        InputDataVolume := none }
    else spec
  | none => spec

/-- Rewriting of inputs, variables and data to absolute paths (lines 511-514). -/
def rewritePaths (spec : WorkflowSpec) : WorkflowSpec :=
  { spec with
    Inputs := rewrite_absolute_paths spec.Inputs (inputdirOf spec)
    Variables := rewrite_absolute_paths spec.Variables variabledir
    Data := rewrite_absolute_paths spec.Data (datadirOf spec) }

/-- The deprecated-field migration and the path rewriting of `newPodForCR`
(lines 491-514) as a function on the spec. -/
def migrateSpec (spec : WorkflowSpec) : WorkflowSpec :=
  rewritePaths (migrateInputDataVolume spec)

/-- One of the three resource blocks of `newPodForCR`: the hardcoded pair, each
part replaced by the override when that is given and non-empty. -/
def resourceList (w : World) (cpu memory : List Char) (override : Option Resourcedefinition) :
    Outcome ResourceList := do
  let resources : ResourceList := { cpu := ⟨cpu⟩, memory := ⟨memory⟩ }
  match override with
  | none => pure resources
  | some o =>
    let resources ←
      if o.Cpu.length > 0 then do
        let q ← MustParse w o.Cpu
        pure ({ resources with cpu := q } : ResourceList)
      else pure resources
    let resources ←
      if o.Memory.length > 0 then do
        let q ← MustParse w o.Memory
        pure ({ resources with memory := q } : ResourceList)
      else pure resources
    pure resources

/-- The five secret keys of a dataset, as the literal `s3Keys` map lists them. -/
def s3Keys : List (List Char × List Char) :=
  [ ("S3_ACCESS_KEY_ID".toList, "accessKeyID".toList),
    ("S3_SECRET_ACCESS_KEY".toList, "secretAccessKey".toList),
    ("S3_ENDPOINT".toList, "endpoint".toList),
    ("S3_BUCKET".toList, "bucket".toList),
    ("S3_REGION".toList, "region".toList) ]

/-- The package-fetch part of `newPodForCR` (lines 657-728) that depends on the
package source: the clone options, the command override and the volume mounts of
the package-fetch container. -/
def gitSyncSetup (w : World) (packageSource : List Char) (spec : WorkflowSpec)
    (branchName : List Char) (volumeMounts : List VolumeMount) :
    Outcome (List (List Char) × List (List Char) × List VolumeMount) :=
  if packageSource = WorkflowSourcePackageSSH then
    match spec.Package with
    | none => .panic
    | some pkg =>
      let gitCloneOptions :=
        ["--one-time".toList, "--depth=1".toList, "--root=/tmp/git".toList,
          "--submodules=recursive".toList, "--exechook-command".toList]
      let gitCloneOptions :=
        gitCloneOptions ++ ["--ssh".toList, "--ssh-key-file=/etc/git-secret/ssh".toList]
      let gitCloneOptions :=
        if branchName.length > 0 then gitCloneOptions ++ ["--branch=".toList ++ branchName]
        else if pkg.CommitId.length > 0 then gitCloneOptions ++ ["--rev=".toList ++ pkg.CommitId]
        else gitCloneOptions
      let gitCloneOptions := gitCloneOptions ++ ["--repo".toList, pkg.URL]
      .ok (gitCloneOptions, [], volumeMounts)
  else if packageSource = WorkflowSourcePackageHTTPS then
    match spec.Package with
    | none => .panic
    | some pkg =>
      match w.urlParse pkg.URL with
      | .error err => .error err
      | .ok u =>
        if u.Path.length < 1 then .panic
        else
          match (splitSlash (u.Path.drop 1))[1]? with
          | none => .panic
          | some gitRoot =>
            let fullUrl :=
              if pkg.Gitsecret.length > 0 then
                "https://".toList ++ "`cat /etc/git-secret/oauth-token`@".toList ++ u.Host
                  ++ "/".toList ++ u.Path.drop 1
              else pkg.URL
            let fullPath := "/tmp/git/".toList ++ gitRoot
            let cmdGitInit :=
              if pkg.CommitId.length > 0 then
                "mkdir -p ".toList ++ fullPath ++
                  " && cd ".toList ++ fullPath ++
                  " && git init . ".toList ++
                  " && git remote add origin ".toList ++ fullUrl ++
                  " && git fetch --depth 1 origin ".toList ++ pkg.CommitId ++
                  " && git checkout FETCH_HEAD".toList
              else
                let cmdGitInit :=
                  "git clone --recurse-submodules --depth=1 ".toList ++ fullUrl ++ " ".toList
                    ++ fullPath
                if branchName.length > 0 then cmdGitInit ++ " --branch=".toList ++ branchName
                else cmdGitInit
            let cmdGitInit :=
              cmdGitInit ++ " && git -C ".toList ++ fullPath ++
                " submodule update --remote".toList ++
                " &&  git -C ".toList ++ fullPath ++ " remote remove origin".toList
            .ok ([cmdGitInit], ["/bin/sh".toList, "-c".toList], volumeMounts)
  else if packageSource = WorkflowSourcePackageConfigMap then
    match spec.Package with
    | none => .panic
    | some pkg =>
      .ok (["/etc/flowir_package/package.json".toList, "/tmp/git/".toList],
        ["/bin/expand_package.py".toList],
        volumeMounts ++
          [({ Name := pkg.FromConfigMap, MountPath := "/etc/flowir_package".toList } :
            VolumeMount)])
  else .ok ([], [], volumeMounts)

/-- The environment of the bucket-fetch container (lines 913-962). -/
def s3EnvVarsFor (w : World) (s3 : S3BucketInfo) : List EnvVar :=
  let s3EnvVars : List EnvVar := [{ Name := "ROOT_OUTPUT".toList, Value := rootDirS3InputData }]
  if s3.Dataset ≠ [] then
    s3EnvVars ++ (w.rangeOrder s3Keys).map fun (envName, keyName) =>
      ({ Name := envName
         ValueFrom := some { SecretKeyRef := some { Name := s3.Dataset, Key := keyName } } } :
        EnvVar)
  else
    s3EnvVars ++
      [ { Name := "S3_ACCESS_KEY_ID".toList
          Value := s3.AccessKeyID.Value, ValueFrom := s3.AccessKeyID.ValueFrom },
        { Name := "S3_SECRET_ACCESS_KEY".toList
          Value := s3.SecretAccessKey.Value, ValueFrom := s3.SecretAccessKey.ValueFrom },
        { Name := "S3_ENDPOINT".toList
          Value := s3.Endpoint.Value, ValueFrom := s3.Endpoint.ValueFrom },
        { Name := "S3_BUCKET".toList
          Value := s3.Bucket.Value, ValueFrom := s3.Bucket.ValueFrom },
        { Name := "S3_REGION".toList
          Value := s3.Region.Value, ValueFrom := s3.Region.ValueFrom } ]

/-- The arguments of the bucket-fetch container (lines 964-982). -/
def s3FetchCommandFor (spec : WorkflowSpec) : List (List Char) :=
  let s3_dir_input := rootDirS3InputData ++ "/input/".toList
  let s3_dir_data := rootDirS3InputData ++ "/data/".toList
  let s3FetchCommand : List (List Char) := []
  let s3FetchCommand :=
    spec.Inputs.foldl
      (fun cmd v =>
        if HasPrefix v s3_dir_input then
          let s3_path := v.drop s3_dir_input.length
          let complex := SplitPathToSourcePathAndTargetName s3_path
          cmd ++ ["-i".toList, complex.SourcePath]
        else cmd)
      s3FetchCommand
  let s3FetchCommand :=
    spec.Data.foldl
      (fun cmd v =>
        if HasPrefix v s3_dir_data then
          let s3_path := v.drop s3_dir_data.length
          let complex := SplitPathToSourcePathAndTargetName s3_path
          cmd ++ ["-d".toList, complex.SourcePath]
        else cmd)
      s3FetchCommand
  s3FetchCommand

def workdir : List Char := "/tmp/workdir".toList

def gitVolumeNamePackage : List Char := "git-sync-package".toList

def tempVolumeName : List Char := "tmp-volume-name".toList

def configVolumeMount : VolumeMount :=
  { Name := "config-volume".toList
    MountPath := "/etc/podinfo/flow-k8s-conf.yml".toList
    SubPath := "flow-k8s-conf.yml".toList }

def tempVolumeMountPrimary : VolumeMount :=
  { Name := tempVolumeName, MountPath := "/tmp".toList }

def volMountGitSyncConfig : VolumeMount :=
  { Name := "git-sync-config".toList
    MountPath := "/etc/passwd".toList
    SubPath := "passwd".toList }

def volMountS3Fetch : VolumeMount :=
  { Name := "s3-fetch".toList, MountPath := rootDirS3InputData }

/-- The variable `packageMount` (lines 622-625). -/
def packageMountOf (spec : WorkflowSpec) : List Char :=
  match spec.Package with
  | some pkg => if pkg.Mount.length > 0 then pkg.Mount else "/mnt/package".toList
  | none => "/mnt/package".toList

/-- The variable `volumes` as it stands before the S3 block (lines 516-620). -/
def podVolumes (packageSource : List Char) (name : List Char) (spec : WorkflowSpec) :
    Outcome (List Volume) := do
  let volumes := spec.Volumes
  let volumes := volumes ++
    [({ Name := "config-volume".toList
        VolumeSource := { ConfigMap := some { Name := name ++ "-config".toList } } } : Volume)]
  let volumes := volumes ++ [spec.WorkingVolume]
  let volumes :=
    match spec.Package with
    | some pkg =>
      if pkg.Gitsecret.length > 0 then
        volumes ++
          [({ Name := "git-secrets-package".toList
              VolumeSource :=
                { Secret := some { SecretName := pkg.Gitsecret, DefaultMode := some 288 } } } :
            Volume)]
      else volumes
    | none => volumes
  let volumes := volumes ++
    [({ Name := "git-sync-config".toList
        VolumeSource := { ConfigMap := some { Name := "git-sync-config".toList } } } : Volume)]
  let volumes ←
    if packageSource = WorkflowSourcePackageConfigMap then
      match spec.Package with
      | none => Outcome.panic
      | some pkg =>
        pure (volumes ++
          [({ Name := pkg.FromConfigMap
              VolumeSource := { ConfigMap := some { Name := pkg.FromConfigMap } } } : Volume)])
    else pure volumes
  let volumes := volumes ++
    [({ Name := gitVolumeNamePackage, VolumeSource := { EmptyDir := some {} } } : Volume)]
  let volumes := volumes ++
    [({ Name := tempVolumeName, VolumeSource := { EmptyDir := some {} } } : Volume)]
  pure volumes

/-- The variable `volumeMountsPrimary` as it stands before the S3 block
(lines 519-651). -/
def primaryVolumeMounts (spec : WorkflowSpec) : List VolumeMount :=
  let volumeMountsPrimary := spec.VolumeMounts
  let volumeMountsPrimary := volumeMountsPrimary ++ [configVolumeMount]
  let volumeMountsPrimary := volumeMountsPrimary ++
    [({ Name := spec.WorkingVolume.Name, MountPath := workdir } : VolumeMount)]
  let volumeMountsPrimary := volumeMountsPrimary ++
    [({ Name := gitVolumeNamePackage, MountPath := packageMountOf spec } : VolumeMount)]
  let volumeMountsPrimary := volumeMountsPrimary ++ [tempVolumeMountPrimary]
  let volumeMountsPrimary := volumeMountsPrimary ++ [volMountGitSyncConfig]
  volumeMountsPrimary

/-- The variable `envVars` as first built from the spec (lines 534-542). -/
def specEnvVars (spec : WorkflowSpec) : List EnvVar :=
  spec.Env.map fun v => { Name := v.Name, Value := v.Value, ValueFrom := v.ValueFrom }

/-- The package-fetch container (lines 653-770), given what `gitSyncSetup`
returned and the resources. -/
def initContainerPackageOf (user : Int) (options : DefaultWorkflowOptions)
    (spec : WorkflowSpec) (gitCloneOptions overrideCommand : List (List Char))
    (volumeMounts : List VolumeMount) (gitSyncResources : ResourceList) : Container :=
  let volumeMountsGitSyncPackageContainers :=
    match spec.Package with
    | some pkg =>
      if pkg.Gitsecret.length > 0 then
        volumeMounts ++
          [({ Name := "git-secrets-package".toList
              MountPath := "/etc/git-secret".toList } : VolumeMount)]
      else volumeMounts
    | none => volumeMounts
  let initContainerPackage : Container :=
    { Name := "git-sync-package".toList
      Image := options.GitSyncImage
      Resources := { Limits := gitSyncResources, Requests := gitSyncResources }
      ImagePullPolicy := "Always".toList
      Args := gitCloneOptions
      SecurityContext := some { RunAsUser := user, RunAsGroup := user }
      VolumeMounts := volumeMountsGitSyncPackageContainers }
  if overrideCommand.length > 0 then { initContainerPackage with Command := overrideCommand }
  else initContainerPackage

/-- The monitor sidecar (lines 772-824). -/
def monitorElaunchContainerOf (options : DefaultWorkflowOptions) (spec : WorkflowSpec)
    (wfMonitorResources : ResourceList) : Container :=
  let volumeMountsMonitor : List VolumeMount :=
    [ { Name := spec.WorkingVolume.Name, MountPath := "/tmp/workdir".toList },
      tempVolumeMountPrimary,
      configVolumeMount ]
  let volumeMountsMonitor := volumeMountsMonitor ++
    [({ Name := "git-sync-config".toList
        MountPath := "/etc/passwd".toList
        SubPath := "passwd".toList } : VolumeMount)]
  { Name := "monitor-elaunch-container".toList
    Image := options.WorkflowMonitoringImage
    Env := specEnvVars spec
    Lifecycle :=
      some { PreStopExecCommand :=
        ["/bin/sh".toList, "-c".toList, "echo Hello from the postStart handler".toList,
          "sleep 10".toList] }
    Resources := { Limits := wfMonitorResources, Requests := wfMonitorResources }
    ImagePullPolicy := "Always".toList
    VolumeMounts := volumeMountsMonitor }

/-- The variable `command` up to the additional options (lines 826-841). -/
def commandHead (spec : WorkflowSpec) : List (List Char) :=
  let command : List (List Char) :=
    if spec.Command.length > 0 then [spec.Command] else ["elaunch.py".toList]
  let command := spec.Inputs.foldl (fun cmd v => cmd ++ ["-i".toList, v]) command
  let command := spec.Variables.foldl (fun cmd v => cmd ++ ["-a".toList, v]) command
  let command := spec.Data.foldl (fun cmd v => cmd ++ ["-d".toList, v]) command
  command ++ spec.AdditionalOptions

/-- The package path and the command of the primary container (lines 826-875),
with the environment of the primary container; `spec.Package` is dereferenced
without a nil check at line 858. -/
def primaryCommandLine (packageSource : List Char) (spec : WorkflowSpec) :
    Outcome (List (List Char) × List EnvVar) := do
  let envVars := specEnvVars spec
  let packageMount := packageMountOf spec
  let command := commandHead spec
  let fullPath : List Char := []
  let (fullPath, envVars) ←
    if packageSource = WorkflowSourcePackageHTTPS ∨ packageSource = WorkflowSourcePackageSSH then
      match spec.Package with
      | none => Outcome.panic
      | some pkg => pure (pathJoin packageMount (pathBase pkg.URL), envVars)
    else if packageSource = WorkflowSourcePackageConfigMap then
      pure (pathJoin packageMount "lambda.package".toList, envVars)
    else if packageSource = WorkflowSourceInstance then
      pure (pathJoin workdir spec.Instance,
        envVars ++ [({ Name := "INSTANCE_DIR_NAME".toList, Value := spec.Instance } : EnvVar)])
    else pure (fullPath, envVars)
  let pkg ←
    match spec.Package with
    | none => Outcome.panic
    | some pkg => pure pkg
  let command :=
    if pkg.WithManifest.length > 0 then
      if fullPath = [] ∨ filepathIsAbs pkg.WithManifest then
        command ++ ["--manifest".toList, pkg.WithManifest]
      else command ++ ["--manifest".toList, pathJoin fullPath pkg.WithManifest]
    else command
  let fullPath :=
    if pkg.FromPath.length > 0 then
      let fromPath := pkg.FromPath
      if fullPath = [] ∨ filepathIsAbs fromPath then fromPath
      else pathJoin fullPath pkg.FromPath
    else fullPath
  let command := command ++ [fullPath]
  pure (command, envVars)

/-- The bucket-fetch container (lines 899-1003). -/
def s3FetchFilesOf (w : World) (user : Int) (options : DefaultWorkflowOptions)
    (spec : WorkflowSpec) (s3 : S3BucketInfo) (gitSyncResources : ResourceList) : Container :=
  let s3FetchFilesImage :=
    if spec.S3FetchFilesImage ≠ [] then spec.S3FetchFilesImage
    else options.S3FetchFilesImage
  let volumeMountsS3FetchFiles := [volMountS3Fetch, volMountGitSyncConfig]
  { Name := "s3-fetch".toList
    Image := s3FetchFilesImage
    Args := s3FetchCommandFor spec
    Env := s3EnvVarsFor w s3
    ImagePullPolicy := "Always".toList
    VolumeMounts := volumeMountsS3FetchFiles
    Resources := { Limits := gitSyncResources, Requests := gitSyncResources }
    WorkingDir := "/workdir".toList
    SecurityContext := some { RunAsUser := user, RunAsGroup := user } }

/-- The primary container (lines 1010-1027). -/
def primarycontainerOf (spec : WorkflowSpec) (envVars : List EnvVar)
    (volumeMountsPrimary : List VolumeMount) (elaunchResources : ResourceList)
    (command : List (List Char)) : Container :=
  let primarycontainer : Container :=
    { Name := "elaunch-primary".toList
      Image := spec.Image
      Env := envVars
      ImagePullPolicy := "Always".toList
      VolumeMounts := volumeMountsPrimary
      Resources := { Limits := elaunchResources, Requests := elaunchResources }
      WorkingDir := workdir }
  if spec.Debug = true then { primarycontainer with Command := ["echo".toList] ++ command }
  else { primarycontainer with Command := command }

/-- The label map of the pod (lines 482-489): the two fixed labels, overridden by
the labels of the workflow object. -/
def podLabels (cr : Workflow) : List Char → Option (List Char) := fun k =>
  match cr.Labels k with
  | some v => some v
  | none =>
    if k = "workflow".toList then some cr.Name
    else if k = "rest-uid".toList then some cr.UID
    else none

/-- `newPodForCR`: the pod of a workflow, an error, or a run-time panic. The
statements of the Go function are grouped by the variable they build; the steps
that can end the call keep their order. -/
def newPodForCR (w : World) (cr : Workflow) : Outcome Pod := do
  let user := w.parseInt (Getenv w "USER_ID".toList)
  let configmap_name :=
    if Getenv w "CONFIGMAP_NAME".toList ≠ [] then Getenv w "CONFIGMAP_NAME".toList
    else "st4sd-runtime-service".toList
  let options := getDefaultValues w cr.Namespace configmap_name
  let packageSource ← resolvePackageSource cr.Spec
  let spec := injectValues options packageSource cr.Spec
  let fsgroup : Int :=
    match w.lookupEnv "FSGROUP".toList with
    | some t => w.parseInt t
    | none => 5000
  let group_id : Int :=
    match w.lookupEnv "GROUP_ID".toList with
    | some t => w.parseInt t
    | none => 0
  let labels := podLabels cr
  let spec := migrateSpec spec
  let volumes ← podVolumes packageSource cr.Name spec
  let volumeMountsPrimary := primaryVolumeMounts spec
  let branchName :=
    match spec.Package with
    | some pkg => pkg.Branch
    | none => []
  let (gitCloneOptions, overrideCommand, volumeMountsGitSyncPackageContainers) ←
    gitSyncSetup w packageSource spec branchName
      [{ Name := gitVolumeNamePackage, MountPath := "/tmp/git".toList }, volMountGitSyncConfig]
  let gitSyncResources ←
    resourceList w "100m".toList "200Mi".toList (spec.Resources.bind fun r => r.GitFetch)
  let initContainerPackage :=
    initContainerPackageOf user options spec gitCloneOptions overrideCommand
      volumeMountsGitSyncPackageContainers gitSyncResources
  let wfMonitorResources ←
    resourceList w "100m".toList "200Mi".toList (spec.Resources.bind fun r => r.Monitor)
  let monitorElaunchContainer := monitorElaunchContainerOf options spec wfMonitorResources
  let (command, envVars) ← primaryCommandLine packageSource spec
  let elaunchResources ←
    resourceList w "1000m".toList "500Mi".toList (spec.Resources.bind fun r => r.ElaunchPrimary)
  let initcontainers : List Container := []
  let initcontainers :=
    if packageSource = WorkflowSourcePackageHTTPS ∨ packageSource = WorkflowSourcePackageSSH ∨
        packageSource = WorkflowSourcePackageConfigMap then
      initcontainers ++ [initContainerPackage]
    else initcontainers
  let (initcontainers, volumeMountsPrimary, volumes) :=
    match spec.S3BucketInput with
    | none => (initcontainers, volumeMountsPrimary, volumes)
    | some s3 =>
      (initcontainers ++ [s3FetchFilesOf w user options spec s3 gitSyncResources],
        volumeMountsPrimary ++ [volMountS3Fetch],
        volumes ++
          [({ Name := "s3-fetch".toList, VolumeSource := { EmptyDir := some {} } } : Volume)])
  let primarycontainer :=
    primarycontainerOf spec envVars volumeMountsPrimary elaunchResources command
  let containers := [primarycontainer, monitorElaunchContainer]
  let imagePullSecrets := spec.ImagePullSecrets
  let rootuser := w.parseInt (Getenv w "USER_ID".toList)
  let terminationSeconds : Int := 600
  let serviceAccountName :=
    match w.lookupEnv "SERVICE_ACCOUNT_NAME".toList with
    | some t => t
    | none => "workflow-operator".toList
  let podSpec : PodSpec :=
    { ServiceAccountName := serviceAccountName
      RestartPolicy := "Never".toList
      Volumes := volumes
      TerminationGracePeriodSeconds := terminationSeconds
      Containers := containers
      InitContainers := initcontainers
      SecurityContext := { FSGroup := fsgroup, RunAsUser := rootuser, RunAsGroup := group_id }
      ImagePullSecrets := imagePullSecrets }
  pure { Name := cr.Name, Namespace := cr.Namespace, Labels := labels, Spec := podSpec }

/-- A world with an empty environment, no stored configuration and no parsable
URL or quantity. -/
def bareWorld : World :=
  { lookupEnv := fun _ => none
    parseInt := fun _ => 0
    getConfigMap := fun _ _ => none
    jsonUnmarshal := fun _ => ({}, false)
    urlParse := fun _ => .error "parse error".toList
    quantityOk := fun _ => false
    rangeOrder := fun l => l }

/-- The command of the primary container of a returned pod. -/
def primaryCommand (r : Outcome Pod) : Option (List (List Char)) :=
  match r with
  | .ok pod => pod.Spec.Containers.head?.map fun c => c.Command
  | _ => none

/-- The variant the package block resolves before `fromConfigMap` is looked at. -/
def urlOrPathSource (pkg : Gitrepo) : List Char :=
  if HasPrefix pkg.URL "https".toList then WorkflowSourcePackageHTTPS
  else if HasPrefix pkg.URL "git@".toList then WorkflowSourcePackageSSH
  else if pkg.FromPath.length > 0 then WorkflowSourcePackageFromPath
  else WorkflowSourceUnknown

/-! ## Auxiliary notions for the claims on the assembled pod -/

/-- The defaults record `newPodForCR` works with (lines 367-373). -/
def optionsOf (w : World) (cr : Workflow) : DefaultWorkflowOptions :=
  getDefaultValues w cr.Namespace
    (if Getenv w "CONFIGMAP_NAME".toList ≠ [] then Getenv w "CONFIGMAP_NAME".toList
      else "st4sd-runtime-service".toList)

/-- The spec `newPodForCR` assembles the pod from: the spec of the workflow after
the defaults were filled in and the deprecated fields migrated. -/
def effectiveSpec (w : World) (cr : Workflow) (packageSource : List Char) : WorkflowSpec :=
  migrateSpec (injectValues (optionsOf w cr) packageSource cr.Spec)

/-- The variable `branchName` (lines 655-661). -/
def branchNameOf (spec : WorkflowSpec) : List Char :=
  match spec.Package with
  | some pkg => pkg.Branch
  | none => []

/-- The pod `newPodForCR` returns once every step that can end the call has
succeeded (lines 891-1083), as a function of the results of those steps. -/
def assemblePod (w : World) (cr : Workflow) (packageSource : List Char) (spec : WorkflowSpec)
    (volumes : List Volume) (gitCloneOptions overrideCommand : List (List Char))
    (volumeMountsGitSyncPackageContainers : List VolumeMount)
    (gitSyncResources wfMonitorResources : ResourceList) (command : List (List Char))
    (envVars : List EnvVar) (elaunchResources : ResourceList) : Pod :=
  let user := w.parseInt (Getenv w "USER_ID".toList)
  let options := optionsOf w cr
  let initContainerPackage :=
    initContainerPackageOf user options spec gitCloneOptions overrideCommand
      volumeMountsGitSyncPackageContainers gitSyncResources
  let initcontainers : List Container :=
    if packageSource = WorkflowSourcePackageHTTPS ∨ packageSource = WorkflowSourcePackageSSH ∨
        packageSource = WorkflowSourcePackageConfigMap then
      [initContainerPackage]
    else []
  let initcontainers :=
    match spec.S3BucketInput with
    | none => initcontainers
    | some s3 => initcontainers ++ [s3FetchFilesOf w user options spec s3 gitSyncResources]
  let volumeMountsPrimary :=
    match spec.S3BucketInput with
    | none => primaryVolumeMounts spec
    | some _ => primaryVolumeMounts spec ++ [volMountS3Fetch]
  let volumes :=
    match spec.S3BucketInput with
    | none => volumes
    | some _ =>
      volumes ++
        [({ Name := "s3-fetch".toList, VolumeSource := { EmptyDir := some {} } } : Volume)]
  { Name := cr.Name
    Namespace := cr.Namespace
    Labels := podLabels cr
    Spec :=
      { ServiceAccountName :=
          match w.lookupEnv "SERVICE_ACCOUNT_NAME".toList with
          | some t => t
          | none => "workflow-operator".toList
        RestartPolicy := "Never".toList
        Volumes := volumes
        TerminationGracePeriodSeconds := 600
        Containers :=
          [primarycontainerOf spec envVars volumeMountsPrimary elaunchResources command,
            monitorElaunchContainerOf options spec wfMonitorResources]
        InitContainers := initcontainers
        SecurityContext :=
          { FSGroup :=
              match w.lookupEnv "FSGROUP".toList with
              | some t => w.parseInt t
              | none => 5000
            RunAsUser := user
            RunAsGroup :=
              match w.lookupEnv "GROUP_ID".toList with
              | some t => w.parseInt t
              | none => 0 }
        ImagePullSecrets := spec.ImagePullSecrets } }

/-- The steps of `newPodForCR` that can end the call, in their order, each fed
with the results of the steps before it. -/
def podSteps (w : World) (cr : Workflow) : Outcome Pod :=
  (resolvePackageSource cr.Spec).bind fun packageSource =>
    let spec := effectiveSpec w cr packageSource
    (podVolumes packageSource cr.Name spec).bind fun volumes =>
      (gitSyncSetup w packageSource spec (branchNameOf spec)
        [{ Name := gitVolumeNamePackage, MountPath := "/tmp/git".toList },
          volMountGitSyncConfig]).bind fun git =>
        (resourceList w "100m".toList "200Mi".toList
          (spec.Resources.bind fun r => r.GitFetch)).bind fun gitSyncResources =>
          (resourceList w "100m".toList "200Mi".toList
            (spec.Resources.bind fun r => r.Monitor)).bind fun wfMonitorResources =>
            (primaryCommandLine packageSource spec).bind fun cmd =>
              (resourceList w "1000m".toList "500Mi".toList
                (spec.Resources.bind fun r => r.ElaunchPrimary)).bind fun elaunchResources =>
                .ok (assemblePod w cr packageSource spec volumes git.1 git.2.1 git.2.2
                  gitSyncResources wfMonitorResources cmd.1 cmd.2 elaunchResources)

/-- The variable `fullPath` of the primary command as the variant resolves it
(lines 843-857), before `withManifest` and `fromPath` are looked at. -/
def variantPath (packageSource : List Char) (spec : WorkflowSpec) (pkg : Gitrepo) : List Char :=
  if packageSource = WorkflowSourcePackageHTTPS ∨ packageSource = WorkflowSourcePackageSSH then
    pathJoin (packageMountOf spec) (pathBase pkg.URL)
  else if packageSource = WorkflowSourcePackageConfigMap then
    pathJoin (packageMountOf spec) "lambda.package".toList
  else if packageSource = WorkflowSourceInstance then pathJoin workdir spec.Instance
  else []

/-- The `--manifest` arguments of the primary command (lines 858-864), given the
path resolved so far. -/
def manifestArgs (pkg : Gitrepo) (fullPath : List Char) : List (List Char) :=
  if pkg.WithManifest.length > 0 then
    if fullPath = [] ∨ filepathIsAbs pkg.WithManifest then
      ["--manifest".toList, pkg.WithManifest]
    else ["--manifest".toList, pathJoin fullPath pkg.WithManifest]
  else []

/-- The final positional argument of the primary command (lines 866-875), given
the path resolved so far. -/
def packagePath (pkg : Gitrepo) (fullPath : List Char) : List Char :=
  if pkg.FromPath.length > 0 then
    if fullPath = [] ∨ filepathIsAbs pkg.FromPath then pkg.FromPath
    else pathJoin fullPath pkg.FromPath
  else fullPath

/-- The variable `fullUrl` of the https fetch script (lines 689-694). -/
def originUrl (pkg : Gitrepo) (u : URL) : List Char :=
  if pkg.Gitsecret.length > 0 then
    "https://".toList ++ "`cat /etc/git-secret/oauth-token`@".toList ++ u.Host
      ++ "/".toList ++ u.Path.drop 1
  else pkg.URL

/-- The shell script of the https package fetch (lines 696-716) for origin URL
`U`, destination `D`, commit id and branch. -/
def fetchScript (U D commitId branch : List Char) : List Char :=
  (if commitId.length > 0 then
      "mkdir -p ".toList ++ D ++ " && cd ".toList ++ D ++ " && git init . ".toList ++
        " && git remote add origin ".toList ++ U ++
        " && git fetch --depth 1 origin ".toList ++ commitId ++
        " && git checkout FETCH_HEAD".toList
    else
      "git clone --recurse-submodules --depth=1 ".toList ++ U ++ " ".toList ++ D ++
        (if branch.length > 0 then " --branch=".toList ++ branch else []))
    ++ " && git -C ".toList ++ D ++ " submodule update --remote".toList
    ++ " &&  git -C ".toList ++ D ++ " remote remove origin".toList

/-- The package object after the default secret was filled in (lines 431-439). -/
def withDefaultSecret (options : DefaultWorkflowOptions) (packageSource : List Char)
    (pkg : Gitrepo) : Gitrepo :=
  if pkg.Gitsecret = [] then
    if packageSource = WorkflowSourcePackageSSH then { pkg with Gitsecret := options.GitSecret }
    else if packageSource = WorkflowSourcePackageHTTPS then
      { pkg with Gitsecret := options.GitSecretOAuth }
    else pkg
  else pkg

/-- The init containers of a returned pod. -/
def initContainersOf (r : Outcome Pod) : List Container :=
  match r with
  | .ok pod => pod.Spec.InitContainers
  | _ => []

/-- A world in which `url.Parse` knows the URL of the end-to-end example and
every quantity parses; the environment and the stored configuration are empty. -/
def exampleWorld : World :=
  { lookupEnv := fun _ => none
    parseInt := fun _ => 0
    getConfigMap := fun _ _ => none
    jsonUnmarshal := fun _ => ({}, false)
    urlParse := fun s =>
      if s = "https://example.com/org/repo.git".toList then
        .ok { Host := "example.com".toList, Path := "/org/repo.git".toList }
      else .error "parse error".toList
    quantityOk := fun _ => true
    rangeOrder := fun l => l }

/-- The fields of the spec that the "fill in the blanks" step leaves alone agree
in `s` and `t`. -/
def SameFrame (s t : WorkflowSpec) : Prop :=
  t.Command = s.Command ∧ t.Inputs = s.Inputs ∧ t.Variables = s.Variables ∧ t.Data = s.Data
    ∧ t.AdditionalOptions = s.AdditionalOptions ∧ t.Debug = s.Debug ∧ t.Instance = s.Instance
    ∧ t.S3BucketInput = s.S3BucketInput ∧ t.Resources = s.Resources ∧ t.Env = s.Env
    ∧ t.Volumes = s.Volumes ∧ t.VolumeMounts = s.VolumeMounts
    ∧ t.InputDataVolume = s.InputDataVolume

/-! ## Auxiliary notions for the claims on defaults, volumes and resources -/

/-- The deprecated `inputDataVolume` as the migration appends it (lines 500-509):
the volume when it is present and named, nothing otherwise. -/
def legacyVolume (spec : WorkflowSpec) : List Volume :=
  match spec.InputDataVolume with
  | some vol => if vol.Name.length > 0 then [vol] else []
  | none => []

/-- The mount the migration appends for the deprecated `inputDataVolume`
(lines 502-505). -/
def legacyVolumeMount (spec : WorkflowSpec) : List VolumeMount :=
  match spec.InputDataVolume with
  | some vol =>
    if vol.Name.length > 0 then [{ Name := vol.Name, MountPath := rootDirConfigMapInputData }]
    else []
  | none => []

/-- The working volume after the default was filled in (lines 446-458). -/
def withDefaultWorkingVolume (options : DefaultWorkflowOptions) (spec : WorkflowSpec) : Volume :=
  if spec.WorkingVolume.Name = [] ∧ options.WorkingVolume ≠ [] then
    { Name := "working-volume".toList
      VolumeSource :=
        { PersistentVolumeClaim :=
            some { ClaimName := options.WorkingVolume, ReadOnly := false } } }
  else spec.WorkingVolume

/-- The resources of a role as the specification words them: the default pair,
each part replaced by the override of the role when that part is non-empty. -/
def roleResources (cpu memory : List Char) (override : Option Resourcedefinition) :
    ResourceList :=
  match override with
  | none => { cpu := ⟨cpu⟩, memory := ⟨memory⟩ }
  | some o =>
    { cpu := ⟨if o.Cpu ≠ [] then o.Cpu else cpu⟩
      memory := ⟨if o.Memory ≠ [] then o.Memory else memory⟩ }

/-- The volumes `newPodForCR` appends after those of the spec (lines 523-620 and
1005-1007), for the resolved variant, the effective package secret and working
volume. -/
def appendedVolumes (packageSource name : List Char) (pkg : Option Gitrepo)
    (workingVolume : Volume) (s3 : Bool) : List Volume :=
  [({ Name := "config-volume".toList
      VolumeSource := { ConfigMap := some { Name := name ++ "-config".toList } } } : Volume),
    workingVolume]
  ++ (match pkg with
      | some p =>
        if p.Gitsecret ≠ [] then
          [({ Name := "git-secrets-package".toList
              VolumeSource :=
                { Secret := some { SecretName := p.Gitsecret, DefaultMode := some 288 } } } :
            Volume)]
        else []
      | none => [])
  ++ [({ Name := "git-sync-config".toList
         VolumeSource := { ConfigMap := some { Name := "git-sync-config".toList } } } : Volume)]
  ++ (match pkg with
      | some p =>
        if packageSource = WorkflowSourcePackageConfigMap then
          [({ Name := p.FromConfigMap
              VolumeSource := { ConfigMap := some { Name := p.FromConfigMap } } } : Volume)]
        else []
      | none => [])
  ++ [({ Name := "git-sync-package".toList, VolumeSource := { EmptyDir := some {} } } : Volume),
      ({ Name := "tmp-volume-name".toList, VolumeSource := { EmptyDir := some {} } } : Volume)]
  ++ (if s3 then
        [({ Name := "s3-fetch".toList, VolumeSource := { EmptyDir := some {} } } : Volume)]
      else [])

/-- A workflow with the debug flag of its spec set to `d`, everything else kept. -/
def withDebug (cr : Workflow) (d : Bool) : Workflow :=
  { cr with Spec := { cr.Spec with Debug := d } }

/-- The volumes of a returned pod. -/
def volumesOf (r : Outcome Pod) : List Volume :=
  match r with
  | .ok pod => pod.Spec.Volumes
  | _ => []

/-- The names of the volume mounts of all containers of a returned pod. -/
def mountNamesOf (r : Outcome Pod) : List (List Char) :=
  match r with
  | .ok pod =>
    (pod.Spec.InitContainers ++ pod.Spec.Containers).flatMap fun c =>
      c.VolumeMounts.map fun m => m.Name
  | _ => []

/-- A pod with `echo` put in front of the command of its first container, the
primary one; everything else is kept. -/
def echoed (pod : Pod) : Pod :=
  { pod with
    Spec :=
      { pod.Spec with
        Containers :=
          match pod.Spec.Containers with
          | c :: rest => { c with Command := "echo".toList :: c.Command } :: rest
          | [] => [] } }

/-- A world whose environment names the four images and whose ConfigMap, in any
namespace and under any name, holds a `config.json` that `json.Unmarshal` decodes
to `config`, reporting success or failure as `decoded` says. -/
def documentWorld (config : ConsumableComputingConfig) (decoded : Bool) : World :=
  { lookupEnv := fun k =>
      if k = "GIT_SYNC_IMAGE".toList then some "env-git-sync".toList
      else if k = "WORKFLOW_MONITORING_IMAGE".toList then some "env-monitor".toList
      else if k = "S3_FETCH_FILES_IMAGE".toList then some "env-s3-fetch".toList
      else if k = "FLOW_IMAGE".toList then some "env-flow".toList
      else none
    parseInt := fun _ => 0
    getConfigMap := fun _ _ =>
      some fun k => if k = "config.json".toList then some "document".toList else none
    jsonUnmarshal := fun _ => (config, decoded)
    urlParse := fun _ => .error "parse error".toList
    quantityOk := fun _ => true
    rangeOrder := fun l => l }

/-- A world in which `url.Parse` knows the one URL `url`, parsed as `u`, and every
quantity parses; the environment and the stored configuration are empty. -/
def parsingWorld (url : List Char) (u : URL) : World :=
  { lookupEnv := fun _ => none
    parseInt := fun _ => 0
    getConfigMap := fun _ _ => none
    jsonUnmarshal := fun _ => ({}, false)
    urlParse := fun s => if s = url then .ok u else .error "parse error".toList
    quantityOk := fun _ => true
    rangeOrder := fun l => l }

/-- The world `w` in a run in which `range` visits the entries of a map in the
order `r` gives; everything a caller can control is as in `w`. -/
def withRangeOrder (w : World)
    (r : List (List Char × List Char) → List (List Char × List Char)) : World :=
  { w with rangeOrder := r }

/-- The names of the environment variables of each init container of a returned
pod. -/
def initEnvNamesOf (r : Outcome Pod) : List (List (List Char)) :=
  match r with
  | .ok pod => pod.Spec.InitContainers.map fun c => c.Env.map fun e => e.Name
  | _ => []

/-- The arguments of each init container of a returned pod. -/
def initArgsOf (r : Outcome Pod) : List (List (List Char)) :=
  match r with
  | .ok pod => pod.Spec.InitContainers.map fun c => c.Args
  | _ => []

/-! ## Lemmas on the matcher -/

theorem run_reInner_nil (caps : List (Nat × List Char)) :
    reInner.run ([], caps) = [] := by
  simp [reInner, Regex.run]

theorem run_reInner_cons (c : Char) (cs : List Char) (caps : List (Nat × List Char)) :
    reInner.run (c :: cs, caps) = [(cs, (2, [c]) :: caps)] := by
  by_cases h : c = ':' <;> simp [reInner, Regex.run, h]

theorem iterPlus_reInner_nil (fuel : Nat) (caps : List (Nat × List Char)) :
    iterPlus reInner.run fuel ([], caps) = [] := by
  cases fuel <;> simp [iterPlus, run_reInner_nil]

theorem iterPlus_reInner_cons (fuel : Nat) (c : Char) (cs : List Char)
    (caps : List (Nat × List Char)) :
    iterPlus reInner.run (fuel + 1) (c :: cs, caps)
      = iterPlus reInner.run fuel (cs, (2, [c]) :: caps) ++ [(cs, (2, [c]) :: caps)] := by
  simp [iterPlus, run_reInner_cons]

theorem flatMap_map_flatMap {α β γ δ : Type} (l : List α) (f : α → List β) (g : β → γ)
    (h : γ → List δ) :
    ((l.flatMap f).map g).flatMap h = l.flatMap fun a => ((f a).map g).flatMap h := by
  induction l with
  | nil => simp
  | cons a l ih => simp [ih]

theorem run_strPattern (s : List Char) (caps : List (Nat × List Char)) :
    strPattern.run (s, caps)
      = (iterPlus reInner.run (s.length + 1) (s, caps)).flatMap (afterPlus s) := by
  simp only [strPattern, reSourcePath, Regex.run, flatMap_map_flatMap]
  rfl

/-- A thread that stops the loop on a non-viable input dies. -/
theorem afterPlus_not_viable (s r : List Char) (caps : List (Nat × List Char))
    (h : ¬ Viable r) : afterPlus s (r, caps) = [] := by
  match r with
  | [] => simp [afterPlus, Regex.run]
  | [x] =>
    by_cases hx : x = '\\' <;> simp [afterPlus, Regex.run, hx]
  | x :: c :: [] =>
    by_cases hx : x = '\\' <;> by_cases hc : c = ':' <;>
      simp [afterPlus, Regex.run, hx, hc, reTargetName, iterPlus]
  | x :: c :: y :: b =>
    by_cases hx : x = '\\'
    · simp [afterPlus, Regex.run, hx]
    · by_cases hc : c = ':'
      · by_cases hy : y = '\n'
        · simp [afterPlus, Regex.run, hx, hc, hy, reTargetName, iterPlus]
        · exact absurd ⟨x, y, b, by rw [hc], hx, hy⟩ h
      · simp [afterPlus, Regex.run, hx, hc]

/-- When no proper suffix of the unread input is viable, every thread of the loop
dies. -/
theorem iterPlus_dead (s0 : List Char) :
    ∀ (s : List Char) (fuel : Nat) (caps : List (Nat × List Char)),
      (∀ a r, a ≠ [] → s = a ++ r → ¬ Viable r) →
      (iterPlus reInner.run fuel (s, caps)).flatMap (afterPlus s0) = [] := by
  intro s
  induction s with
  | nil => intro fuel caps _; simp [iterPlus_reInner_nil]
  | cons c cs ih =>
    intro fuel caps h
    cases fuel with
    | zero => simp [iterPlus]
    | succ fuel =>
      rw [iterPlus_reInner_cons, List.flatMap_append, ih, List.flatMap_singleton,
        afterPlus_not_viable]
      · rfl
      · exact h [c] cs (by simp) rfl
      · intro a r ha hs
        exact h (c :: a) r (by simp) (by rw [hs]; rfl)

/-- The greedy `.+` on a non-empty input without line feed consumes all of it
first. -/
theorem iterPlus_dot_all (caps : List (Nat × List Char)) :
    ∀ (tgt : List Char) (fuel : Nat), tgt ≠ [] → '\n' ∉ tgt → tgt.length < fuel →
      (iterPlus (Regex.run (.cls fun c => c != '\n')) fuel (tgt, caps)).head?
        = some ([], caps) := by
  intro tgt
  induction tgt with
  | nil => intro fuel h; exact absurd rfl h
  | cons y ys ih =>
    intro fuel _ hnl hlen
    cases fuel with
    | zero => simp at hlen
    | succ fuel =>
      have hy : y ≠ '\n' := fun h => hnl (by simp [h])
      have hys : '\n' ∉ ys := fun h => hnl (by simp [h])
      cases ys with
      | nil =>
        cases fuel with
        | zero => simp at hlen
        | succ fuel => simp [iterPlus, Regex.run, hy]
      | cons z zs =>
        have := ih fuel (by simp) hys (by simpa using hlen)
        simp [iterPlus, Regex.run, hy] at this ⊢
        simp [this]

/-- The thread that stops the loop right before the separator completes the
match, with the whole remaining text as target. -/
theorem afterPlus_split (s : List Char) (d : Char) (tgt : List Char)
    (caps : List (Nat × List Char)) (hd : d ≠ '\\') (ht : tgt ≠ []) (hnl : '\n' ∉ tgt) :
    (afterPlus s (d :: ':' :: tgt, caps)).head?
      = some ([], (3, tgt) :: (1, s.take (s.length - (tgt.length + 1))) :: caps) := by
  have h := iterPlus_dot_all ((1, s.take (s.length - (tgt.length + 1))) :: caps) tgt
    (tgt.length + 1) ht hnl (Nat.lt_succ_self _)
  have e1 : (Regex.cls fun c => c != '\\').run (d :: ':' :: tgt, caps)
      = [(':' :: tgt, caps)] := by simp [Regex.run, hd]
  have e2 : ∀ cp, (Regex.seq (.cls fun c => c == ':') reTargetName).run (':' :: tgt, cp)
      = ((iterPlus (Regex.run (.cls fun c => c != '\n')) (tgt.length + 1) (tgt, cp)).map
          fun t1 => (t1.1, (3, tgt.take (tgt.length - t1.1.length)) :: t1.2)) := by
    intro cp
    simp only [Regex.run, reTargetName]
    simp
  rw [afterPlus, e1, List.map_singleton, List.flatMap_singleton]
  simp only [List.length_cons, e2, List.head?_map, h]
  simp

/-- First match of the loop followed by the rest of the pattern, when the input
ends in `d :: ':' :: tgt` and nothing after `d` is viable. -/
theorem iterPlus_first (s0 : List Char) (d : Char) (tgt : List Char) (hd : d ≠ '\\')
    (ht : tgt ≠ []) (hnl : '\n' ∉ tgt)
    (hdead : ∀ a r, a ≠ [] → d :: ':' :: tgt = a ++ r → ¬ Viable r) :
    ∀ (pre : List Char) (fuel : Nat) (caps : List (Nat × List Char)), pre ≠ [] →
      (pre ++ d :: ':' :: tgt).length < fuel →
      ∃ junk, ((iterPlus reInner.run fuel (pre ++ d :: ':' :: tgt, caps)).flatMap
          (afterPlus s0)).head?
        = some ([], (3, tgt) :: (1, s0.take (s0.length - (tgt.length + 1))) :: junk) := by
  intro pre
  induction pre with
  | nil => intro fuel caps h; exact absurd rfl h
  | cons p ps ih =>
    intro fuel caps _ hlen
    cases fuel with
    | zero => simp at hlen
    | succ fuel =>
      rw [List.cons_append, iterPlus_reInner_cons, List.flatMap_append, List.head?_append,
        List.flatMap_singleton]
      cases ps with
      | nil =>
        refine ⟨(2, [p]) :: caps, ?_⟩
        rw [List.nil_append, iterPlus_dead s0 _ _ _ hdead, afterPlus_split s0 d tgt _ hd ht hnl]
        rfl
      | cons q qs =>
        obtain ⟨junk, hj⟩ := ih fuel ((2, [p]) :: caps) (by simp) (by simpa using hlen)
        exact ⟨junk, by rw [hj]; rfl⟩

theorem find_of_head (re : Regex) (s : List Char) (t : Thread)
    (h : (re.run (s, [])).head? = some t) : re.find s = some t.2 := by
  cases s <;> simp [Regex.find, h]

/-- The search finds the split `src ++ ':' :: tgt` when `src` has at least two
characters, does not end in a backslash, `tgt` is a non-empty line and no later
position is viable. -/
theorem find_split (src tgt : List Char) (hlen : 2 ≤ src.length)
    (hlast : src.getLast? ≠ some '\\') (ht : tgt ≠ []) (hnl : '\n' ∉ tgt)
    (hdead : ∀ a r, ':' :: tgt = a ++ r → ¬ Viable r) :
    ∃ junk, strPattern.find (src ++ ':' :: tgt) = some ((3, tgt) :: (1, src) :: junk) := by
  obtain ⟨pre, d, rfl⟩ : ∃ pre d, src = pre ++ [d] := by
    rcases List.eq_nil_or_concat src with h | ⟨pre, d, h⟩
    · simp [h] at hlen
    · exact ⟨pre, d, by rw [h, List.concat_eq_append]⟩
  have hpre : pre ≠ [] := by
    intro h; simp [h] at hlen
  have hd : d ≠ '\\' := by
    intro h; simp [h] at hlast
  have hdead2 : ∀ a r, a ≠ [] → d :: ':' :: tgt = a ++ r → ¬ Viable r := by
    intro a r ha h
    cases a with
    | nil => exact absurd rfl ha
    | cons a0 a1 =>
      simp only [List.cons_append, List.cons.injEq] at h
      exact hdead a1 r h.2
  obtain ⟨junk, hj⟩ := iterPlus_first ((pre ++ [d]) ++ ':' :: tgt) d tgt hd ht hnl hdead2 pre
    ((pre ++ d :: ':' :: tgt).length + 1) [] hpre (Nat.lt_succ_self _)
  refine ⟨junk, ?_⟩
  have hrun := run_strPattern ((pre ++ [d]) ++ ':' :: tgt) []
  have he : (pre ++ [d]) ++ ':' :: tgt = pre ++ d :: ':' :: tgt := by simp
  rw [he] at hrun hj ⊢
  rw [← hrun] at hj
  rw [find_of_head _ _ _ hj]
  have : (pre ++ d :: ':' :: tgt).length - (tgt.length + 1) = (pre ++ [d]).length := by
    simp; omega
  rw [this]
  have : List.take (pre ++ [d]).length (pre ++ d :: ':' :: tgt) = pre ++ [d] := by
    rw [← he, List.take_left]
  rw [this]

/-- The search fails when no proper suffix of the input is viable. -/
theorem find_none :
    ∀ s : List Char, (∀ a r, a ≠ [] → s = a ++ r → ¬ Viable r) → strPattern.find s = none := by
  intro s
  induction s with
  | nil =>
    intro _
    simp [Regex.find, run_strPattern, iterPlus_reInner_nil]
  | cons c cs ih =>
    intro h
    have hrun : strPattern.run (c :: cs, []) = [] := by
      rw [run_strPattern]
      exact iterPlus_dead _ _ _ _ h
    have hcs : strPattern.find cs = none :=
      ih fun a r ha hs => h (c :: a) r (by simp) (by rw [hs]; rfl)
    simp [Regex.find, hrun, hcs]

/-! ## Lemmas on `ReplaceAll` and `Unescape` -/

theorem replaceScan_pair (a b r : Char) :
    ∀ s : List Char, replaceScan [a, b] [r] 0 s = replacePair a b r s := by
  intro s
  induction s using replacePair.induct a b r with
  | case1 x y rest h ih =>
    obtain ⟨hx, hy⟩ := h
    simp [replaceScan, replacePair, hx, hy, ih]
  | case2 x y rest h ih =>
    have hp : List.isPrefixOf [a, b] (x :: y :: rest) = false := by
      by_cases h1 : a = x
      · by_cases h2 : b = y
        · exact absurd ⟨h1.symm, h2.symm⟩ h
        · simp [List.isPrefixOf, h1, h2]
      · simp [List.isPrefixOf, h1]
    rw [replacePair, if_neg h, ← ih, replaceScan, hp]
    rfl
  | case3 x => simp [replaceScan, replacePair]
  | case4 => simp [replaceScan, replacePair]

theorem Unescape_eq_spec (text : List Char) : Unescape text = unescapeSpec text := by
  simp [Unescape, unescapeSpec, ReplaceAll, replaceScan_pair]

theorem replacePair_eq_nil (a b r : Char) (s : List Char) (h : replacePair a b r s = []) :
    s = [] := by
  match s with
  | [] => rfl
  | [x] => simp [replacePair] at h
  | x :: y :: rest =>
    simp only [replacePair] at h
    split at h <;> simp at h

theorem Unescape_eq_nil (s : List Char) (h : Unescape s = []) : s = [] := by
  rw [Unescape_eq_spec, unescapeSpec] at h
  exact replacePair_eq_nil _ _ _ _ (replacePair_eq_nil _ _ _ _ h)

theorem replacePair_cons_ne (a b r x : Char) (l : List Char) (h : x ≠ a) :
    replacePair a b r (x :: l) = x :: replacePair a b r l := by
  cases l with
  | nil => simp [replacePair]
  | cons y l => simp [replacePair, h]

theorem replacePair_cons_cons_ne (a b r x y : Char) (l : List Char) (h : y ≠ b) :
    replacePair a b r (x :: y :: l) = x :: replacePair a b r (y :: l) := by
  simp [replacePair, h]

theorem esc_cons (c : Char) (cs : List Char) :
    esc (c :: cs)
      = (if c = '\\' then ['\\', '\\'] else if c = ':' then ['\\', ':'] else [c]) ++ esc cs := by
  simp [esc]

theorem esc_head_ne_colon (s b : List Char) : esc s ≠ ':' :: b := by
  cases s with
  | nil => simp [esc]
  | cons c cs =>
    rw [esc_cons]
    by_cases h1 : c = '\\'
    · simp [h1]
    · by_cases h2 : c = ':'
      · simp [h2]
      · simp [h1, h2]

theorem replacePair_backslash_esc (s : List Char) :
    replacePair '\\' ':' ':' ('\\' :: esc s) = '\\' :: replacePair '\\' ':' ':' (esc s) := by
  rcases h : esc s with _ | ⟨y, l⟩
  · simp [replacePair]
  · have : y ≠ ':' := by
      intro hy
      exact esc_head_ne_colon s l (by rw [h, hy])
    exact replacePair_cons_cons_ne _ _ _ _ _ _ this

theorem replacePair_esc (s : List Char) : replacePair '\\' ':' ':' (esc s) = escBackslash s := by
  induction s with
  | nil => simp [esc, escBackslash, replacePair]
  | cons c cs ih =>
    have hb : escBackslash (c :: cs)
        = (if c = '\\' then ['\\', '\\'] else [c]) ++ escBackslash cs := by
      simp [escBackslash]
    rw [esc_cons, hb]
    by_cases h1 : c = '\\'
    · simp only [h1, if_true, List.cons_append, List.nil_append]
      rw [replacePair_cons_cons_ne _ _ _ _ _ _ (by decide), replacePair_backslash_esc, ih]
    · by_cases h2 : c = ':'
      · subst h2
        simp [replacePair, ih]
      · simp only [h1, h2, if_false, List.cons_append, List.nil_append]
        rw [replacePair_cons_ne _ _ _ _ _ h1, ih]

theorem replacePair_escBackslash (s : List Char) :
    replacePair '\\' '\\' '\\' (escBackslash s) = s := by
  induction s with
  | nil => simp [escBackslash, replacePair]
  | cons c cs ih =>
    have hb : escBackslash (c :: cs)
        = (if c = '\\' then ['\\', '\\'] else [c]) ++ escBackslash cs := by
      simp [escBackslash]
    rw [hb]
    by_cases h1 : c = '\\'
    · subst h1
      simp [replacePair, ih]
    · simp only [h1, if_false, List.cons_append, List.nil_append]
      rw [replacePair_cons_ne _ _ _ _ _ h1, ih]

/-- Unescaping an escaped string gives the string back. -/
theorem Unescape_esc (s : List Char) : Unescape (esc s) = s := by
  rw [Unescape_eq_spec, unescapeSpec, replacePair_esc, replacePair_escBackslash]

theorem dead_cons (c : Char) (l : List Char) : Dead (c :: l) ↔ ¬ Viable (c :: l) ∧ Dead l := by
  constructor
  · intro h
    exact ⟨h [] _ rfl, fun a r hs => h (c :: a) r (by rw [hs]; rfl)⟩
  · rintro ⟨h1, h2⟩ a r hs
    cases a with
    | nil => rw [List.nil_append] at hs; rw [← hs]; exact h1
    | cons a0 a1 =>
      simp only [List.cons_append, List.cons.injEq] at hs
      exact h2 a1 r hs.2

theorem dead_nil : Dead [] := by
  intro a r hs
  have : r = [] := by
    cases a <;> simp_all
  rintro ⟨x, y, b, hr, _⟩
  simp [this] at hr

theorem not_viable_backslash (l : List Char) : ¬ Viable ('\\' :: l) := by
  rintro ⟨x, y, b, hr, hx, _⟩
  simp only [List.cons.injEq] at hr
  exact hx hr.1.symm

theorem not_viable_cons_esc (x : Char) (t : List Char) : ¬ Viable (x :: esc t) := by
  rintro ⟨x1, y, b, hr, _, _⟩
  simp only [List.cons.injEq] at hr
  exact esc_head_ne_colon t (y :: b) hr.2

theorem dead_esc (t : List Char) : Dead (esc t) := by
  induction t with
  | nil => simpa [esc] using dead_nil
  | cons c cs ih =>
    rw [esc_cons]
    by_cases h1 : c = '\\'
    · simp only [h1, if_true, List.cons_append, List.nil_append]
      exact (dead_cons _ _).2 ⟨not_viable_backslash _,
        (dead_cons _ _).2 ⟨not_viable_backslash _, ih⟩⟩
    · by_cases h2 : c = ':'
      · simp only [h2, if_true, List.cons_append, List.nil_append]
        exact (dead_cons _ _).2 ⟨not_viable_backslash _,
          (dead_cons _ _).2 ⟨not_viable_cons_esc _ _, ih⟩⟩
      · simp only [h1, h2, if_false, List.cons_append, List.nil_append]
        exact (dead_cons _ _).2 ⟨not_viable_cons_esc _ _, ih⟩

theorem esc_ne_nil (t : List Char) (h : t ≠ []) : esc t ≠ [] := by
  intro he
  have := Unescape_esc t
  rw [he] at this
  exact h this.symm

theorem newline_not_mem_esc (t : List Char) (h : '\n' ∉ t) : '\n' ∉ esc t := by
  intro hm
  simp only [esc, List.mem_flatMap] at hm
  obtain ⟨c, hc, hm⟩ := hm
  by_cases h1 : c = '\\'
  · simp [h1] at hm
  · by_cases h2 : c = ':'
    · simp [h2] at hm
    · simp only [h1, h2, if_false, List.mem_singleton] at hm
      exact h (hm ▸ hc)

theorem esc_append (a b : List Char) : esc (a ++ b) = esc a ++ esc b := by
  simp [esc]

theorem getLast_esc (p : List Char) (h : p.getLast? ≠ some '\\') :
    (esc p).getLast? ≠ some '\\' := by
  rcases List.eq_nil_or_concat p with hp | ⟨pre, d, hp⟩
  · simp [hp, esc]
  · rw [List.concat_eq_append] at hp
    subst hp
    have hd : d ≠ '\\' := by
      intro hd; simp [hd] at h
    rw [esc_append]
    by_cases h2 : d = ':'
    · simp [esc, h2]
    · simp [esc, hd, h2]

/-! ## Positions and suffixes -/

theorem isSeparator_of_viable (a r : List Char) (h : Viable r) :
    IsSeparator (a ++ r) (a.length + 1) := by
  obtain ⟨x, y, b, rfl, hx, _⟩ := h
  refine ⟨?_, Or.inr ?_, ?_⟩
  · rw [List.getElem?_append_right (by omega)]
    simp
  · rw [Nat.add_sub_cancel, List.getElem?_append_right (Nat.le_refl _)]
    simpa using hx
  · simp only [List.length_append, List.length_cons]
    omega

theorem split_of_find_none (path : List Char) (h : strPattern.find path = none) :
    SplitPathToSourcePathAndTargetName path = ⟨Unescape path, none⟩ := by
  simp [SplitPathToSourcePathAndTargetName, h]

theorem split_of_find_some (path src tgt : List Char) (junk : List (Nat × List Char))
    (ht : tgt ≠ []) (h : strPattern.find path = some ((3, tgt) :: (1, src) :: junk)) :
    SplitPathToSourcePathAndTargetName path = ⟨Unescape src, some (Unescape tgt)⟩ := by
  simp [SplitPathToSourcePathAndTargetName, h, submatch, List.lookup, ht]

/-- Splitting `src ++ ":" ++ tgt` at the displayed colon. -/
theorem split_append (src tgt : List Char) (hlen : 2 ≤ src.length)
    (hlast : src.getLast? ≠ some '\\') (ht : tgt ≠ []) (hnl : '\n' ∉ tgt)
    (hdead : Dead (':' :: tgt)) :
    SplitPathToSourcePathAndTargetName (src ++ ':' :: tgt)
      = ⟨Unescape src, some (Unescape tgt)⟩ := by
  obtain ⟨junk, hj⟩ := find_split src tgt hlen hlast ht hnl hdead
  exact split_of_find_some _ _ _ junk ht hj

/-- No match when every suffix is dead. -/
theorem split_dead (s : List Char) (h : Dead s) :
    SplitPathToSourcePathAndTargetName s = ⟨Unescape s, none⟩ :=
  split_of_find_none s (find_none s fun a r _ hs => h a r hs)

theorem dead_of_colons (s : List Char)
    (h : ∀ i, s[i]? = some ':' → (0 < i ∧ s[i - 1]? = some '\\') ∨ i + 1 = s.length) :
    Dead s := by
  intro a r hs hv
  have hsep := isSeparator_of_viable a r hv
  rw [← hs] at hsep
  obtain ⟨h1, h2, h3⟩ := hsep
  rcases h _ h1 with ⟨_, hb⟩ | hl
  · rcases h2 with h0 | hne
    · omega
    · exact hne hb
  · omega

/-! ## Lemmas on the package-source classification -/

theorem source_names_distinct :
    WorkflowSourcePackageHTTPS ≠ WorkflowSourceUnknown
      ∧ WorkflowSourcePackageSSH ≠ WorkflowSourceUnknown
      ∧ WorkflowSourcePackageFromPath ≠ WorkflowSourceUnknown
      ∧ WorkflowSourcePackageConfigMap ≠ WorkflowSourceUnknown
      ∧ WorkflowSourceInstance ≠ WorkflowSourceUnknown := by
  decide

theorem resolve_none (spec : WorkflowSpec) (h : spec.Package = none) :
    resolvePackageSource spec
      = if spec.Instance.length > 0 then .ok WorkflowSourceInstance
        else .error
          "workflow object does not have a proper populated spec.package/instance".toList := by
  obtain ⟨_, _, _, _, n5⟩ := source_names_distinct
  unfold resolvePackageSource
  rw [h]
  by_cases hI : spec.Instance.length > 0 <;> simp [Outcome.bind, hI, n5]

theorem resolve_some (spec : WorkflowSpec) (pkg : Gitrepo) (h : spec.Package = some pkg) :
    resolvePackageSource spec
      = if pkg.FromConfigMap.length > 0 then
          if urlOrPathSource pkg ≠ WorkflowSourceUnknown then
            .error ("spec.package.fromConfigMap set but package is already configured ".toList
              ++ "as ".toList ++ urlOrPathSource pkg)
          else if spec.Instance.length > 0 then
            .error ("spec.instance set but spec.package is set too (these fields are ".toList
              ++ "mutually exclusive)".toList)
          else .ok WorkflowSourcePackageConfigMap
        else if spec.Instance.length > 0 then
          if urlOrPathSource pkg ≠ WorkflowSourceUnknown then
            .error ("spec.instance set but spec.package is set too (these fields are ".toList
              ++ "mutually exclusive)".toList)
          else .ok WorkflowSourceInstance
        else if urlOrPathSource pkg = WorkflowSourceUnknown then
          .error
            "workflow object does not have a proper populated spec.package/instance".toList
        else .ok (urlOrPathSource pkg) := by
  obtain ⟨n1, n2, n3, n4, n5⟩ := source_names_distinct
  unfold resolvePackageSource
  rw [h]
  simp only [← urlOrPathSource.eq_1]
  by_cases hC : pkg.FromConfigMap.length > 0 <;> by_cases hI : spec.Instance.length > 0 <;>
    by_cases hU : urlOrPathSource pkg = WorkflowSourceUnknown <;>
    simp [Outcome.bind, hC, hI, hU, n4, n5]

theorem Outcome.ok_bind {α β : Type} (a : α) (f : α → Outcome β) :
    (Outcome.ok a >>= f) = f a := rfl

theorem Outcome.pure_bind {α β : Type} (a : α) (f : α → Outcome β) :
    ((pure a : Outcome α) >>= f) = f a := rfl

theorem Outcome.error_bind {α β : Type} (e : List Char) (f : α → Outcome β) :
    ((Outcome.error e : Outcome α) >>= f) = Outcome.error e := rfl

theorem Outcome.panic_bind {α β : Type} (f : α → Outcome β) :
    ((Outcome.panic : Outcome α) >>= f) = Outcome.panic := rfl

/-! ## Lemmas on `newPodForCR` -/

/-- An error of the classification is the error of the whole call. -/
theorem newPodForCR_of_resolve_error (w : World) (cr : Workflow) (e : List Char)
    (h : resolvePackageSource cr.Spec = .error e) : newPodForCR w cr = .error e := by
  unfold newPodForCR
  rw [h]
  rfl

theorem migrateSpec_package (spec : WorkflowSpec) :
    (migrateSpec spec).Package = spec.Package := by
  unfold migrateSpec rewritePaths migrateInputDataVolume
  split
  · split <;> rfl
  · rfl

/-- The package object after the defaults were filled in: only `gitsecret` may
have changed. -/
theorem injectValues_package (o : DefaultWorkflowOptions) (ps : List Char)
    (spec : WorkflowSpec) :
    (injectValues o ps spec).Package
      = spec.Package.map fun pkg =>
          if pkg.Gitsecret = [] then
            if ps = WorkflowSourcePackageSSH then { pkg with Gitsecret := o.GitSecret }
            else if ps = WorkflowSourcePackageHTTPS then
              { pkg with Gitsecret := o.GitSecretOAuth }
            else pkg
          else pkg := by
  have h1 : ∀ s, (injectS3FetchFilesImage o s).Package = s.Package := by
    intro s; unfold injectS3FetchFilesImage; split <;> rfl
  have h2 : ∀ s, (injectImage o s).Package = s.Package := by
    intro s; unfold injectImage; split <;> rfl
  have h4 : ∀ s, (injectImagePullSecrets o s).Package = s.Package := by
    intro s; unfold injectImagePullSecrets; split <;> rfl
  have h5 : ∀ s, (injectWorkingVolume o s).Package = s.Package := by
    intro s; unfold injectWorkingVolume; split <;> rfl
  have h3 : ∀ s, (injectGitsecret o ps s).Package
      = s.Package.map fun pkg =>
          if pkg.Gitsecret = [] then
            if ps = WorkflowSourcePackageSSH then { pkg with Gitsecret := o.GitSecret }
            else if ps = WorkflowSourcePackageHTTPS then
              { pkg with Gitsecret := o.GitSecretOAuth }
            else pkg
          else pkg := by
    intro s
    unfold injectGitsecret
    rcases hp : s.Package with _ | pkg
    · simp [hp]
    · simp only [Option.map_some']
      split_ifs <;> simp [hp]
  unfold injectValues
  simp only [h5, h4, h3, h2, h1]

theorem package_after_rewrites (o : DefaultWorkflowOptions) (ps : List Char)
    (spec : WorkflowSpec) (pkg : Gitrepo) (h : spec.Package = some pkg) :
    ∃ pkg2, (migrateSpec (injectValues o ps spec)).Package = some pkg2
      ∧ pkg2.URL = pkg.URL := by
  rw [migrateSpec_package, injectValues_package, h, Option.map_some']
  refine ⟨_, rfl, ?_⟩
  split_ifs <;> rfl

theorem podVolumes_ok (ps name : List Char) (spec : WorkflowSpec)
    (h : ps ≠ WorkflowSourcePackageConfigMap) : ∃ v, podVolumes ps name spec = .ok v := by
  unfold podVolumes
  simp only [h, if_false, Outcome.pure_bind]
  exact ⟨_, rfl⟩

theorem gitSyncSetup_https_parse_error (w : World) (spec : WorkflowSpec) (pkg : Gitrepo)
    (b e : List Char) (vm : List VolumeMount) (hp : spec.Package = some pkg)
    (hu : w.urlParse pkg.URL = .error e) :
    gitSyncSetup w WorkflowSourcePackageHTTPS spec b vm = .error e := by
  have n : WorkflowSourcePackageHTTPS ≠ WorkflowSourcePackageSSH := by decide
  unfold gitSyncSetup
  simp [hp, hu, n]

/-- A URL of the https variant that does not parse ends the call with the parse
error. -/
theorem newPodForCR_https_parse_error (w : World) (cr : Workflow) (pkg : Gitrepo)
    (e : List Char) (hres : resolvePackageSource cr.Spec = .ok WorkflowSourcePackageHTTPS)
    (hp : cr.Spec.Package = some pkg) (hu : w.urlParse pkg.URL = .error e) :
    newPodForCR w cr = .error e := by
  have n : WorkflowSourcePackageHTTPS ≠ WorkflowSourcePackageConfigMap := by decide
  unfold newPodForCR
  rw [hres]
  simp only [Outcome.ok_bind]
  obtain ⟨pkg2, hp2, hurl⟩ := package_after_rewrites
    (getDefaultValues w cr.Namespace
      (if Getenv w "CONFIGMAP_NAME".toList ≠ [] then Getenv w "CONFIGMAP_NAME".toList
        else "st4sd-runtime-service".toList))
    WorkflowSourcePackageHTTPS cr.Spec pkg hp
  have hg := fun b vm => gitSyncSetup_https_parse_error w _ pkg2 b e vm hp2 (by rw [hurl]; exact hu)
  obtain ⟨v, hv⟩ := podVolumes_ok WorkflowSourcePackageHTTPS cr.Name
    (migrateSpec (injectValues
      (getDefaultValues w cr.Namespace
        (if Getenv w "CONFIGMAP_NAME".toList ≠ [] then Getenv w "CONFIGMAP_NAME".toList
          else "st4sd-runtime-service".toList))
      WorkflowSourcePackageHTTPS cr.Spec)) n
  simp only [hv, Outcome.ok_bind, hg, Outcome.error_bind]

/-! ## Claims on the package source resolver -/

theorem not_https_of_git (s : List Char) (h : HasPrefix s "git@".toList = true) :
    HasPrefix s "https".toList = false := by
  cases s with
  | nil => simp [HasPrefix, List.isPrefixOf] at h
  | cons c cs =>
    simp only [HasPrefix, String.toList, List.isPrefixOf, Bool.and_eq_true, beq_iff_eq] at h
    have hc : c = 'g' := h.1.symm
    subst hc
    simp [HasPrefix, List.isPrefixOf]

/-- C1: when the classification succeeds the resolved variant is one of the five
proper variants, never `unknown`: https when package is set and the URL has prefix
`https`; ssh when package is set and the URL has prefix `git@`; fromPath when
package is set, the URL has neither prefix and `fromPath` is non-empty; configMap
when package is set, none of the three applies and `fromConfigMap` is non-empty;
and instance when none of the four applies and `instance` is non-empty. -/
theorem C1_resolved_variant (spec : WorkflowSpec) (v : List Char)
    (h : resolvePackageSource spec = .ok v) :
    v ≠ WorkflowSourceUnknown
    ∧ [WorkflowSourcePackageHTTPS, WorkflowSourcePackageSSH, WorkflowSourcePackageFromPath,
        WorkflowSourcePackageConfigMap, WorkflowSourceInstance, WorkflowSourceUnknown].Nodup
    ∧ (v = WorkflowSourcePackageHTTPS ∨ v = WorkflowSourcePackageSSH
        ∨ v = WorkflowSourcePackageFromPath ∨ v = WorkflowSourcePackageConfigMap
        ∨ v = WorkflowSourceInstance)
    ∧ (∀ pkg, spec.Package = some pkg → HasPrefix pkg.URL "https".toList = true →
        v = WorkflowSourcePackageHTTPS)
    ∧ (∀ pkg, spec.Package = some pkg → HasPrefix pkg.URL "git@".toList = true →
        v = WorkflowSourcePackageSSH)
    ∧ (∀ pkg, spec.Package = some pkg → HasPrefix pkg.URL "https".toList = false →
        HasPrefix pkg.URL "git@".toList = false → pkg.FromPath ≠ [] →
        v = WorkflowSourcePackageFromPath)
    ∧ (∀ pkg, spec.Package = some pkg → HasPrefix pkg.URL "https".toList = false →
        HasPrefix pkg.URL "git@".toList = false → pkg.FromPath = [] →
        pkg.FromConfigMap ≠ [] → v = WorkflowSourcePackageConfigMap)
    ∧ ((spec.Package = none ∨ ∃ pkg, spec.Package = some pkg
          ∧ HasPrefix pkg.URL "https".toList = false ∧ HasPrefix pkg.URL "git@".toList = false
          ∧ pkg.FromPath = [] ∧ pkg.FromConfigMap = []) →
        spec.Instance ≠ [] → v = WorkflowSourceInstance) := by
  obtain ⟨n1, n2, n3, n4, n5⟩ := source_names_distinct
  have nd : [WorkflowSourcePackageHTTPS, WorkflowSourcePackageSSH,
      WorkflowSourcePackageFromPath, WorkflowSourcePackageConfigMap, WorkflowSourceInstance,
      WorkflowSourceUnknown].Nodup := by decide
  refine ⟨?_, nd, ?_⟩
  · intro hv
    subst hv
    rcases hP : spec.Package with _ | pkg
    · rw [resolve_none _ hP] at h
      split_ifs at h
      exact n5 (Outcome.ok.inj h)
    · rw [resolve_some _ _ hP] at h
      split_ifs at h with c1 c2 c3 c4 c5 c6
      · exact n4 (Outcome.ok.inj h)
      · exact n5 (Outcome.ok.inj h)
      · exact c6 (Outcome.ok.inj h)
  · rcases hP : spec.Package with _ | pkg
    · rw [resolve_none _ hP] at h
      split_ifs at h with hI
      have hv := (Outcome.ok.inj h).symm
      subst hv
      simp
    · rw [resolve_some _ _ hP] at h
      by_cases a1 : HasPrefix pkg.URL ['h', 't', 't', 'p', 's'] = true
      · have a2 : HasPrefix pkg.URL ['g', 'i', 't', '@'] = false := by
          by_contra hc
          have := not_https_of_git pkg.URL (by simpa using hc)
          exact absurd (a1.symm.trans this) (by simp)
        have hu : urlOrPathSource pkg = WorkflowSourcePackageHTTPS := by
          simp [urlOrPathSource, a1]
        rw [hu] at h
        split_ifs at h
        have hv := (Outcome.ok.inj h).symm
        subst hv
        simp [a1, a2]
      · have a1f : HasPrefix pkg.URL ['h', 't', 't', 'p', 's'] = false := by simpa using a1
        by_cases a2 : HasPrefix pkg.URL ['g', 'i', 't', '@'] = true
        · have hu : urlOrPathSource pkg = WorkflowSourcePackageSSH := by
            simp [urlOrPathSource, a1f, a2]
          rw [hu] at h
          split_ifs at h
          have hv := (Outcome.ok.inj h).symm
          subst hv
          simp [a1f, a2]
        · have a2f : HasPrefix pkg.URL ['g', 'i', 't', '@'] = false := by simpa using a2
          by_cases a3 : pkg.FromPath = []
          · have hu : urlOrPathSource pkg = WorkflowSourceUnknown := by
              simp [urlOrPathSource, a1f, a2f, a3]
            rw [hu] at h
            by_cases a4 : pkg.FromConfigMap = []
            · by_cases a5 : spec.Instance = []
              · simp [a4, a5] at h
              · have a5p : spec.Instance.length > 0 := List.length_pos.2 a5
                simp [a4, a5p] at h
                subst h
                simp [a1f, a2f, a3, a4]
            · have a4p : pkg.FromConfigMap.length > 0 := List.length_pos.2 a4
              by_cases a5 : spec.Instance = []
              · simp [a4p, a5] at h
                subst h
                simp [a1f, a2f, a3, a4, a5]
              · have a5p : spec.Instance.length > 0 := List.length_pos.2 a5
                simp [a4p, a5p] at h
          · have a3p : pkg.FromPath.length > 0 := List.length_pos.2 a3
            have hu : urlOrPathSource pkg = WorkflowSourcePackageFromPath := by
              simp [urlOrPathSource, a1f, a2f, a3p]
            rw [hu] at h
            split_ifs at h
            have hv := (Outcome.ok.inj h).symm
            subst hv
            simp [a1f, a2f, a3]

theorem C1_resolved_variant_witness :
    resolvePackageSource
        { Package := some { URL := "https://example.com/org/repo.git".toList } }
      = .ok WorkflowSourcePackageHTTPS
    ∧ WorkflowSourcePackageHTTPS ≠ WorkflowSourceUnknown :=
  ⟨rfl, (C1_resolved_variant
    { Package := some { URL := "https://example.com/org/repo.git".toList } }
    WorkflowSourcePackageHTTPS rfl).1⟩

theorem urlOrPathSource_ne_unknown (pkg : Gitrepo)
    (h : HasPrefix pkg.URL "https".toList = true ∨ HasPrefix pkg.URL "git@".toList = true
      ∨ pkg.FromPath ≠ []) :
    urlOrPathSource pkg ≠ WorkflowSourceUnknown := by
  obtain ⟨n1, n2, n3, _, _⟩ := source_names_distinct
  unfold urlOrPathSource
  split_ifs with c1 c2 c3
  · exact n1
  · exact n2
  · exact n3
  · rcases h with h | h | h
    · exact absurd h c1
    · exact absurd h c2
    · exact absurd (List.length_pos.2 h) c3

/-- C2, the code at a failing input: a spec whose package object is set but names
no source, together with an instance. The guard at line 406 tests the resolved
variant and not `package != nil`, so the spec resolves to the instance variant and
a pod is returned, against "Package and Instance are mutually exclusive". -/
theorem C2_source_less_package_with_instance :
    (∃ pod, newPodForCR bareWorld
        { Spec := { Package := some {}, Instance := "inst".toList } } = .ok pod)
    ∧ primaryCommand (newPodForCR bareWorld
        { Spec := { Package := some {}, Instance := "inst".toList } })
      = some ["elaunch.py".toList, "/tmp/workdir/inst".toList] :=
  ⟨⟨_, rfl⟩, by decide⟩

/-- When package is set and names a source (a URL starting with `https` or
`git@`, a non-empty `fromPath` or a non-empty `fromConfigMap`) and `instance` is
non-empty, `newPodForCR` fails with an error and returns no pod. -/
theorem package_source_and_instance_rejected (w : World) (cr : Workflow) (pkg : Gitrepo)
    (hp : cr.Spec.Package = some pkg)
    (hsrc : HasPrefix pkg.URL "https".toList = true ∨ HasPrefix pkg.URL "git@".toList = true
      ∨ pkg.FromPath ≠ [] ∨ pkg.FromConfigMap ≠ [])
    (hi : cr.Spec.Instance ≠ []) :
    ∃ msg, newPodForCR w cr = .error msg := by
  have hI : cr.Spec.Instance.length > 0 := List.length_pos.2 hi
  have hres : ∃ msg, resolvePackageSource cr.Spec = .error msg := by
    rw [resolve_some _ _ hp]
    by_cases hc : pkg.FromConfigMap.length > 0
    · by_cases hu : urlOrPathSource pkg = WorkflowSourceUnknown
      · rw [if_pos hc, if_neg (fun h => h hu), if_pos hI]
        exact ⟨_, rfl⟩
      · rw [if_pos hc, if_pos hu]
        exact ⟨_, rfl⟩
    · have hu : urlOrPathSource pkg ≠ WorkflowSourceUnknown := by
        apply urlOrPathSource_ne_unknown
        rcases hsrc with h | h | h | h
        · exact Or.inl h
        · exact Or.inr (Or.inl h)
        · exact Or.inr (Or.inr h)
        · exact absurd (List.length_pos.2 h) hc
      rw [if_neg hc, if_pos hI, if_pos hu]
      exact ⟨_, rfl⟩
  obtain ⟨msg, hm⟩ := hres
  exact ⟨msg, newPodForCR_of_resolve_error w cr msg hm⟩

theorem package_source_and_instance_rejected_example :
    ∃ msg, newPodForCR bareWorld
      { Spec := { Package := some { FromPath := "/data/pkg".toList },
                  Instance := "inst".toList } } = .error msg :=
  package_source_and_instance_rejected bareWorld _ { FromPath := "/data/pkg".toList } rfl
    (Or.inr (Or.inr (Or.inl (by decide)))) (by decide)

/-- C3: a package whose URL starts with `git@` and whose `fromConfigMap` is
non-empty makes `newPodForCR` return an error and no pod; the message names the
variant already resolved, ssh. -/
theorem C3_ssh_and_config_map (w : World) (cr : Workflow) (pkg : Gitrepo)
    (hp : cr.Spec.Package = some pkg) (hu : HasPrefix pkg.URL "git@".toList = true)
    (hc : pkg.FromConfigMap ≠ []) :
    newPodForCR w cr
      = .error "spec.package.fromConfigMap set but package is already configured as ssh".toList := by
  apply newPodForCR_of_resolve_error
  have n2 := source_names_distinct.2.1
  have hC : pkg.FromConfigMap.length > 0 := List.length_pos.2 hc
  have hs : urlOrPathSource pkg = WorkflowSourcePackageSSH := by
    unfold urlOrPathSource
    rw [not_https_of_git _ hu, hu]
    rfl
  rw [resolve_some _ _ hp, hs, if_pos hC, if_pos n2]
  rfl

theorem C3_ssh_and_config_map_witness :
    newPodForCR bareWorld
        { Spec := { Package := some { URL := "git@github.com:org/repo.git".toList,
                                      FromConfigMap := "pkg-cm".toList } } }
      = .error "spec.package.fromConfigMap set but package is already configured as ssh".toList :=
  C3_ssh_and_config_map bareWorld _
    { URL := "git@github.com:org/repo.git".toList, FromConfigMap := "pkg-cm".toList }
    rfl (by decide) (by decide)

/-- C4: a spec with no resolvable package source (instance empty, and package
absent or with a URL starting with neither `https` nor `git@`, empty `fromPath`
and empty `fromConfigMap`) makes `newPodForCR` return an error and no pod; and so
does a spec of the https variant whose URL fails to parse, the error being the
parse error. -/
theorem C4_unresolved_source_or_malformed_url (w : World) (cr : Workflow) :
    ((cr.Spec.Instance = [] ∧
        (cr.Spec.Package = none ∨ ∃ pkg, cr.Spec.Package = some pkg
          ∧ HasPrefix pkg.URL "https".toList = false ∧ HasPrefix pkg.URL "git@".toList = false
          ∧ pkg.FromPath = [] ∧ pkg.FromConfigMap = [])) →
      ∃ msg, newPodForCR w cr = .error msg)
    ∧ (∀ pkg e, resolvePackageSource cr.Spec = .ok WorkflowSourcePackageHTTPS →
        cr.Spec.Package = some pkg → w.urlParse pkg.URL = .error e →
        newPodForCR w cr = .error e) := by
  constructor
  · rintro ⟨hi, hp | ⟨pkg, hp, h1, h2, h3, h4⟩⟩
    · have hI : ¬ cr.Spec.Instance.length > 0 := by simp [hi]
      exact ⟨_, newPodForCR_of_resolve_error w cr _ (by rw [resolve_none _ hp, if_neg hI])⟩
    · have hu : urlOrPathSource pkg = WorkflowSourceUnknown := by
        unfold urlOrPathSource
        rw [h1, h2]
        simp [h3]
      have hI : ¬ cr.Spec.Instance.length > 0 := by simp [hi]
      have hC : ¬ pkg.FromConfigMap.length > 0 := by simp [h4]
      exact ⟨_, newPodForCR_of_resolve_error w cr _
        (by rw [resolve_some _ _ hp, if_neg hC, if_neg hI, if_pos hu])⟩
  · intro pkg e hres hp hu
    exact newPodForCR_https_parse_error w cr pkg e hres hp hu

theorem C4_unresolved_source_or_malformed_url_witness :
    (∃ msg, newPodForCR bareWorld { Spec := { Package := some {} } } = .error msg)
    ∧ newPodForCR bareWorld
        { Spec := { Package := some { URL := "https://example.com/%zz".toList } } }
      = .error "parse error".toList :=
  ⟨(C4_unresolved_source_or_malformed_url bareWorld { Spec := { Package := some {} } }).1
      ⟨rfl, Or.inr ⟨{}, rfl, by decide, by decide, rfl, rfl⟩⟩,
    (C4_unresolved_source_or_malformed_url bareWorld
      { Spec := { Package := some { URL := "https://example.com/%zz".toList } } }).2
      { URL := "https://example.com/%zz".toList } "parse error".toList rfl rfl rfl⟩

/-- C5, refuted as stated: a package with both a URL and `fromPath` populated is
accepted (the path is taken below the fetched repository), and so is a package
with `fromConfigMap` and a URL that starts with neither `https` nor `git@`. -/
theorem C5_counterexample :
    primaryCommand (newPodForCR bareWorld
        { Spec := { Package := some { URL := "git@github.com:org/repo.git".toList,
                                      FromPath := "sub".toList } } })
      = some ["elaunch.py".toList, "/mnt/package/repo.git/sub".toList]
    ∧ primaryCommand (newPodForCR bareWorld
        { Spec := { Package := some { URL := "ftp://host/pkg".toList,
                                      FromConfigMap := "pkg-cm".toList } } })
      = some ["elaunch.py".toList, "/mnt/package/lambda.package".toList] := by
  decide

/-- C5, amended: a package whose `fromConfigMap` is non-empty and that also has a
URL starting with `https` or `git@`, or a non-empty `fromPath`, makes
`newPodForCR` fail with an error and return no pod. -/
theorem C5_config_map_conflict (w : World) (cr : Workflow) (pkg : Gitrepo)
    (hp : cr.Spec.Package = some pkg) (hc : pkg.FromConfigMap ≠ [])
    (hsrc : HasPrefix pkg.URL "https".toList = true ∨ HasPrefix pkg.URL "git@".toList = true
      ∨ pkg.FromPath ≠ []) :
    ∃ msg, newPodForCR w cr = .error msg := by
  have hC : pkg.FromConfigMap.length > 0 := List.length_pos.2 hc
  have hu := urlOrPathSource_ne_unknown pkg hsrc
  exact ⟨_, newPodForCR_of_resolve_error w cr _
    (by rw [resolve_some _ _ hp, if_pos hC, if_pos hu])⟩

theorem C5_config_map_conflict_witness :
    ∃ msg, newPodForCR bareWorld
      { Spec := { Package := some { FromConfigMap := "pkg-cm".toList,
                                    FromPath := "/data/pkg".toList } } } = .error msg :=
  C5_config_map_conflict bareWorld _
    { FromConfigMap := "pkg-cm".toList, FromPath := "/data/pkg".toList } rfl (by decide)
    (Or.inr (Or.inr (by decide)))

/-! ## Claims on the path escape codec -/

/-- C6, the code at a failing input: in `a:b` the colon at position 1 is not
preceded by a backslash and is followed by a character, and it is the only such
colon, yet the input is not split: the result is the source `a:b` with no target,
where the format `$sourcePath[:$targetName]` gives the source `a` and the target
`b`. The pattern `([^:]|\:)+[^\\]` asks for two characters before the colon. -/
theorem C6_one_character_source_not_split :
    IsSeparator "a:b".toList 1 ∧ (∀ j, IsSeparator "a:b".toList j → j ≤ 1)
      ∧ SplitPathToSourcePathAndTargetName "a:b".toList = ⟨"a:b".toList, none⟩
      ∧ (⟨Unescape ("a:b".toList.take 1), some (Unescape ("a:b".toList.drop (1 + 1)))⟩
          : SourcePathToTargetFileName) = ⟨"a".toList, some "b".toList⟩
      ∧ SplitPathToSourcePathAndTargetName "a:b".toList
          ≠ ⟨Unescape ("a:b".toList.take 1), some (Unescape ("a:b".toList.drop (1 + 1)))⟩ := by
  refine ⟨?_, ?_, by decide, by decide, by decide⟩
  · unfold IsSeparator; decide
  · intro j hj
    have := hj.2.2
    simp at this
    omega

/-- Two more inputs that are not split at their rightmost separating colon: in
`ab:c⏎d` the target stops at the line feed, and `:a`, whose colon has nothing
before it, is not split at all. -/
theorem split_line_feed_and_leading_colon :
    (IsSeparator "ab:c\nd".toList 2 ∧ (∀ j, IsSeparator "ab:c\nd".toList j → j ≤ 2)
      ∧ SplitPathToSourcePathAndTargetName "ab:c\nd".toList = ⟨"ab".toList, some "c".toList⟩
      ∧ SplitPathToSourcePathAndTargetName "ab:c\nd".toList
          ≠ ⟨Unescape ("ab:c\nd".toList.take 2),
              some (Unescape ("ab:c\nd".toList.drop (2 + 1)))⟩)
    ∧ (IsSeparator ":a".toList 0 ∧ (∀ j, IsSeparator ":a".toList j → j ≤ 0)
      ∧ SplitPathToSourcePathAndTargetName ":a".toList = ⟨":a".toList, none⟩) := by
  refine ⟨⟨?_, ?_, by decide, by decide⟩, ⟨?_, ?_, by decide⟩⟩
  · unfold IsSeparator; decide
  · intro j hj
    obtain ⟨h1, -, h3⟩ := hj
    simp at h3
    have : j = 0 ∨ j = 1 ∨ j = 2 ∨ j = 3 ∨ j = 4 := by omega
    rcases this with h | h | h | h | h
    · omega
    · omega
    · omega
    · subst h; simp at h1
    · subst h; simp at h1
  · unfold IsSeparator; decide
  · intro j hj
    have := hj.2.2
    simp at this
    omega

/-- When the rightmost colon that is not immediately preceded by a backslash and
is followed by at least one character sits at a position `i ≥ 2` and the text
after it holds no line feed, the split is at `i`:
`SourcePath = Unescape(path[0..i))` and `TargetName = Unescape(path[i+1..])`. -/
theorem split_at_rightmost_separator (path : List Char) (i : Nat)
    (hsep : IsSeparator path i) (hmax : ∀ j, IsSeparator path j → j ≤ i)
    (h2 : 2 ≤ i) (hnl : '\n' ∉ path.drop (i + 1)) :
    SplitPathToSourcePathAndTargetName path
      = ⟨Unescape (path.take i), some (Unescape (path.drop (i + 1)))⟩ := by
  obtain ⟨hc, hb, hlt⟩ := hsep
  have hi : i < path.length := by omega
  have hci : path[i] = ':' := by
    rw [List.getElem?_eq_getElem hi] at hc
    exact Option.some.inj hc
  have hpath : path = path.take i ++ ':' :: path.drop (i + 1) := by
    conv_lhs => rw [← List.take_append_drop i path, List.drop_eq_getElem_cons hi, hci]
  have hlen : (path.take i).length = i := by
    rw [List.length_take]; omega
  have hlast : (path.take i).getLast? ≠ some '\\' := by
    rw [List.getLast?_eq_getElem?, hlen, List.getElem?_take_of_lt (by omega)]
    rcases hb with h0 | hb
    · omega
    · exact hb
  have ht : path.drop (i + 1) ≠ [] := by
    intro h
    have := congrArg List.length h
    simp at this
    omega
  have hdead : Dead (':' :: path.drop (i + 1)) := by
    intro a r hs hv
    have hsep2 := isSeparator_of_viable (path.take i ++ a) r hv
    rw [List.append_assoc, ← hs, ← hpath] at hsep2
    have := hmax _ hsep2
    rw [List.length_append, hlen] at this
    omega
  rw [hpath]
  have := split_append (path.take i) (path.drop (i + 1)) (by omega) hlast ht hnl hdead
  rw [this, ← hpath]

theorem split_at_rightmost_separator_example :
    SplitPathToSourcePathAndTargetName "/hello/x:y:other".toList
      = ⟨"/hello/x:y".toList, some "other".toList⟩ := by
  have h := split_at_rightmost_separator "/hello/x:y:other".toList 10
    (by unfold IsSeparator; decide)
    (by
      intro j hj
      obtain ⟨h1, -, h3⟩ := hj
      simp at h3
      by_contra hcon
      have : j = 11 ∨ j = 12 ∨ j = 13 ∨ j = 14 := by omega
      rcases this with h | h | h | h <;> subst h <;> simp at h1)
    (by decide) (by decide)
  rw [h]
  decide

/-- C7: for a string in which every colon is immediately preceded by a backslash,
the result is `SourcePath = Unescape(s)` and an absent `TargetName`. -/
theorem C7_split_without_unescaped_colon (s : List Char)
    (h : ∀ i, s[i]? = some ':' → 0 < i ∧ s[i - 1]? = some '\\') :
    SplitPathToSourcePathAndTargetName s = ⟨Unescape s, none⟩ :=
  split_dead s (dead_of_colons s fun i hi => Or.inl (h i hi))

theorem C7_split_without_unescaped_colon_witness :
    SplitPathToSourcePathAndTargetName "\\:escaped".toList = ⟨":escaped".toList, none⟩ := by
  have h := C7_split_without_unescaped_colon "\\:escaped".toList
    (by
      intro i hi
      have hlt : i < 9 := by
        by_contra hcon
        rw [List.getElem?_eq_none (by simpa using hcon)] at hi
        exact absurd hi (by simp)
      have : i = 0 ∨ i = 1 ∨ i = 2 ∨ i = 3 ∨ i = 4 ∨ i = 5 ∨ i = 6 ∨ i = 7 ∨ i = 8 := by
        omega
      rcases this with h | h | h | h | h | h | h | h | h <;> subst h <;> simp at hi ⊢)
  rw [h]
  decide

/-- C8, refuted as stated: in `ab:cd:` the text after the last colon is empty, yet
the input is split at the earlier colon and the source path is not the whole
input. -/
theorem C8_counterexample :
    "ab:cd:".toList[5]? = some ':' ∧ "ab:cd:".toList.drop (5 + 1) = []
      ∧ SplitPathToSourcePathAndTargetName "ab:cd:".toList
          = ⟨"ab".toList, some "cd:".toList⟩
      ∧ SplitPathToSourcePathAndTargetName "ab:cd:".toList
          ≠ ⟨Unescape "ab:cd:".toList, none⟩ := by
  decide

/-- C8, amended: `TargetName` is never present-but-empty (it is absent or, also
after unescaping, non-empty); and when every colon of the input either is
immediately preceded by a backslash or is the final character, the whole input is
the source path and the target is absent. -/
theorem C8_target_never_empty :
    (∀ path : List Char, (SplitPathToSourcePathAndTargetName path).TargetName ≠ some [])
    ∧ (∀ path : List Char,
        (∀ i, path[i]? = some ':' →
          (0 < i ∧ path[i - 1]? = some '\\') ∨ i + 1 = path.length) →
        SplitPathToSourcePathAndTargetName path = ⟨Unescape path, none⟩) := by
  constructor
  · intro path
    simp only [SplitPathToSourcePathAndTargetName]
    cases strPattern.find path with
    | none => simp
    | some m =>
      by_cases ht : submatch m 3 = []
      · simp [ht]
      · simp only [ne_eq, ht, not_false_eq_true, if_true, Option.map_some']
        intro h
        exact ht (Unescape_eq_nil _ (Option.some.inj h))
  · intro path h
    exact split_dead path (dead_of_colons path h)

theorem C8_target_never_empty_witness :
    (SplitPathToSourcePathAndTargetName "ab:cd:".toList).TargetName ≠ some []
      ∧ SplitPathToSourcePathAndTargetName "abc:".toList = ⟨"abc:".toList, none⟩ := by
  refine ⟨C8_target_never_empty.1 _, ?_⟩
  have h := C8_target_never_empty.2 "abc:".toList
    (by
      intro i hi
      have hlt : i < 4 := by
        by_contra hcon
        rw [List.getElem?_eq_none (by simpa using hcon)] at hi
        exact absurd hi (by simp)
      have : i = 0 ∨ i = 1 ∨ i = 2 ∨ i = 3 := by omega
      rcases this with h | h | h | h <;> subst h <;> simp at hi ⊢)
  rw [h]
  decide

/-- C9, the code at a failing input: the path `a` and the target `b`. Their
escaped forms joined by a colon are `a:b`, and splitting that returns the source
`a:b` with no target instead of the source `a` and the target `b`: the pattern
asks for two characters before the separating colon. -/
theorem C9_one_character_path_round_trip_fails :
    esc "a".toList ++ [':'] ++ esc "b".toList = "a:b".toList
      ∧ SplitPathToSourcePathAndTargetName (esc "a".toList ++ [':'] ++ esc "b".toList)
        = ⟨"a:b".toList, none⟩
      ∧ SplitPathToSourcePathAndTargetName (esc "a".toList ++ [':'] ++ esc "b".toList)
        ≠ ⟨"a".toList, some "b".toList⟩ := by
  decide

/-- More inputs on which the round trip fails: the empty path, a path ending in a
backslash and a target holding a line feed. -/
theorem round_trip_other_failures :
    SplitPathToSourcePathAndTargetName (esc [] ++ [':'] ++ esc "b".toList)
        = ⟨":b".toList, none⟩
      ∧ SplitPathToSourcePathAndTargetName (esc "ab\\".toList ++ [':'] ++ esc "x".toList)
        = ⟨"ab\\:x".toList, none⟩
      ∧ SplitPathToSourcePathAndTargetName (esc "ab".toList ++ [':'] ++ esc "c\nd".toList)
        = ⟨"ab".toList, some "c".toList⟩ := by
  decide

/-- For every `p` that does not end in a backslash and whose escaped form has at
least two characters (`p` has two characters or more, or is a single colon), and
every non-empty `t` without line feed, splitting `esc(p) + ":" + esc(t)` returns
`SourcePath = p` and `TargetName = t`. -/
theorem escape_round_trip (p t : List Char) (hp : 2 ≤ (esc p).length)
    (hlast : p.getLast? ≠ some '\\') (ht : t ≠ []) (hnl : '\n' ∉ t) :
    SplitPathToSourcePathAndTargetName (esc p ++ [':'] ++ esc t) = ⟨p, some t⟩ := by
  have hdead : Dead (':' :: esc t) :=
    (dead_cons _ _).2 ⟨not_viable_cons_esc _ _, dead_esc t⟩
  have h := split_append (esc p) (esc t) hp (getLast_esc p hlast) (esc_ne_nil t ht)
    (newline_not_mem_esc t hnl) hdead
  rw [Unescape_esc, Unescape_esc] at h
  rw [← h]
  simp

theorem escape_round_trip_example :
    SplitPathToSourcePathAndTargetName (esc "a:\\b".toList ++ [':'] ++ esc "c:d".toList)
      = ⟨"a:\\b".toList, some "c:d".toList⟩ :=
  escape_round_trip "a:\\b".toList "c:d".toList (by decide) (by decide) (by decide)
    (by decide)

/-- C10: `Unescape(text)` is the text after replacing, left to right, every
non-overlapping `\:` by `:` over the whole string and then every non-overlapping
`\\` by `\` in the result; so backslash-backslash-colon becomes backslash-colon,
not colon. -/
theorem C10_unescape_two_passes :
    (∀ text : List Char,
        Unescape text = replacePair '\\' '\\' '\\' (replacePair '\\' ':' ':' text))
      ∧ Unescape ['\\', '\\', ':'] = ['\\', ':']
      ∧ Unescape ['\\', '\\', ':'] ≠ [':'] :=
  ⟨Unescape_eq_spec, by decide, by decide⟩

theorem Outcome.bind_ok {α β : Type} (a : α) (f : α → Outcome β) :
    (Outcome.ok a).bind f = f a := rfl

theorem Outcome.bind_error {α β : Type} (e : List Char) (f : α → Outcome β) :
    (Outcome.error e : Outcome α).bind f = Outcome.error e := rfl

theorem Outcome.bind_panic {α β : Type} (f : α → Outcome β) :
    (Outcome.panic : Outcome α).bind f = Outcome.panic := rfl

theorem Outcome.bind_eq_ok {α β : Type} (x : Outcome α) (f : α → Outcome β) (b : β)
    (h : x.bind f = .ok b) : ∃ a, x = .ok a ∧ f a = .ok b := by
  cases x with
  | ok a => exact ⟨a, rfl, h⟩
  | error e => simp [Outcome.bind] at h
  | panic => simp [Outcome.bind] at h

set_option maxHeartbeats 1000000 in
theorem newPodForCR_eq_podSteps (w : World) (cr : Workflow) :
    newPodForCR w cr = podSteps w cr := by
  unfold newPodForCR podSteps effectiveSpec optionsOf branchNameOf
  rcases resolvePackageSource cr.Spec with ps | e | _
  · simp only [Outcome.ok_bind, Outcome.bind_ok]
    generalize migrateSpec (injectValues (getDefaultValues w cr.Namespace
      (if Getenv w "CONFIGMAP_NAME".toList ≠ [] then Getenv w "CONFIGMAP_NAME".toList
        else "st4sd-runtime-service".toList)) ps cr.Spec) = S
    rcases podVolumes ps cr.Name S with vols | e | _
    · simp only [Outcome.ok_bind, Outcome.bind_ok]
      rcases gitSyncSetup w ps S
        (match S.Package with
          | some pkg => pkg.Branch
          | none => [])
        [{ Name := gitVolumeNamePackage, MountPath := "/tmp/git".toList },
          volMountGitSyncConfig] with ⟨gco, oc, vm⟩ | e | _
      · simp only [Outcome.ok_bind, Outcome.bind_ok]
        rcases resourceList w "100m".toList "200Mi".toList
          (S.Resources.bind fun r => r.GitFetch) with gsr | e | _
        · simp only [Outcome.ok_bind, Outcome.bind_ok]
          rcases resourceList w "100m".toList "200Mi".toList
            (S.Resources.bind fun r => r.Monitor) with wmr | e | _
          · simp only [Outcome.ok_bind, Outcome.bind_ok]
            rcases primaryCommandLine ps S with ⟨command, envVars⟩ | e | _
            · simp only [Outcome.ok_bind, Outcome.bind_ok]
              rcases resourceList w "1000m".toList "500Mi".toList
                (S.Resources.bind fun r => r.ElaunchPrimary) with er | e | _
              · simp only [Outcome.ok_bind, Outcome.bind_ok]
                unfold assemblePod optionsOf
                rcases S.S3BucketInput with _ | s3 <;> rfl
              · simp only [Outcome.error_bind, Outcome.bind_error]
              · simp only [Outcome.panic_bind, Outcome.bind_panic]
            · simp only [Outcome.error_bind, Outcome.bind_error]
            · simp only [Outcome.panic_bind, Outcome.bind_panic]
          · simp only [Outcome.error_bind, Outcome.bind_error]
          · simp only [Outcome.panic_bind, Outcome.bind_panic]
        · simp only [Outcome.error_bind, Outcome.bind_error]
        · simp only [Outcome.panic_bind, Outcome.bind_panic]
      · simp only [Outcome.error_bind, Outcome.bind_error]
      · simp only [Outcome.panic_bind, Outcome.bind_panic]
    · simp only [Outcome.error_bind, Outcome.bind_error]
    · simp only [Outcome.panic_bind, Outcome.bind_panic]
  · simp only [Outcome.error_bind, Outcome.bind_error]
  · simp only [Outcome.panic_bind, Outcome.bind_panic]

/-- A successful call went through every step, and the pod is assembled from the
results of the steps. -/
theorem newPodForCR_ok_inv (w : World) (cr : Workflow) (pod : Pod)
    (h : newPodForCR w cr = .ok pod) :
    ∃ ps vols git gsr wmr cmd er,
      resolvePackageSource cr.Spec = .ok ps
      ∧ podVolumes ps cr.Name (effectiveSpec w cr ps) = .ok vols
      ∧ gitSyncSetup w ps (effectiveSpec w cr ps) (branchNameOf (effectiveSpec w cr ps))
          [{ Name := gitVolumeNamePackage, MountPath := "/tmp/git".toList },
            volMountGitSyncConfig] = .ok git
      ∧ resourceList w "100m".toList "200Mi".toList
          ((effectiveSpec w cr ps).Resources.bind fun r => r.GitFetch) = .ok gsr
      ∧ resourceList w "100m".toList "200Mi".toList
          ((effectiveSpec w cr ps).Resources.bind fun r => r.Monitor) = .ok wmr
      ∧ primaryCommandLine ps (effectiveSpec w cr ps) = .ok cmd
      ∧ resourceList w "1000m".toList "500Mi".toList
          ((effectiveSpec w cr ps).Resources.bind fun r => r.ElaunchPrimary) = .ok er
      ∧ pod = assemblePod w cr ps (effectiveSpec w cr ps) vols git.1 git.2.1 git.2.2
          gsr wmr cmd.1 cmd.2 er := by
  rw [newPodForCR_eq_podSteps] at h
  unfold podSteps at h
  obtain ⟨ps, h1, h⟩ := Outcome.bind_eq_ok _ _ _ h
  obtain ⟨vols, h2, h⟩ := Outcome.bind_eq_ok _ _ _ h
  obtain ⟨git, h3, h⟩ := Outcome.bind_eq_ok _ _ _ h
  obtain ⟨gsr, h4, h⟩ := Outcome.bind_eq_ok _ _ _ h
  obtain ⟨wmr, h5, h⟩ := Outcome.bind_eq_ok _ _ _ h
  obtain ⟨cmd, h6, h⟩ := Outcome.bind_eq_ok _ _ _ h
  obtain ⟨er, h7, h⟩ := Outcome.bind_eq_ok _ _ _ h
  exact ⟨ps, vols, git, gsr, wmr, cmd, er, h1, h2, h3, h4, h5, h6, h7, (Outcome.ok.inj h).symm⟩

/-! ## The spec the pod is assembled from -/

theorem SameFrame.refl (s : WorkflowSpec) : SameFrame s s :=
  ⟨rfl, rfl, rfl, rfl, rfl, rfl, rfl, rfl, rfl, rfl, rfl, rfl, rfl⟩

theorem SameFrame.trans {s t u : WorkflowSpec} (h1 : SameFrame s t) (h2 : SameFrame t u) :
    SameFrame s u := by
  obtain ⟨a1, a2, a3, a4, a5, a6, a7, a8, a9, a10, a11, a12, a13⟩ := h1
  obtain ⟨b1, b2, b3, b4, b5, b6, b7, b8, b9, b10, b11, b12, b13⟩ := h2
  exact ⟨b1.trans a1, b2.trans a2, b3.trans a3, b4.trans a4, b5.trans a5, b6.trans a6,
    b7.trans a7, b8.trans a8, b9.trans a9, b10.trans a10, b11.trans a11, b12.trans a12,
    b13.trans a13⟩

theorem injectValues_frame (o : DefaultWorkflowOptions) (ps : List Char) (spec : WorkflowSpec) :
    SameFrame spec (injectValues o ps spec) := by
  have h1 : ∀ s, SameFrame s (injectS3FetchFilesImage o s) := by
    intro s; unfold injectS3FetchFilesImage; split <;> exact SameFrame.refl _
  have h2 : ∀ s, SameFrame s (injectImage o s) := by
    intro s; unfold injectImage; split <;> exact SameFrame.refl _
  have h3 : ∀ s, SameFrame s (injectGitsecret o ps s) := by
    intro s; unfold injectGitsecret
    split
    · split_ifs <;> exact SameFrame.refl _
    · exact SameFrame.refl _
  have h4 : ∀ s, SameFrame s (injectImagePullSecrets o s) := by
    intro s; unfold injectImagePullSecrets; split <;> exact SameFrame.refl _
  have h5 : ∀ s, SameFrame s (injectWorkingVolume o s) := by
    intro s; unfold injectWorkingVolume; split <;> exact SameFrame.refl _
  unfold injectValues
  exact (((((h1 spec).trans (h2 _)).trans (h3 _)).trans (h4 _)).trans (h5 _))

/-- The fields of the effective spec that the primary command is built from. -/
theorem effectiveSpec_fields (w : World) (cr : Workflow) (ps : List Char) :
    (effectiveSpec w cr ps).Command = cr.Spec.Command
    ∧ (effectiveSpec w cr ps).Inputs
        = rewrite_absolute_paths cr.Spec.Inputs (inputdirOf cr.Spec)
    ∧ (effectiveSpec w cr ps).Variables = rewrite_absolute_paths cr.Spec.Variables variabledir
    ∧ (effectiveSpec w cr ps).Data = rewrite_absolute_paths cr.Spec.Data (datadirOf cr.Spec)
    ∧ (effectiveSpec w cr ps).AdditionalOptions = cr.Spec.AdditionalOptions
    ∧ (effectiveSpec w cr ps).Debug = cr.Spec.Debug
    ∧ (effectiveSpec w cr ps).Instance = cr.Spec.Instance
    ∧ (effectiveSpec w cr ps).S3BucketInput = cr.Spec.S3BucketInput
    ∧ (effectiveSpec w cr ps).Resources = cr.Spec.Resources := by
  obtain ⟨a1, a2, a3, a4, a5, a6, a7, a8, a9, -, -, -, -⟩ :=
    injectValues_frame (optionsOf w cr) ps cr.Spec
  have hm : ∀ s : WorkflowSpec,
      (migrateInputDataVolume s).Command = s.Command
      ∧ (migrateInputDataVolume s).Inputs = s.Inputs
      ∧ (migrateInputDataVolume s).Variables = s.Variables
      ∧ (migrateInputDataVolume s).Data = s.Data
      ∧ (migrateInputDataVolume s).AdditionalOptions = s.AdditionalOptions
      ∧ (migrateInputDataVolume s).Debug = s.Debug
      ∧ (migrateInputDataVolume s).Instance = s.Instance
      ∧ (migrateInputDataVolume s).S3BucketInput = s.S3BucketInput
      ∧ (migrateInputDataVolume s).Resources = s.Resources := by
    intro s
    unfold migrateInputDataVolume
    split
    · split <;> exact ⟨rfl, rfl, rfl, rfl, rfl, rfl, rfl, rfl, rfl⟩
    · exact ⟨rfl, rfl, rfl, rfl, rfl, rfl, rfl, rfl, rfl⟩
  obtain ⟨b1, b2, b3, b4, b5, b6, b7, b8, b9⟩ := hm (injectValues (optionsOf w cr) ps cr.Spec)
  unfold effectiveSpec migrateSpec rewritePaths inputdirOf datadirOf
  simp only [b1, b2, b3, b4, b5, b6, b7, b8, b9, a1, a2, a3, a4, a5, a6, a7, a8, a9]
  exact ⟨trivial, trivial, trivial, trivial, trivial, trivial, trivial, trivial, trivial⟩

/-- The package object of the effective spec: that of the workflow with the
default secret filled in. -/
theorem effectiveSpec_package (w : World) (cr : Workflow) (ps : List Char) :
    (effectiveSpec w cr ps).Package
      = cr.Spec.Package.map (withDefaultSecret (optionsOf w cr) ps) := by
  unfold effectiveSpec
  rw [migrateSpec_package, injectValues_package]
  rfl

/-! ## The primary command -/

theorem foldl_flag (flag : List Char) (l : List (List Char)) (init : List (List Char)) :
    l.foldl (fun cmd v => cmd ++ [flag, v]) init = init ++ l.flatMap fun v => [flag, v] := by
  induction l generalizing init with
  | nil => simp
  | cons x xs ih => simp [ih]

theorem commandHead_eq (spec : WorkflowSpec) :
    commandHead spec
      = [if spec.Command ≠ [] then spec.Command else "elaunch.py".toList]
        ++ (spec.Inputs.flatMap fun x => ["-i".toList, x])
        ++ (spec.Variables.flatMap fun x => ["-a".toList, x])
        ++ (spec.Data.flatMap fun x => ["-d".toList, x])
        ++ spec.AdditionalOptions := by
  unfold commandHead
  simp only [foldl_flag]
  by_cases hc : spec.Command = []
  · simp [hc]
  · have : spec.Command.length > 0 := List.length_pos.2 hc
    simp [hc, this]

theorem instance_ne_others :
    WorkflowSourceInstance ≠ WorkflowSourcePackageHTTPS
      ∧ WorkflowSourceInstance ≠ WorkflowSourcePackageSSH
      ∧ WorkflowSourceInstance ≠ WorkflowSourcePackageConfigMap := by
  decide

/-- With a package object the primary command is built without a panic. -/
theorem primaryCommandLine_some (ps : List Char) (spec : WorkflowSpec) (pkg : Gitrepo)
    (hp : spec.Package = some pkg) :
    primaryCommandLine ps spec
      = .ok (commandHead spec ++ manifestArgs pkg (variantPath ps spec pkg)
              ++ [packagePath pkg (variantPath ps spec pkg)],
            if ps = WorkflowSourceInstance then
              specEnvVars spec ++
                [({ Name := "INSTANCE_DIR_NAME".toList, Value := spec.Instance } : EnvVar)]
            else specEnvVars spec) := by
  obtain ⟨i1, i2, i3⟩ := instance_ne_others
  unfold primaryCommandLine variantPath manifestArgs packagePath
  rw [hp]
  by_cases h1 : ps = WorkflowSourcePackageHTTPS ∨ ps = WorkflowSourcePackageSSH
  · have hi : ps ≠ WorkflowSourceInstance := by
      rintro rfl
      rcases h1 with h | h
      · exact i1 h
      · exact i2 h
    simp only [h1, hi, if_true, if_false, Outcome.pure_bind]
    split_ifs <;> first | rfl | (simp only [List.append_nil]; rfl)
  · by_cases h2 : ps = WorkflowSourcePackageConfigMap
    · subst h2
      have hA : ¬ (WorkflowSourcePackageConfigMap = WorkflowSourcePackageHTTPS
          ∨ WorkflowSourcePackageConfigMap = WorkflowSourcePackageSSH) := by decide
      have hB : WorkflowSourcePackageConfigMap ≠ WorkflowSourceInstance := by decide
      simp only [hA, hB, if_true, if_false, Outcome.pure_bind]
      split_ifs <;> first | rfl | (simp only [List.append_nil]; rfl)
    · by_cases h3 : ps = WorkflowSourceInstance
      · subst h3
        have hA : ¬ (WorkflowSourceInstance = WorkflowSourcePackageHTTPS
            ∨ WorkflowSourceInstance = WorkflowSourcePackageSSH) := by decide
        simp only [hA, i3, if_true, if_false, Outcome.pure_bind]
        split_ifs <;> first | rfl | (simp only [List.append_nil]; rfl)
      · simp only [h1, h2, h3, if_true, if_false, Outcome.pure_bind]
        split_ifs <;> first | rfl | (simp only [List.append_nil]; rfl)

/-- Without a package object the dereference at line 858 panics. -/
theorem primaryCommandLine_none (ps : List Char) (spec : WorkflowSpec)
    (hp : spec.Package = none) : primaryCommandLine ps spec = .panic := by
  unfold primaryCommandLine
  rw [hp]
  split_ifs <;> rfl

theorem withDefaultSecret_fields (o : DefaultWorkflowOptions) (ps : List Char) (pkg : Gitrepo) :
    (withDefaultSecret o ps pkg).URL = pkg.URL
    ∧ (withDefaultSecret o ps pkg).Branch = pkg.Branch
    ∧ (withDefaultSecret o ps pkg).CommitId = pkg.CommitId
    ∧ (withDefaultSecret o ps pkg).Mount = pkg.Mount
    ∧ (withDefaultSecret o ps pkg).FromConfigMap = pkg.FromConfigMap
    ∧ (withDefaultSecret o ps pkg).FromPath = pkg.FromPath
    ∧ (withDefaultSecret o ps pkg).WithManifest = pkg.WithManifest := by
  unfold withDefaultSecret
  split_ifs <;> exact ⟨rfl, rfl, rfl, rfl, rfl, rfl, rfl⟩

theorem effectiveSpec_packageMount (w : World) (cr : Workflow) (ps : List Char) :
    packageMountOf (effectiveSpec w cr ps) = packageMountOf cr.Spec := by
  unfold packageMountOf
  rw [effectiveSpec_package]
  rcases cr.Spec.Package with _ | pkg
  · rfl
  · simp only [Option.map_some', (withDefaultSecret_fields _ _ _).2.2.2.1]

theorem effectiveSpec_variantPath (w : World) (cr : Workflow) (ps : List Char) (pkg : Gitrepo) :
    variantPath ps (effectiveSpec w cr ps) (withDefaultSecret (optionsOf w cr) ps pkg)
      = variantPath ps cr.Spec pkg := by
  unfold variantPath
  rw [effectiveSpec_packageMount, (withDefaultSecret_fields _ _ _).1,
    (effectiveSpec_fields w cr ps).2.2.2.2.2.2.1]

theorem manifestArgs_withDefaultSecret (o : DefaultWorkflowOptions) (ps : List Char)
    (pkg : Gitrepo) (p : List Char) :
    manifestArgs (withDefaultSecret o ps pkg) p = manifestArgs pkg p := by
  unfold manifestArgs
  rw [(withDefaultSecret_fields _ _ _).2.2.2.2.2.2]

theorem packagePath_withDefaultSecret (o : DefaultWorkflowOptions) (ps : List Char)
    (pkg : Gitrepo) (p : List Char) :
    packagePath (withDefaultSecret o ps pkg) p = packagePath pkg p := by
  unfold packagePath
  rw [(withDefaultSecret_fields _ _ _).2.2.2.2.2.1]

theorem primarycontainerOf_command (spec : WorkflowSpec) (envVars : List EnvVar)
    (vm : List VolumeMount) (er : ResourceList) (command : List (List Char)) :
    (primarycontainerOf spec envVars vm er command).Command
      = (if spec.Debug = true then ["echo".toList] else []) ++ command
    ∧ (primarycontainerOf spec envVars vm er command).Env = envVars := by
  unfold primarycontainerOf
  split_ifs <;> exact ⟨rfl, rfl⟩

/-- The primary container of a returned pod: the variant, the package object of
the workflow, the command and the environment. -/
theorem primary_of_ok (w : World) (cr : Workflow) (pod : Pod)
    (h : newPodForCR w cr = .ok pod) :
    ∃ ps pkg c, resolvePackageSource cr.Spec = .ok ps ∧ cr.Spec.Package = some pkg
      ∧ pod.Spec.Containers.head? = some c
      ∧ c.Command
          = (if cr.Spec.Debug = true then ["echo".toList] else [])
            ++ (commandHead (effectiveSpec w cr ps)
              ++ manifestArgs pkg (variantPath ps cr.Spec pkg)
              ++ [packagePath pkg (variantPath ps cr.Spec pkg)])
      ∧ c.Env
          = if ps = WorkflowSourceInstance then
              specEnvVars (effectiveSpec w cr ps) ++
                [({ Name := "INSTANCE_DIR_NAME".toList, Value := cr.Spec.Instance } : EnvVar)]
            else specEnvVars (effectiveSpec w cr ps) := by
  obtain ⟨ps, vols, git, gsr, wmr, cmd, er, h1, -, -, -, -, h6, -, hpod⟩ :=
    newPodForCR_ok_inv w cr pod h
  have hpk := effectiveSpec_package w cr ps
  rcases hp0 : cr.Spec.Package with _ | pkg
  · rw [hp0, Option.map_none'] at hpk
    rw [primaryCommandLine_none _ _ hpk] at h6
    exact absurd h6 (by simp)
  · rw [hp0, Option.map_some'] at hpk
    rw [primaryCommandLine_some _ _ _ hpk] at h6
    have hcmd := (Outcome.ok.inj h6).symm
    refine ⟨ps, pkg, _, h1, rfl, by rw [hpod]; rfl, ?_, ?_⟩
    · rw [(primarycontainerOf_command _ _ _ _ _).1, hcmd,
        (effectiveSpec_fields w cr ps).2.2.2.2.2.1, effectiveSpec_variantPath,
        manifestArgs_withDefaultSecret, packagePath_withDefaultSecret]
    · rw [(primarycontainerOf_command _ _ _ _ _).2, hcmd,
        (effectiveSpec_fields w cr ps).2.2.2.2.2.2.1]

/-! ## Claims on unescaping and on the primary command -/

/-- C11: `Unescape` inverts escaping: for every string `s`,
`Unescape(esc(s)) = s`, where `esc` replaces every `\` by `\\` and every `:` by
`\:`. -/
theorem C11_unescape_inverts_escape (s : List Char) : Unescape (esc s) = s :=
  Unescape_esc s

/-- C12: on success with debug unset the command of the primary container is the
launcher (`spec.command` if non-empty, else `elaunch.py`), then `-i x` for each
rewritten input, `-a x` for each rewritten variable, `-d x` for each rewritten
data entry, then the additional options, then the optional `--manifest m`, then
the resolved package path, which is therefore the last element. -/
theorem C12_primary_command (w : World) (cr : Workflow) (pod : Pod)
    (h : newPodForCR w cr = .ok pod) (hd : cr.Spec.Debug = false) :
    ∃ ps pkg c, resolvePackageSource cr.Spec = .ok ps ∧ cr.Spec.Package = some pkg
      ∧ pod.Spec.Containers.head? = some c
      ∧ c.Command
          = [if cr.Spec.Command ≠ [] then cr.Spec.Command else "elaunch.py".toList]
            ++ ((rewrite_absolute_paths cr.Spec.Inputs (inputdirOf cr.Spec)).flatMap
                fun x => ["-i".toList, x])
            ++ ((rewrite_absolute_paths cr.Spec.Variables variabledir).flatMap
                fun x => ["-a".toList, x])
            ++ ((rewrite_absolute_paths cr.Spec.Data (datadirOf cr.Spec)).flatMap
                fun x => ["-d".toList, x])
            ++ cr.Spec.AdditionalOptions
            ++ manifestArgs pkg (variantPath ps cr.Spec pkg)
            ++ [packagePath pkg (variantPath ps cr.Spec pkg)]
      ∧ (manifestArgs pkg (variantPath ps cr.Spec pkg) = []
          ∨ ∃ m, manifestArgs pkg (variantPath ps cr.Spec pkg) = ["--manifest".toList, m])
      ∧ c.Command.getLast? = some (packagePath pkg (variantPath ps cr.Spec pkg)) := by
  obtain ⟨ps, pkg, c, h1, h2, h3, h4, -⟩ := primary_of_ok w cr pod h
  obtain ⟨f1, f2, f3, f4, f5, -⟩ := effectiveSpec_fields w cr ps
  rw [hd, commandHead_eq, f1, f2, f3, f4, f5] at h4
  simp only [Bool.false_eq_true, if_false, List.nil_append] at h4
  refine ⟨ps, pkg, c, h1, h2, h3, h4, ?_, ?_⟩
  · unfold manifestArgs
    split_ifs
    · exact Or.inr ⟨_, rfl⟩
    · exact Or.inr ⟨_, rfl⟩
    · exact Or.inl rfl
  · rw [h4, List.getLast?_append]
    rfl

theorem C12_primary_command_witness :
    ∃ pod, newPodForCR bareWorld
        { Spec := { Package := some { URL := "git@github.com:org/repo.git".toList,
                                      WithManifest := "m.yaml".toList },
                    Inputs := ["in.txt".toList], Data := ["/abs/d.csv".toList],
                    AdditionalOptions := ["--log-level=15".toList] } } = .ok pod
      ∧ (pod.Spec.Containers.head?.map fun c => c.Command)
        = some ["elaunch.py".toList, "-i".toList, "/tmp/inputdir/in.txt".toList, "-d".toList,
            "/abs/d.csv".toList, "--log-level=15".toList, "--manifest".toList,
            "/mnt/package/repo.git/m.yaml".toList, "/mnt/package/repo.git".toList] := by
  refine ⟨_, rfl, ?_⟩
  obtain ⟨ps, pkg, c, h1, h2, h3, h4, -, -⟩ := C12_primary_command bareWorld
    { Spec := { Package := some { URL := "git@github.com:org/repo.git".toList,
                                  WithManifest := "m.yaml".toList },
                Inputs := ["in.txt".toList], Data := ["/abs/d.csv".toList],
                AdditionalOptions := ["--log-level=15".toList] } } _ rfl rfl
  have hps := (Outcome.ok.inj h1).symm
  have hpk := (Option.some.inj h2).symm
  subst hps hpk
  rw [h3, Option.map_some', h4]
  decide

/-- C13: on success, with `mount` the package mount (`package.mount` if
non-empty, else `/mnt/package`), the final positional argument of the primary
command is built from the path the variant resolves: `path.Join(mount,
path.Base(URL))` for https and ssh, `path.Join(mount, "lambda.package")` for
configMap, `path.Join("/tmp/workdir", instance)` for an instance, and nothing,
the empty path, for fromPath; the variant is one of these five. When `fromPath`
is non-empty the argument is `fromPath` itself if that is absolute or nothing was
resolved before, and `path.Join(resolved, fromPath)` otherwise; when `fromPath`
is empty it is the resolved path. For `https://example.com/org/repo.git` and the
default mount it is `/mnt/package/repo.git`. -/
theorem C13_final_argument :
    (∀ (w : World) (cr : Workflow) (pod : Pod), newPodForCR w cr = .ok pod →
      ∃ ps pkg c resolved, resolvePackageSource cr.Spec = .ok ps ∧ cr.Spec.Package = some pkg
        ∧ pod.Spec.Containers.head? = some c
        ∧ c.Command.getLast?
            = some (if pkg.FromPath ≠ [] then
                      if resolved = [] ∨ filepathIsAbs pkg.FromPath = true then pkg.FromPath
                      else pathJoin resolved pkg.FromPath
                    else resolved)
        ∧ (ps = WorkflowSourcePackageHTTPS ∨ ps = WorkflowSourcePackageSSH →
            resolved = pathJoin (if pkg.Mount ≠ [] then pkg.Mount else "/mnt/package".toList)
              (pathBase pkg.URL))
        ∧ (ps = WorkflowSourcePackageConfigMap →
            resolved = pathJoin (if pkg.Mount ≠ [] then pkg.Mount else "/mnt/package".toList)
              "lambda.package".toList)
        ∧ (ps = WorkflowSourceInstance →
            resolved = pathJoin "/tmp/workdir".toList cr.Spec.Instance)
        ∧ (ps = WorkflowSourcePackageFromPath → resolved = [])
        ∧ (ps = WorkflowSourcePackageHTTPS ∨ ps = WorkflowSourcePackageSSH
            ∨ ps = WorkflowSourcePackageConfigMap ∨ ps = WorkflowSourceInstance
            ∨ ps = WorkflowSourcePackageFromPath))
    ∧ (primaryCommand (newPodForCR exampleWorld
          { Spec := { Package := some { URL := "https://example.com/org/repo.git".toList } } })
        ).bind List.getLast? = some "/mnt/package/repo.git".toList := by
  constructor
  · intro w cr pod h
    obtain ⟨ps, pkg, c, h1, h2, h3, h4, -⟩ := primary_of_ok w cr pod h
    have hm : packageMountOf cr.Spec
        = if pkg.Mount ≠ [] then pkg.Mount else "/mnt/package".toList := by
      unfold packageMountOf
      rw [h2]
      by_cases hM : pkg.Mount = []
      · simp [hM]
      · have : pkg.Mount.length > 0 := List.length_pos.2 hM
        simp [hM, this]
    refine ⟨ps, pkg, c, variantPath ps cr.Spec pkg, h1, h2, h3, ?_, ?_, ?_, ?_, ?_, ?_⟩
    · rw [h4, ← List.append_assoc, List.getLast?_append]
      unfold packagePath
      by_cases hF : pkg.FromPath = []
      · simp [hF]
      · have : pkg.FromPath.length > 0 := List.length_pos.2 hF
        simp [hF, this]
    · intro hv
      unfold variantPath
      rw [if_pos hv, hm]
    · intro hv
      have hn : ¬ (ps = WorkflowSourcePackageHTTPS ∨ ps = WorkflowSourcePackageSSH) := by
        subst hv
        decide
      unfold variantPath
      rw [if_neg hn, if_pos hv, hm]
    · intro hv
      subst hv
      have hn : ¬ (WorkflowSourceInstance = WorkflowSourcePackageHTTPS
          ∨ WorkflowSourceInstance = WorkflowSourcePackageSSH) := by decide
      have hn2 : WorkflowSourceInstance ≠ WorkflowSourcePackageConfigMap := by decide
      unfold variantPath
      rw [if_neg hn, if_neg hn2, if_pos rfl]
      rfl
    · intro hv
      subst hv
      have hn : ¬ (WorkflowSourcePackageFromPath = WorkflowSourcePackageHTTPS
          ∨ WorkflowSourcePackageFromPath = WorkflowSourcePackageSSH) := by decide
      have hn2 : WorkflowSourcePackageFromPath ≠ WorkflowSourcePackageConfigMap := by decide
      have hn3 : WorkflowSourcePackageFromPath ≠ WorkflowSourceInstance := by decide
      unfold variantPath
      rw [if_neg hn, if_neg hn2, if_neg hn3]
    · have hr := h1
      rw [resolve_some _ _ h2] at hr
      have hu : urlOrPathSource pkg = WorkflowSourcePackageHTTPS
          ∨ urlOrPathSource pkg = WorkflowSourcePackageSSH
          ∨ urlOrPathSource pkg = WorkflowSourcePackageFromPath
          ∨ urlOrPathSource pkg = WorkflowSourceUnknown := by
        unfold urlOrPathSource
        split_ifs
        · exact Or.inl rfl
        · exact Or.inr (Or.inl rfl)
        · exact Or.inr (Or.inr (Or.inl rfl))
        · exact Or.inr (Or.inr (Or.inr rfl))
      split_ifs at hr with a1 a2 a3 a4 a5 a6
      · exact Or.inr (Or.inr (Or.inl (Outcome.ok.inj hr).symm))
      · exact Or.inr (Or.inr (Or.inr (Or.inl (Outcome.ok.inj hr).symm)))
      · have e := (Outcome.ok.inj hr).symm
        rcases hu with k | k | k | k
        · exact Or.inl (e.trans k)
        · exact Or.inr (Or.inl (e.trans k))
        · exact Or.inr (Or.inr (Or.inr (Or.inr (e.trans k))))
        · exact absurd k a6
  · decide

theorem C13_final_argument_witness :
    (∃ pod, newPodForCR bareWorld
        { Spec := { Package := some { URL := "git@github.com:org/repo.git".toList,
                                      Mount := "/pkg".toList,
                                      FromPath := "sub/dir".toList } } } = .ok pod
      ∧ (pod.Spec.Containers.head?.bind fun c => c.Command.getLast?)
        = some "/pkg/repo.git/sub/dir".toList)
    ∧ ∃ pod, newPodForCR bareWorld
        { Spec := { Package := some { Mount := "/pkg".toList,
                                      FromPath := "sub/dir".toList } } } = .ok pod
      ∧ (pod.Spec.Containers.head?.bind fun c => c.Command.getLast?)
        = some "sub/dir".toList := by
  constructor
  · refine ⟨_, rfl, ?_⟩
    obtain ⟨ps, pkg, c, resolved, h1, h2, h3, h4, h5, -⟩ := C13_final_argument.1 bareWorld
      { Spec := { Package := some { URL := "git@github.com:org/repo.git".toList,
                                    Mount := "/pkg".toList,
                                    FromPath := "sub/dir".toList } } } _ rfl
    have hps := (Outcome.ok.inj h1).symm
    have hpk := (Option.some.inj h2).symm
    subst hps hpk
    rw [h3]
    show c.Command.getLast? = _
    rw [h4, h5 (Or.inr rfl)]
    decide
  · refine ⟨_, rfl, ?_⟩
    obtain ⟨ps, pkg, c, resolved, h1, h2, h3, h4, -, -, -, h8, -⟩ := C13_final_argument.1 bareWorld
      { Spec := { Package := some { Mount := "/pkg".toList,
                                    FromPath := "sub/dir".toList } } } _ rfl
    have hps := (Outcome.ok.inj h1).symm
    have hpk := (Option.some.inj h2).symm
    subst hps hpk
    rw [h3]
    show c.Command.getLast? = _
    rw [h4, h8 rfl]
    decide

/-- C14, the code at a failing input: a spec with an instance and no package
object resolves to the instance variant, and `newPodForCR` then panics on the
nil package at line 858 instead of returning a pod. -/
theorem C14_instance_without_package_panics :
    resolvePackageSource { Instance := "inst".toList } = .ok WorkflowSourceInstance
      ∧ newPodForCR bareWorld { Spec := { Instance := "inst".toList } } = .panic
      ∧ newPodForCR exampleWorld { Spec := { Instance := "inst".toList } } = .panic :=
  ⟨rfl, rfl, rfl⟩

/-- No workflow without a package object yields a pod, whatever the world. -/
theorem no_pod_without_package (w : World) (cr : Workflow) (pod : Pod)
    (hp : cr.Spec.Package = none) : newPodForCR w cr ≠ .ok pod := by
  intro h
  obtain ⟨ps, pkg, c, -, h2, -⟩ := primary_of_ok w cr pod h
  rw [hp] at h2
  exact absurd h2 (by simp)

/-- With a package object present, a pod of the instance variant has the path
`path.Join("/tmp/workdir", instance)` as final argument and carries
`INSTANCE_DIR_NAME` in the environment of the primary container. -/
theorem instance_variant_primary (w : World) (cr : Workflow) (pod : Pod)
    (h : newPodForCR w cr = .ok pod)
    (hv : resolvePackageSource cr.Spec = .ok WorkflowSourceInstance) :
    ∃ c, pod.Spec.Containers.head? = some c
      ∧ c.Command.getLast? = some (pathJoin "/tmp/workdir".toList cr.Spec.Instance)
      ∧ ({ Name := "INSTANCE_DIR_NAME".toList, Value := cr.Spec.Instance } : EnvVar) ∈ c.Env := by
  obtain ⟨ps, pkg, c, h1, h2, h3, h4, h5⟩ := primary_of_ok w cr pod h
  rw [hv] at h1
  have hps := (Outcome.ok.inj h1).symm
  subst hps
  have hF : pkg.FromPath = [] := by
    have := hv
    rw [resolve_some _ _ h2] at this
    by_contra hne
    have hu := urlOrPathSource_ne_unknown pkg (Or.inr (Or.inr hne))
    by_cases c1 : pkg.FromConfigMap.length > 0
    · rw [if_pos c1, if_pos hu] at this
      exact Outcome.noConfusion this
    · rw [if_neg c1] at this
      by_cases c2 : cr.Spec.Instance.length > 0
      · rw [if_pos c2, if_pos hu] at this
        exact Outcome.noConfusion this
      · rw [if_neg c2, if_neg hu] at this
        have hi := Outcome.ok.inj this
        unfold urlOrPathSource at hi
        split_ifs at hi <;> exact absurd hi (by decide)
  refine ⟨c, h3, ?_, ?_⟩
  · rw [h4, ← List.append_assoc, List.getLast?_append]
    have hA : ¬ (WorkflowSourceInstance = WorkflowSourcePackageHTTPS
        ∨ WorkflowSourceInstance = WorkflowSourcePackageSSH) := by decide
    have hB : WorkflowSourceInstance ≠ WorkflowSourcePackageConfigMap := by decide
    simp [packagePath, variantPath, hF, hA, hB, workdir]
  · rw [h5, if_pos rfl]
    simp

/-- C15, refuted as stated: with a relative `withManifest` and a `fromPath`, the
manifest is joined under the path resolved before `fromPath` is applied, not
under the final positional argument; and for the fromPath variant, where nothing
was resolved before, a relative `withManifest` is passed as it is. -/
theorem C15_counterexample :
    primaryCommand (newPodForCR bareWorld
        { Spec := { Package := some { URL := "git@github.com:org/repo.git".toList,
                                      FromPath := "sub".toList,
                                      WithManifest := "m.yaml".toList } } })
      = some ["elaunch.py".toList, "--manifest".toList, "/mnt/package/repo.git/m.yaml".toList,
          "/mnt/package/repo.git/sub".toList]
    ∧ pathJoin "/mnt/package/repo.git/sub".toList "m.yaml".toList
      = "/mnt/package/repo.git/sub/m.yaml".toList
    ∧ primaryCommand (newPodForCR bareWorld
        { Spec := { Package := some { FromPath := "/data/pkg".toList,
                                      WithManifest := "m.yaml".toList } } })
      = some ["elaunch.py".toList, "--manifest".toList, "m.yaml".toList, "/data/pkg".toList]
    ∧ pathJoin "/data/pkg".toList "m.yaml".toList = "/data/pkg/m.yaml".toList := by
  decide

/-- C15, amended: on success with `withManifest` non-empty the primary command
holds `--manifest` followed by `withManifest` itself when that is an absolute path
or when no path was resolved from the variant, and otherwise by
`path.Join(R, withManifest)`, where `R` is the package path resolved from the
variant before `fromPath` is applied; the final positional argument follows, and
it is `R` when `fromPath` is empty. -/
theorem C15_manifest_argument (w : World) (cr : Workflow) (pod : Pod)
    (h : newPodForCR w cr = .ok pod) (pkg : Gitrepo) (hp : cr.Spec.Package = some pkg)
    (hm : pkg.WithManifest ≠ []) :
    ∃ ps c front last, resolvePackageSource cr.Spec = .ok ps
      ∧ pod.Spec.Containers.head? = some c
      ∧ c.Command
          = front ++ ["--manifest".toList,
              if variantPath ps cr.Spec pkg = [] ∨ filepathIsAbs pkg.WithManifest = true then
                pkg.WithManifest
              else pathJoin (variantPath ps cr.Spec pkg) pkg.WithManifest] ++ [last]
      ∧ (pkg.FromPath = [] → last = variantPath ps cr.Spec pkg) := by
  obtain ⟨ps, pkg2, c, h1, h2, h3, h4, -⟩ := primary_of_ok w cr pod h
  rw [hp] at h2
  have hpk := (Option.some.inj h2).symm
  subst hpk
  have hM : pkg2.WithManifest.length > 0 := List.length_pos.2 hm
  refine ⟨ps, c,
    (if cr.Spec.Debug = true then ["echo".toList] else []) ++ commandHead (effectiveSpec w cr ps),
    packagePath pkg2 (variantPath ps cr.Spec pkg2), h1, h3, ?_, ?_⟩
  · rw [h4]
    unfold manifestArgs
    rw [if_pos hM]
    split_ifs <;> simp only [List.append_assoc]
  · intro hF
    unfold packagePath
    simp [hF]

theorem C15_manifest_argument_witness :
    ∃ pod, newPodForCR bareWorld
        { Spec := { Package := some { URL := "git@github.com:org/repo.git".toList,
                                      FromPath := "sub".toList,
                                      WithManifest := "m.yaml".toList } } } = .ok pod
      ∧ ∃ c front last, pod.Spec.Containers.head? = some c
        ∧ c.Command
          = front ++ ["--manifest".toList, "/mnt/package/repo.git/m.yaml".toList] ++ [last] := by
  refine ⟨_, rfl, ?_⟩
  obtain ⟨ps, c, front, last, h1, h3, h4, -⟩ := C15_manifest_argument bareWorld
    { Spec := { Package := some { URL := "git@github.com:org/repo.git".toList,
                                  FromPath := "sub".toList,
                                  WithManifest := "m.yaml".toList } } } _ rfl
    { URL := "git@github.com:org/repo.git".toList, FromPath := "sub".toList,
      WithManifest := "m.yaml".toList } rfl (by decide)
  have hps : ps = WorkflowSourcePackageSSH :=
    Outcome.ok.inj (h1.symm.trans (show resolvePackageSource _ = .ok _ from rfl))
  subst hps
  refine ⟨c, front, last, h3, ?_⟩
  rw [h4]
  have e : (if variantPath WorkflowSourcePackageSSH
          ({ Package := some { URL := "git@github.com:org/repo.git".toList,
                               FromPath := "sub".toList,
                               WithManifest := "m.yaml".toList } } : WorkflowSpec)
          { URL := "git@github.com:org/repo.git".toList, FromPath := "sub".toList,
            WithManifest := "m.yaml".toList } = []
        ∨ filepathIsAbs "m.yaml".toList = true then "m.yaml".toList
      else pathJoin (variantPath WorkflowSourcePackageSSH
          ({ Package := some { URL := "git@github.com:org/repo.git".toList,
                               FromPath := "sub".toList,
                               WithManifest := "m.yaml".toList } } : WorkflowSpec)
          { URL := "git@github.com:org/repo.git".toList, FromPath := "sub".toList,
            WithManifest := "m.yaml".toList }) "m.yaml".toList)
      = "/mnt/package/repo.git/m.yaml".toList := by decide
  exact congrArg (fun m => front ++ ["--manifest".toList, m] ++ [last]) e

/-! ## The init containers -/

theorem initContainerPackageOf_fields (user : Int) (o : DefaultWorkflowOptions)
    (spec : WorkflowSpec) (gco oc : List (List Char)) (vm : List VolumeMount)
    (gsr : ResourceList) :
    (initContainerPackageOf user o spec gco oc vm gsr).Name = "git-sync-package".toList
    ∧ (initContainerPackageOf user o spec gco oc vm gsr).Args = gco
    ∧ (initContainerPackageOf user o spec gco oc vm gsr).Command = oc := by
  unfold initContainerPackageOf
  cases oc with
  | nil => exact ⟨rfl, rfl, rfl⟩
  | cons a l =>
    have h : (a :: l).length > 0 := by simp
    rw [if_pos h]
    exact ⟨rfl, rfl, rfl⟩

/-- The init containers of a returned pod: the package-fetch container for the
https, ssh and configMap variants, then the bucket-fetch container when
`s3BucketInput` is set. -/
theorem init_of_ok (w : World) (cr : Workflow) (pod : Pod)
    (h : newPodForCR w cr = .ok pod) :
    ∃ ps git gsr, resolvePackageSource cr.Spec = .ok ps
      ∧ gitSyncSetup w ps (effectiveSpec w cr ps) (branchNameOf (effectiveSpec w cr ps))
          [{ Name := gitVolumeNamePackage, MountPath := "/tmp/git".toList },
            volMountGitSyncConfig] = .ok git
      ∧ pod.Spec.InitContainers
          = (if ps = WorkflowSourcePackageHTTPS ∨ ps = WorkflowSourcePackageSSH
                ∨ ps = WorkflowSourcePackageConfigMap then
              [initContainerPackageOf (w.parseInt (Getenv w "USER_ID".toList)) (optionsOf w cr)
                (effectiveSpec w cr ps) git.1 git.2.1 git.2.2 gsr]
            else [])
            ++ (match cr.Spec.S3BucketInput with
                | none => []
                | some s3 =>
                  [s3FetchFilesOf w (w.parseInt (Getenv w "USER_ID".toList)) (optionsOf w cr)
                    (effectiveSpec w cr ps) s3 gsr]) := by
  obtain ⟨ps, vols, git, gsr, wmr, cmd, er, h1, -, h3, -, -, -, -, hpod⟩ :=
    newPodForCR_ok_inv w cr pod h
  refine ⟨ps, git, gsr, h1, h3, ?_⟩
  have hs3 := (effectiveSpec_fields w cr ps).2.2.2.2.2.2.2.1
  rw [hpod]
  unfold assemblePod
  simp only [hs3]
  rcases cr.Spec.S3BucketInput with _ | s3
  · simp
  · simp

/-- The clone options of the ssh variant. -/
theorem gitSyncSetup_ssh (w : World) (spec : WorkflowSpec) (pkg : Gitrepo)
    (b : List Char) (vm : List VolumeMount) (hp : spec.Package = some pkg) :
    gitSyncSetup w WorkflowSourcePackageSSH spec b vm
      = .ok (["--one-time".toList, "--depth=1".toList, "--root=/tmp/git".toList,
              "--submodules=recursive".toList, "--exechook-command".toList, "--ssh".toList,
              "--ssh-key-file=/etc/git-secret/ssh".toList]
            ++ (if b ≠ [] then ["--branch=".toList ++ b]
                else if pkg.CommitId ≠ [] then ["--rev=".toList ++ pkg.CommitId] else [])
            ++ ["--repo".toList, pkg.URL], [], vm) := by
  unfold gitSyncSetup
  rw [if_pos rfl, hp]
  by_cases hb : b = []
  · by_cases hc : pkg.CommitId = []
    · simp [hb, hc]
    · have : pkg.CommitId.length > 0 := List.length_pos.2 hc
      simp [hb, hc, this]
  · have : b.length > 0 := List.length_pos.2 hb
    simp [hb, this]

/-- The fetch script of the https variant, when the setup succeeds. -/
theorem gitSyncSetup_https_ok (w : World) (spec : WorkflowSpec) (b : List Char)
    (vm : List VolumeMount) (git : List (List Char) × List (List Char) × List VolumeMount)
    (h : gitSyncSetup w WorkflowSourcePackageHTTPS spec b vm = .ok git) :
    ∃ pkg u gitRoot, spec.Package = some pkg ∧ w.urlParse pkg.URL = .ok u
      ∧ (splitSlash (u.Path.drop 1))[1]? = some gitRoot
      ∧ git = ([fetchScript (originUrl pkg u) ("/tmp/git/".toList ++ gitRoot) pkg.CommitId b],
          ["/bin/sh".toList, "-c".toList], vm) := by
  have n : WorkflowSourcePackageHTTPS ≠ WorkflowSourcePackageSSH := by decide
  unfold gitSyncSetup at h
  rw [if_neg n, if_pos rfl] at h
  rcases hp : spec.Package with _ | pkg
  · simp only [hp] at h
    exact Outcome.noConfusion h
  · simp only [hp] at h
    rcases hu : w.urlParse pkg.URL with e | u
    · simp only [hu] at h
      exact Outcome.noConfusion h
    · simp only [hu] at h
      by_cases hl : u.Path.length < 1
      · simp only [hl, if_true] at h
        exact Outcome.noConfusion h
      · simp only [hl, if_false] at h
        rcases hg : (splitSlash (u.Path.drop 1))[1]? with _ | gitRoot
        · simp only [hg] at h
          exact Outcome.noConfusion h
        · simp only [hg] at h
          refine ⟨pkg, u, gitRoot, rfl, hu, hg, ?_⟩
          rw [← Outcome.ok.inj h]
          unfold fetchScript originUrl
          by_cases hc : pkg.CommitId.length > 0
          · simp only [hc, if_true, List.append_assoc]
          · by_cases hb : b.length > 0
            · simp only [hc, hb, if_true, if_false, List.append_assoc]
            · simp only [hc, hb, if_false, List.append_assoc, List.append_nil]

/-- The package-fetch container of a pod of the https variant. -/
theorem https_fetch_of_ok (w : World) (cr : Workflow) (pod : Pod)
    (h : newPodForCR w cr = .ok pod)
    (hv : resolvePackageSource cr.Spec = .ok WorkflowSourcePackageHTTPS) :
    ∃ pkg u gitRoot c rest, cr.Spec.Package = some pkg ∧ w.urlParse pkg.URL = .ok u
      ∧ (splitSlash (u.Path.drop 1))[1]? = some gitRoot
      ∧ pod.Spec.InitContainers = c :: rest
      ∧ c.Name = "git-sync-package".toList
      ∧ c.Command = ["/bin/sh".toList, "-c".toList]
      ∧ c.Args
          = [fetchScript
              (originUrl (withDefaultSecret (optionsOf w cr) WorkflowSourcePackageHTTPS pkg) u)
              ("/tmp/git/".toList ++ gitRoot) pkg.CommitId pkg.Branch] := by
  obtain ⟨ps, git, gsr, h1, h3, hinit⟩ := init_of_ok w cr pod h
  rw [hv] at h1
  have hps := (Outcome.ok.inj h1).symm
  subst hps
  obtain ⟨pkgE, u, gitRoot, hpE, hu, hg, hgit⟩ := gitSyncSetup_https_ok w _ _ _ git h3
  have hpk := effectiveSpec_package w cr WorkflowSourcePackageHTTPS
  rw [hpE] at hpk
  rcases hp0 : cr.Spec.Package with _ | pkg
  · rw [hp0] at hpk
    exact absurd hpk (by simp)
  · rw [hp0, Option.map_some'] at hpk
    have hE := Option.some.inj hpk
    subst hE
    obtain ⟨f1, f2, f3, -⟩ := withDefaultSecret_fields (optionsOf w cr)
      WorkflowSourcePackageHTTPS pkg
    have hb : branchNameOf (effectiveSpec w cr WorkflowSourcePackageHTTPS) = pkg.Branch := by
      unfold branchNameOf
      simp only [hpE]
      exact f2
    rw [if_pos (Or.inl rfl)] at hinit
    rw [f1] at hu
    rw [hb, f3] at hgit
    refine ⟨pkg, u, gitRoot, _, _, rfl, hu, hg, hinit, ?_, ?_, ?_⟩
    · exact (initContainerPackageOf_fields _ _ _ _ _ _ _).1
    · rw [(initContainerPackageOf_fields _ _ _ _ _ _ _).2.2, hgit]
    · rw [(initContainerPackageOf_fields _ _ _ _ _ _ _).2.1, hgit]

theorem fetchScript_suffix (U D ci b : List Char) :
    ("git -C ".toList ++ D ++ " remote remove origin".toList) <:+ fetchScript U D ci b := by
  unfold fetchScript
  have e : " &&  git -C ".toList = " &&  ".toList ++ "git -C ".toList := by decide
  rw [e]
  generalize (if ci.length > 0 then _ else _ : List Char) = X
  exact ⟨X ++ " && git -C ".toList ++ D ++ " submodule update --remote".toList
    ++ " &&  ".toList, by simp only [List.append_assoc]⟩

theorem effective_secret (o : DefaultWorkflowOptions) (pkg : Gitrepo) :
    (withDefaultSecret o WorkflowSourcePackageHTTPS pkg).Gitsecret
      = if pkg.Gitsecret = [] then o.GitSecretOAuth else pkg.Gitsecret := by
  have n : WorkflowSourcePackageHTTPS ≠ WorkflowSourcePackageSSH := by decide
  unfold withDefaultSecret
  by_cases h : pkg.Gitsecret = []
  · simp only [h, if_true, if_neg n]
  · simp only [h, if_false]

/-- A backtick or a dollar sign in the fetch script comes from one of its four
parameters: the fixed text holds neither. -/
theorem substitution_char_of_fetchScript (U D ci b : List Char) (ch : Char)
    (hch : ch = '`' ∨ ch = '$') (hm : ch ∈ fetchScript U D ci b) :
    ch ∈ U ∨ ch ∈ D ∨ ch ∈ ci ∨ ch ∈ b := by
  unfold fetchScript at hm
  have k1 : ch ∉ "mkdir -p ".toList := by rcases hch with h | h <;> subst h <;> decide
  have k2 : ch ∉ " && cd ".toList := by rcases hch with h | h <;> subst h <;> decide
  have k3 : ch ∉ " && git init . ".toList := by rcases hch with h | h <;> subst h <;> decide
  have k4 : ch ∉ " && git remote add origin ".toList := by
    rcases hch with h | h <;> subst h <;> decide
  have k5 : ch ∉ " && git fetch --depth 1 origin ".toList := by
    rcases hch with h | h <;> subst h <;> decide
  have k6 : ch ∉ " && git checkout FETCH_HEAD".toList := by
    rcases hch with h | h <;> subst h <;> decide
  have k7 : ch ∉ "git clone --recurse-submodules --depth=1 ".toList := by
    rcases hch with h | h <;> subst h <;> decide
  have k8 : ch ∉ " ".toList := by rcases hch with h | h <;> subst h <;> decide
  have k9 : ch ∉ " --branch=".toList := by rcases hch with h | h <;> subst h <;> decide
  have k10 : ch ∉ " && git -C ".toList := by rcases hch with h | h <;> subst h <;> decide
  have k11 : ch ∉ " submodule update --remote".toList := by
    rcases hch with h | h <;> subst h <;> decide
  have k12 : ch ∉ " &&  git -C ".toList := by rcases hch with h | h <;> subst h <;> decide
  have k13 : ch ∉ " remote remove origin".toList := by
    rcases hch with h | h <;> subst h <;> decide
  simp only [List.mem_append] at hm
  split_ifs at hm <;> simp only [List.mem_append, List.not_mem_nil, or_false] at hm <;> tauto

/-! ## Claims on the package-fetch container and the init containers -/

/-- C16: for a pod of the https variant the single script of the package-fetch
container ends with `git -C <dest> remote remove origin`, `<dest>` being the clone
destination under `/tmp/git/`; nothing follows it. -/
theorem C16_script_ends_with_remove_origin (w : World) (cr : Workflow) (pod : Pod)
    (h : newPodForCR w cr = .ok pod)
    (hv : resolvePackageSource cr.Spec = .ok WorkflowSourcePackageHTTPS) :
    ∃ pkg u gitRoot c rest script, cr.Spec.Package = some pkg ∧ w.urlParse pkg.URL = .ok u
      ∧ (splitSlash (u.Path.drop 1))[1]? = some gitRoot
      ∧ pod.Spec.InitContainers = c :: rest ∧ c.Name = "git-sync-package".toList
      ∧ c.Args = [script]
      ∧ ("git -C ".toList ++ ("/tmp/git/".toList ++ gitRoot) ++ " remote remove origin".toList)
          <:+ script := by
  obtain ⟨pkg, u, gitRoot, c, rest, h1, h2, h3, h4, h5, -, h7⟩ := https_fetch_of_ok w cr pod h hv
  exact ⟨pkg, u, gitRoot, c, rest, _, h1, h2, h3, h4, h5, h7, fetchScript_suffix _ _ _ _⟩

theorem C16_script_ends_with_remove_origin_witness :
    ∃ pod, newPodForCR exampleWorld
        { Spec := { Package := some { URL := "https://example.com/org/repo.git".toList,
                                      CommitId := "0a1b2c".toList } } } = .ok pod
      ∧ ∃ c rest script, pod.Spec.InitContainers = c :: rest ∧ c.Args = [script]
        ∧ "git -C /tmp/git/repo.git remote remove origin".toList <:+ script := by
  refine ⟨_, rfl, ?_⟩
  obtain ⟨pkg, u, gitRoot, c, rest, script, h1, h2, h3, h4, -, h6, h7⟩ :=
    C16_script_ends_with_remove_origin exampleWorld
      { Spec := { Package := some { URL := "https://example.com/org/repo.git".toList,
                                    CommitId := "0a1b2c".toList } } } _ rfl rfl
  have hpk := (Option.some.inj h1).symm
  subst hpk
  have hu : u = { Host := "example.com".toList, Path := "/org/repo.git".toList } :=
    Except.ok.inj (h2.symm.trans (show exampleWorld.urlParse _ = .ok _ from rfl))
  subst hu
  have hg : gitRoot = "repo.git".toList :=
    Option.some.inj (h3.symm.trans (show _ = some "repo.git".toList from by decide))
  subst hg
  exact ⟨c, rest, script, h4, h6, h7⟩

set_option maxRecDepth 100000 in
theorem backtick_in_example_script :
    '`' ∈ "git clone --recurse-submodules --depth=1 https://example.com/org/repo.git /tmp/git/repo.git --branch=`id` && git -C /tmp/git/repo.git submodule update --remote &&  git -C /tmp/git/repo.git remote remove origin".toList := by
  decide

/-- C17, refuted as stated: with no secret the script is built from the fields of
the spec as they are, so a branch that holds a command substitution puts one into
the script. -/
theorem C17_counterexample :
    (initContainersOf (newPodForCR exampleWorld
        { Spec := { Package := some { URL := "https://example.com/org/repo.git".toList,
                                      Branch := "`id`".toList } } })).map (fun c => c.Args)
      = [["git clone --recurse-submodules --depth=1 https://example.com/org/repo.git /tmp/git/repo.git --branch=`id` && git -C /tmp/git/repo.git submodule update --remote &&  git -C /tmp/git/repo.git remote remove origin".toList]]
    ∧ (optionsOf exampleWorld {}).GitSecretOAuth = []
    ∧ '`' ∈ "git clone --recurse-submodules --depth=1 https://example.com/org/repo.git /tmp/git/repo.git --branch=`id` && git -C /tmp/git/repo.git submodule update --remote &&  git -C /tmp/git/repo.git remote remove origin".toList := by
  exact ⟨rfl, rfl, backtick_in_example_script⟩

/-- C17, amended: for a pod of the https variant, with the effective secret being
`package.gitsecret`, or the default OAuth secret when that is empty: when it is
non-empty the origin URL of the fetch script is
"https://`cat /etc/git-secret/oauth-token`@" + host + "/" + the parsed path
without its first character; when it is empty the origin URL is `package.URL` as it
is, and the script holds a backtick or a dollar sign only if `package.URL`, the
directory name of the clone, `commitId` or `branch` holds it. -/
theorem C17_origin_url (w : World) (cr : Workflow) (pod : Pod)
    (h : newPodForCR w cr = .ok pod)
    (hv : resolvePackageSource cr.Spec = .ok WorkflowSourcePackageHTTPS) :
    ∃ pkg u gitRoot c rest U, cr.Spec.Package = some pkg ∧ w.urlParse pkg.URL = .ok u
      ∧ (splitSlash (u.Path.drop 1))[1]? = some gitRoot
      ∧ pod.Spec.InitContainers = c :: rest
      ∧ c.Args = [fetchScript U ("/tmp/git/".toList ++ gitRoot) pkg.CommitId pkg.Branch]
      ∧ ((if pkg.Gitsecret = [] then (optionsOf w cr).GitSecretOAuth else pkg.Gitsecret) ≠ [] →
          U = "https://`cat /etc/git-secret/oauth-token`@".toList ++ u.Host ++ "/".toList
                ++ u.Path.drop 1)
      ∧ ((if pkg.Gitsecret = [] then (optionsOf w cr).GitSecretOAuth else pkg.Gitsecret) = [] →
          U = pkg.URL
          ∧ ∀ ch : Char, ch = '`' ∨ ch = '$' →
              ch ∈ fetchScript U ("/tmp/git/".toList ++ gitRoot) pkg.CommitId pkg.Branch →
              ch ∈ pkg.URL ∨ ch ∈ gitRoot ∨ ch ∈ pkg.CommitId ∨ ch ∈ pkg.Branch) := by
  obtain ⟨pkg, u, gitRoot, c, rest, h1, h2, h3, h4, -, -, h7⟩ := https_fetch_of_ok w cr pod h hv
  have hs := effective_secret (optionsOf w cr) pkg
  have hU := (withDefaultSecret_fields (optionsOf w cr) WorkflowSourcePackageHTTPS pkg).1
  refine ⟨pkg, u, gitRoot, c, rest, _, h1, h2, h3, h4, h7, ?_, ?_⟩
  · intro hne
    rw [← hs] at hne
    have hl : (withDefaultSecret (optionsOf w cr) WorkflowSourcePackageHTTPS pkg).Gitsecret.length
        > 0 := List.length_pos.2 hne
    unfold originUrl
    rw [if_pos hl]
    rfl
  · intro he
    rw [← hs] at he
    have hl : ¬ (withDefaultSecret (optionsOf w cr) WorkflowSourcePackageHTTPS pkg).Gitsecret.length
        > 0 := by rw [he]; decide
    have e : originUrl (withDefaultSecret (optionsOf w cr) WorkflowSourcePackageHTTPS pkg) u
        = pkg.URL := by
      unfold originUrl
      rw [if_neg hl, hU]
    refine ⟨e, ?_⟩
    intro ch hch hm
    rcases substitution_char_of_fetchScript _ _ _ _ ch hch hm with k | k | k | k
    · rw [e] at k
      exact Or.inl k
    · rcases List.mem_append.1 k with k | k
      · exfalso
        rcases hch with x | x <;> subst x <;> exact absurd k (by decide)
      · exact Or.inr (Or.inl k)
    · exact Or.inr (Or.inr (Or.inl k))
    · exact Or.inr (Or.inr (Or.inr k))

theorem C17_origin_url_witness :
    ∃ pod, newPodForCR exampleWorld
        { Spec := { Package := some { URL := "https://example.com/org/repo.git".toList,
                                      Gitsecret := "token".toList } } } = .ok pod
      ∧ ∃ c rest, pod.Spec.InitContainers = c :: rest
        ∧ c.Args = [fetchScript
            "https://`cat /etc/git-secret/oauth-token`@example.com/org/repo.git".toList
            "/tmp/git/repo.git".toList [] []] := by
  refine ⟨_, rfl, ?_⟩
  obtain ⟨pkg, u, gitRoot, c, rest, U, h1, h2, h3, h4, h5, h6, -⟩ :=
    C17_origin_url exampleWorld
      { Spec := { Package := some { URL := "https://example.com/org/repo.git".toList,
                                    Gitsecret := "token".toList } } } _ rfl rfl
  have hpk := (Option.some.inj h1).symm
  subst hpk
  have hu : u = { Host := "example.com".toList, Path := "/org/repo.git".toList } :=
    Except.ok.inj (h2.symm.trans (show exampleWorld.urlParse _ = .ok _ from rfl))
  subst hu
  have hg : gitRoot = "repo.git".toList :=
    Option.some.inj (h3.symm.trans (show _ = some "repo.git".toList from by decide))
  subst hg
  have hU := h6 (by decide)
  subst hU
  exact ⟨c, rest, h4, h5⟩

/-- C18: for a pod of the https variant, with `U` the origin URL and `D` the
directory `/tmp/git/<name>`, the package-fetch container has the command
`["/bin/sh", "-c"]` and one argument, the script: with a commit id it is
`mkdir -p D`, `cd D`, `git init`, `git remote add origin U`,
`git fetch --depth 1 origin <commitId>`, `git checkout FETCH_HEAD`, whatever the
branch; without one it is `git clone --recurse-submodules --depth=1 U D`, followed
by ` --branch=<branch>` exactly when the branch is non-empty; a submodule update
follows in both cases. For `https://example.com/org/repo.git` with no secret, no
commit id and the branch `main` the script starts with
`git clone --recurse-submodules --depth=1 https://example.com/org/repo.git /tmp/git/repo.git --branch=main`. -/
theorem C18_fetch_script :
    (∀ (w : World) (cr : Workflow) (pod : Pod), newPodForCR w cr = .ok pod →
      resolvePackageSource cr.Spec = .ok WorkflowSourcePackageHTTPS →
      ∃ pkg u gitRoot c rest U D script, cr.Spec.Package = some pkg
        ∧ w.urlParse pkg.URL = .ok u
        ∧ (splitSlash (u.Path.drop 1))[1]? = some gitRoot
        ∧ U = originUrl (withDefaultSecret (optionsOf w cr) WorkflowSourcePackageHTTPS pkg) u
        ∧ D = "/tmp/git/".toList ++ gitRoot
        ∧ pod.Spec.InitContainers = c :: rest
        ∧ c.Name = "git-sync-package".toList
        ∧ c.Command = ["/bin/sh".toList, "-c".toList]
        ∧ c.Args = [script]
        ∧ (pkg.CommitId ≠ [] →
            script = "mkdir -p ".toList ++ D ++ " && cd ".toList ++ D
              ++ " && git init . ".toList ++ " && git remote add origin ".toList ++ U
              ++ " && git fetch --depth 1 origin ".toList ++ pkg.CommitId
              ++ " && git checkout FETCH_HEAD".toList
              ++ " && git -C ".toList ++ D ++ " submodule update --remote".toList
              ++ " &&  git -C ".toList ++ D ++ " remote remove origin".toList)
        ∧ (pkg.CommitId = [] → pkg.Branch ≠ [] →
            script = "git clone --recurse-submodules --depth=1 ".toList ++ U ++ " ".toList ++ D
              ++ " --branch=".toList ++ pkg.Branch
              ++ " && git -C ".toList ++ D ++ " submodule update --remote".toList
              ++ " &&  git -C ".toList ++ D ++ " remote remove origin".toList)
        ∧ (pkg.CommitId = [] → pkg.Branch = [] →
            script = "git clone --recurse-submodules --depth=1 ".toList ++ U ++ " ".toList ++ D
              ++ " && git -C ".toList ++ D ++ " submodule update --remote".toList
              ++ " &&  git -C ".toList ++ D ++ " remote remove origin".toList))
    ∧ (initContainersOf (newPodForCR exampleWorld
          { Spec := { Package := some { URL := "https://example.com/org/repo.git".toList,
                                        Branch := "main".toList } } })).map (fun c => c.Args)
        = [["git clone --recurse-submodules --depth=1 https://example.com/org/repo.git /tmp/git/repo.git --branch=main".toList
            ++ " && git -C /tmp/git/repo.git submodule update --remote &&  git -C /tmp/git/repo.git remote remove origin".toList]] := by
  constructor
  · intro w cr pod h hv
    obtain ⟨pkg, u, gitRoot, c, rest, h1, h2, h3, h4, h5, h6, h7⟩ :=
      https_fetch_of_ok w cr pod h hv
    refine ⟨pkg, u, gitRoot, c, rest, _, _, _, h1, h2, h3, rfl, rfl, h4, h5, h6, h7, ?_, ?_, ?_⟩
    · intro hc
      have hl : pkg.CommitId.length > 0 := List.length_pos.2 hc
      unfold fetchScript
      rw [if_pos hl]
    · intro hc hb
      have hl : ¬ pkg.CommitId.length > 0 := by rw [hc]; decide
      have hl2 : pkg.Branch.length > 0 := List.length_pos.2 hb
      unfold fetchScript
      rw [if_neg hl, if_pos hl2]
      simp only [List.append_assoc]
    · intro hc hb
      have hl : ¬ pkg.CommitId.length > 0 := by rw [hc]; decide
      have hl2 : ¬ pkg.Branch.length > 0 := by rw [hb]; decide
      unfold fetchScript
      rw [if_neg hl, if_neg hl2]
      simp only [List.append_assoc, List.append_nil]
  · rfl

theorem C18_fetch_script_witness :
    ∃ pod, newPodForCR exampleWorld
        { Spec := { Package := some { URL := "https://example.com/org/repo.git".toList,
                                      CommitId := "0a1b2c".toList,
                                      Branch := "main".toList } } } = .ok pod
      ∧ ∃ c rest, pod.Spec.InitContainers = c :: rest
        ∧ c.Command = ["/bin/sh".toList, "-c".toList]
        ∧ c.Args = ["mkdir -p ".toList ++ "/tmp/git/repo.git".toList
            ++ " && cd ".toList ++ "/tmp/git/repo.git".toList
            ++ " && git init . ".toList
            ++ " && git remote add origin ".toList ++ "https://example.com/org/repo.git".toList
            ++ " && git fetch --depth 1 origin ".toList ++ "0a1b2c".toList
            ++ " && git checkout FETCH_HEAD".toList
            ++ " && git -C ".toList ++ "/tmp/git/repo.git".toList
            ++ " submodule update --remote".toList
            ++ " &&  git -C ".toList ++ "/tmp/git/repo.git".toList
            ++ " remote remove origin".toList] := by
  refine ⟨_, rfl, ?_⟩
  obtain ⟨pkg, u, gitRoot, c, rest, U, D, script, h1, h2, h3, hU, hD, h4, -, h6, h7, h8, -⟩ :=
    C18_fetch_script.1 exampleWorld
      { Spec := { Package := some { URL := "https://example.com/org/repo.git".toList,
                                    CommitId := "0a1b2c".toList,
                                    Branch := "main".toList } } } _ rfl rfl
  have hpk := (Option.some.inj h1).symm
  subst hpk
  have hu : u = { Host := "example.com".toList, Path := "/org/repo.git".toList } :=
    Except.ok.inj (h2.symm.trans (show exampleWorld.urlParse _ = .ok _ from rfl))
  subst hu
  have hg : gitRoot = "repo.git".toList :=
    Option.some.inj (h3.symm.trans (show _ = some "repo.git".toList from by decide))
  subst hg
  have hs := h8 (by decide)
  have hU2 : U = "https://example.com/org/repo.git".toList := hU.trans rfl
  have hD2 : D = "/tmp/git/repo.git".toList := hD.trans (by decide)
  subst hU2 hD2
  exact ⟨c, rest, h4, h6, h7.trans (congrArg (fun s => [s]) hs)⟩

/-- C19: for a spec of the ssh variant the clone options are
`["--one-time", "--depth=1", "--root=/tmp/git", "--submodules=recursive",
"--exechook-command", "--ssh", "--ssh-key-file=/etc/git-secret/ssh"] ++ R ++
["--repo", package.URL]` with `R` being `["--branch=" + branch]` for a non-empty
branch, else `["--rev=" + commitId]` for a non-empty commit id, else empty, and
no command override is set; the package-fetch container of every pod returned
for the spec has these options as its Args and an empty Command. -/
theorem C19_ssh_args (w : World) (cr : Workflow)
    (hv : resolvePackageSource cr.Spec = .ok WorkflowSourcePackageSSH) :
    ∃ pkg args, cr.Spec.Package = some pkg
      ∧ args = ["--one-time".toList, "--depth=1".toList, "--root=/tmp/git".toList,
                "--submodules=recursive".toList, "--exechook-command".toList, "--ssh".toList,
                "--ssh-key-file=/etc/git-secret/ssh".toList]
              ++ (if pkg.Branch ≠ [] then ["--branch=".toList ++ pkg.Branch]
                  else if pkg.CommitId ≠ [] then ["--rev=".toList ++ pkg.CommitId] else [])
              ++ ["--repo".toList, pkg.URL]
      ∧ (∀ vm, gitSyncSetup w WorkflowSourcePackageSSH
            (effectiveSpec w cr WorkflowSourcePackageSSH)
            (branchNameOf (effectiveSpec w cr WorkflowSourcePackageSSH)) vm = .ok (args, [], vm))
      ∧ ∀ pod, newPodForCR w cr = .ok pod →
          ∃ c rest, pod.Spec.InitContainers = c :: rest ∧ c.Name = "git-sync-package".toList
            ∧ c.Args = args ∧ c.Command = [] := by
  rcases hp0 : cr.Spec.Package with _ | pkg
  · exfalso
    rw [resolve_none _ hp0] at hv
    split_ifs at hv
    · exact absurd (Outcome.ok.inj hv) (by decide)
  · have hpk := effectiveSpec_package w cr WorkflowSourcePackageSSH
    rw [hp0, Option.map_some'] at hpk
    obtain ⟨f1, f2, f3, -⟩ := withDefaultSecret_fields (optionsOf w cr)
      WorkflowSourcePackageSSH pkg
    have hb : branchNameOf (effectiveSpec w cr WorkflowSourcePackageSSH) = pkg.Branch := by
      unfold branchNameOf
      simp only [hpk]
      exact f2
    have hset : ∀ vm, gitSyncSetup w WorkflowSourcePackageSSH
        (effectiveSpec w cr WorkflowSourcePackageSSH)
        (branchNameOf (effectiveSpec w cr WorkflowSourcePackageSSH)) vm
        = .ok (["--one-time".toList, "--depth=1".toList, "--root=/tmp/git".toList,
                "--submodules=recursive".toList, "--exechook-command".toList, "--ssh".toList,
                "--ssh-key-file=/etc/git-secret/ssh".toList]
              ++ (if pkg.Branch ≠ [] then ["--branch=".toList ++ pkg.Branch]
                  else if pkg.CommitId ≠ [] then ["--rev=".toList ++ pkg.CommitId] else [])
              ++ ["--repo".toList, pkg.URL], [], vm) := by
      intro vm
      rw [gitSyncSetup_ssh w _ _ _ vm hpk, hb, f1, f3]
    refine ⟨pkg, _, rfl, rfl, hset, ?_⟩
    intro pod h
    obtain ⟨ps, git, gsr, h1, h3, hinit⟩ := init_of_ok w cr pod h
    rw [hv] at h1
    have hps := (Outcome.ok.inj h1).symm
    subst hps
    rw [hset] at h3
    have hgit := (Outcome.ok.inj h3).symm
    subst hgit
    rw [if_pos (Or.inr (Or.inl rfl))] at hinit
    exact ⟨_, _, hinit, (initContainerPackageOf_fields _ _ _ _ _ _ _).1,
      (initContainerPackageOf_fields _ _ _ _ _ _ _).2.1,
      (initContainerPackageOf_fields _ _ _ _ _ _ _).2.2⟩

theorem C19_ssh_args_witness :
    ∃ pod, newPodForCR bareWorld
        { Spec := { Package := some { URL := "git@github.com:org/repo.git".toList,
                                      Branch := "dev".toList,
                                      CommitId := "0a1b2c".toList } } } = .ok pod
      ∧ ∃ c rest, pod.Spec.InitContainers = c :: rest
        ∧ c.Args = ["--one-time".toList, "--depth=1".toList, "--root=/tmp/git".toList,
                    "--submodules=recursive".toList, "--exechook-command".toList,
                    "--ssh".toList, "--ssh-key-file=/etc/git-secret/ssh".toList,
                    "--branch=dev".toList, "--repo".toList,
                    "git@github.com:org/repo.git".toList]
        ∧ c.Command = [] := by
  refine ⟨_, rfl, ?_⟩
  obtain ⟨pkg, args, h1, h2, -, h4⟩ :=
    C19_ssh_args bareWorld
      { Spec := { Package := some { URL := "git@github.com:org/repo.git".toList,
                                    Branch := "dev".toList,
                                    CommitId := "0a1b2c".toList } } } rfl
  have hpk := (Option.some.inj h1).symm
  subst hpk
  obtain ⟨c, rest, k1, -, k3, k4⟩ := h4 _ rfl
  refine ⟨c, rest, k1, ?_, k4⟩
  rw [k3, h2]
  decide

/-- C20: the init containers of a returned pod are, in this order, the
package-fetch container `git-sync-package` exactly when the variant is https, ssh
or configMap, and the bucket-fetch container `s3-fetch` exactly when
`spec.s3BucketInput` is set; for an instance or fromPath variant without S3 input
the list is empty. -/
theorem C20_init_containers (w : World) (cr : Workflow) (pod : Pod)
    (h : newPodForCR w cr = .ok pod) :
    ∃ ps, resolvePackageSource cr.Spec = .ok ps
      ∧ pod.Spec.InitContainers.map (fun c => c.Name)
          = (if ps = WorkflowSourcePackageHTTPS ∨ ps = WorkflowSourcePackageSSH
                ∨ ps = WorkflowSourcePackageConfigMap then ["git-sync-package".toList]
             else [])
            ++ (if cr.Spec.S3BucketInput.isSome = true then ["s3-fetch".toList] else [])
      ∧ ((ps = WorkflowSourceInstance ∨ ps = WorkflowSourcePackageFromPath) →
          cr.Spec.S3BucketInput = none → pod.Spec.InitContainers = []) := by
  obtain ⟨ps, git, gsr, h1, -, hinit⟩ := init_of_ok w cr pod h
  refine ⟨ps, h1, ?_, ?_⟩
  · rw [hinit]
    by_cases hps : ps = WorkflowSourcePackageHTTPS ∨ ps = WorkflowSourcePackageSSH
        ∨ ps = WorkflowSourcePackageConfigMap
    · rw [if_pos hps, if_pos hps]
      rcases cr.Spec.S3BucketInput with _ | s3
      · simp [(initContainerPackageOf_fields _ _ _ _ _ _ _).1]
      · simp [(initContainerPackageOf_fields _ _ _ _ _ _ _).1, s3FetchFilesOf]
    · rw [if_neg hps, if_neg hps]
      rcases cr.Spec.S3BucketInput with _ | s3
      · simp
      · simp [s3FetchFilesOf]
  · intro hps hs
    have hn : ¬ (ps = WorkflowSourcePackageHTTPS ∨ ps = WorkflowSourcePackageSSH
        ∨ ps = WorkflowSourcePackageConfigMap) := by
      rcases hps with x | x <;> subst x <;> decide
    rw [hinit, if_neg hn, hs]
    rfl

theorem C20_init_containers_witness :
    ∃ pod, newPodForCR bareWorld
        { Spec := { Package := some { URL := "git@github.com:org/repo.git".toList },
                    S3BucketInput := some { Dataset := "data".toList } } } = .ok pod
      ∧ pod.Spec.InitContainers.map (fun c => c.Name)
          = ["git-sync-package".toList, "s3-fetch".toList] := by
  refine ⟨_, rfl, ?_⟩
  obtain ⟨ps, h1, h2, -⟩ :=
    C20_init_containers bareWorld
      { Spec := { Package := some { URL := "git@github.com:org/repo.git".toList },
                  S3BucketInput := some { Dataset := "data".toList } } } _ rfl
  have hps : ps = WorkflowSourcePackageSSH :=
    Outcome.ok.inj (h1.symm.trans (show resolvePackageSource _ = .ok _ from rfl))
  subst hps
  rw [h2]
  decide

/-! ## More fields of the effective spec -/

theorem migrateInputDataVolume_fields (s : WorkflowSpec) :
    (migrateInputDataVolume s).Image = s.Image
    ∧ (migrateInputDataVolume s).ImagePullSecrets = s.ImagePullSecrets
    ∧ (migrateInputDataVolume s).WorkingVolume = s.WorkingVolume
    ∧ (migrateInputDataVolume s).Env = s.Env
    ∧ (migrateInputDataVolume s).S3FetchFilesImage = s.S3FetchFilesImage
    ∧ (migrateInputDataVolume s).Volumes = s.Volumes ++ legacyVolume s
    ∧ (migrateInputDataVolume s).VolumeMounts = s.VolumeMounts ++ legacyVolumeMount s := by
  unfold migrateInputDataVolume legacyVolume legacyVolumeMount
  rcases s.InputDataVolume with _ | vol
  · simp
  · by_cases h : vol.Name.length > 0
    · simp [h]
    · simp [h]

theorem injectValues_defaults (o : DefaultWorkflowOptions) (ps : List Char) (s : WorkflowSpec) :
    (injectValues o ps s).Image = (if s.Image = [] then o.FlowImage else s.Image)
    ∧ (injectValues o ps s).ImagePullSecrets
        = (if s.ImagePullSecrets = [] then o.ImagePullSecrets else s.ImagePullSecrets)
    ∧ (injectValues o ps s).WorkingVolume = withDefaultWorkingVolume o s
    ∧ (injectValues o ps s).S3FetchFilesImage
        = (if s.S3FetchFilesImage = [] then o.S3FetchFilesImage else s.S3FetchFilesImage) := by
  have a1 : ∀ t, (injectS3FetchFilesImage o t).Image = t.Image
      ∧ (injectS3FetchFilesImage o t).ImagePullSecrets = t.ImagePullSecrets
      ∧ (injectS3FetchFilesImage o t).WorkingVolume = t.WorkingVolume
      ∧ (injectS3FetchFilesImage o t).S3FetchFilesImage
          = (if t.S3FetchFilesImage = [] then o.S3FetchFilesImage else t.S3FetchFilesImage) := by
    intro t; unfold injectS3FetchFilesImage
    by_cases h : t.S3FetchFilesImage = []
    · simp [h]
    · simp [h]
  have a2 : ∀ t, (injectImage o t).Image = (if t.Image = [] then o.FlowImage else t.Image)
      ∧ (injectImage o t).ImagePullSecrets = t.ImagePullSecrets
      ∧ (injectImage o t).WorkingVolume = t.WorkingVolume
      ∧ (injectImage o t).S3FetchFilesImage = t.S3FetchFilesImage := by
    intro t; unfold injectImage
    by_cases h : t.Image = []
    · simp [h]
    · simp [h]
  have a3 : ∀ t, (injectGitsecret o ps t).Image = t.Image
      ∧ (injectGitsecret o ps t).ImagePullSecrets = t.ImagePullSecrets
      ∧ (injectGitsecret o ps t).WorkingVolume = t.WorkingVolume
      ∧ (injectGitsecret o ps t).S3FetchFilesImage = t.S3FetchFilesImage := by
    intro t; unfold injectGitsecret
    split
    · split_ifs <;> exact ⟨rfl, rfl, rfl, rfl⟩
    · exact ⟨rfl, rfl, rfl, rfl⟩
  have a4 : ∀ t, (injectImagePullSecrets o t).Image = t.Image
      ∧ (injectImagePullSecrets o t).ImagePullSecrets
          = (if t.ImagePullSecrets = [] then o.ImagePullSecrets else t.ImagePullSecrets)
      ∧ (injectImagePullSecrets o t).WorkingVolume = t.WorkingVolume
      ∧ (injectImagePullSecrets o t).S3FetchFilesImage = t.S3FetchFilesImage := by
    intro t; unfold injectImagePullSecrets
    by_cases h : t.ImagePullSecrets = []
    · simp [h]
    · simp [h]
  have a5 : ∀ t, (injectWorkingVolume o t).Image = t.Image
      ∧ (injectWorkingVolume o t).ImagePullSecrets = t.ImagePullSecrets
      ∧ (injectWorkingVolume o t).WorkingVolume = withDefaultWorkingVolume o t
      ∧ (injectWorkingVolume o t).S3FetchFilesImage = t.S3FetchFilesImage := by
    intro t; unfold injectWorkingVolume withDefaultWorkingVolume
    split_ifs <;> exact ⟨rfl, rfl, rfl, rfl⟩
  have w5 : ∀ t u : WorkflowSpec, t.WorkingVolume = u.WorkingVolume →
      withDefaultWorkingVolume o t = withDefaultWorkingVolume o u := by
    intro t u h; unfold withDefaultWorkingVolume; rw [h]
  unfold injectValues
  refine ⟨?_, ?_, ?_, ?_⟩
  · rw [(a5 _).1, (a4 _).1, (a3 _).1, (a2 _).1, (a1 _).1]
  · rw [(a5 _).2.1, (a4 _).2.1, (a3 _).2.1, (a2 _).2.1, (a1 _).2.1]
  · rw [(a5 _).2.2.1]
    exact w5 _ _ (by rw [(a4 _).2.2.1, (a3 _).2.2.1, (a2 _).2.2.1, (a1 _).2.2.1])
  · rw [(a5 _).2.2.2, (a4 _).2.2.2, (a3 _).2.2.2, (a2 _).2.2.2, (a1 _).2.2.2]

/-- The fields of the effective spec that hold defaults, and its volumes. -/
theorem effectiveSpec_defaults (w : World) (cr : Workflow) (ps : List Char) :
    (effectiveSpec w cr ps).Image
        = (if cr.Spec.Image = [] then (optionsOf w cr).FlowImage else cr.Spec.Image)
    ∧ (effectiveSpec w cr ps).ImagePullSecrets
        = (if cr.Spec.ImagePullSecrets = [] then (optionsOf w cr).ImagePullSecrets
           else cr.Spec.ImagePullSecrets)
    ∧ (effectiveSpec w cr ps).WorkingVolume = withDefaultWorkingVolume (optionsOf w cr) cr.Spec
    ∧ (effectiveSpec w cr ps).S3FetchFilesImage
        = (if cr.Spec.S3FetchFilesImage = [] then (optionsOf w cr).S3FetchFilesImage
           else cr.Spec.S3FetchFilesImage)
    ∧ (effectiveSpec w cr ps).Volumes = cr.Spec.Volumes ++ legacyVolume cr.Spec
    ∧ (effectiveSpec w cr ps).VolumeMounts = cr.Spec.VolumeMounts ++ legacyVolumeMount cr.Spec
    ∧ (effectiveSpec w cr ps).Env = cr.Spec.Env := by
  obtain ⟨-, -, -, -, -, -, -, -, -, f10, f11, f12, f13⟩ :=
    injectValues_frame (optionsOf w cr) ps cr.Spec
  obtain ⟨d1, d2, d3, d4⟩ := injectValues_defaults (optionsOf w cr) ps cr.Spec
  obtain ⟨m1, m2, m3, m4, m5, m6, m7⟩ :=
    migrateInputDataVolume_fields (injectValues (optionsOf w cr) ps cr.Spec)
  have hl : legacyVolume (injectValues (optionsOf w cr) ps cr.Spec) = legacyVolume cr.Spec := by
    unfold legacyVolume; rw [f13]
  have hlm : legacyVolumeMount (injectValues (optionsOf w cr) ps cr.Spec)
      = legacyVolumeMount cr.Spec := by
    unfold legacyVolumeMount; rw [f13]
  unfold effectiveSpec migrateSpec rewritePaths
  refine ⟨?_, ?_, ?_, ?_, ?_, ?_, ?_⟩
  · exact m1.trans d1
  · exact m2.trans d2
  · exact m3.trans d3
  · exact m5.trans d4
  · exact m6.trans (by rw [f11, hl])
  · exact m7.trans (by rw [f12, hlm])
  · exact m4.trans f10

/-! ## Volumes, containers and resources of a returned pod -/

theorem podVolumes_eq (ps name : List Char) (spec : WorkflowSpec) (vols : List Volume)
    (h : podVolumes ps name spec = .ok vols) :
    vols ++ (if spec.S3BucketInput.isSome = true then
              [({ Name := "s3-fetch".toList, VolumeSource := { EmptyDir := some {} } } : Volume)]
            else [])
      = spec.Volumes
        ++ appendedVolumes ps name spec.Package spec.WorkingVolume spec.S3BucketInput.isSome := by
  unfold podVolumes at h
  unfold appendedVolumes
  rcases hp : spec.Package with _ | pkg
  · rw [hp] at h
    by_cases hc : ps = WorkflowSourcePackageConfigMap
    · simp only [hc, if_true] at h
      exact Outcome.noConfusion h
    · simp only [hc, if_false, Outcome.pure_bind] at h
      rw [← Outcome.ok.inj h]
      simp [gitVolumeNamePackage, tempVolumeName]
  · rw [hp] at h
    by_cases hs : pkg.Gitsecret = []
    · by_cases hc : ps = WorkflowSourcePackageConfigMap
      · simp only [hc, hs, List.length_nil, gt_iff_lt, lt_self_iff_false, if_true, if_false,
          Outcome.pure_bind] at h
        rw [← Outcome.ok.inj h]
        simp [gitVolumeNamePackage, tempVolumeName, hs, hc]
      · simp only [hc, hs, List.length_nil, gt_iff_lt, lt_self_iff_false, if_false,
          Outcome.pure_bind] at h
        rw [← Outcome.ok.inj h]
        simp [gitVolumeNamePackage, tempVolumeName, hs, hc]
    · have hl : pkg.Gitsecret.length > 0 := List.length_pos.2 hs
      by_cases hc : ps = WorkflowSourcePackageConfigMap
      · simp only [hc, hl, if_true, Outcome.pure_bind] at h
        rw [← Outcome.ok.inj h]
        simp [gitVolumeNamePackage, tempVolumeName, hs, hc]
      · simp only [hc, hl, if_true, if_false, Outcome.pure_bind] at h
        rw [← Outcome.ok.inj h]
        simp [gitVolumeNamePackage, tempVolumeName, hs, hc]

/-- The volumes of a returned pod: those of the spec, the deprecated
`inputDataVolume`, then the volumes the function appends. -/
theorem volumes_of_ok (w : World) (cr : Workflow) (pod : Pod)
    (h : newPodForCR w cr = .ok pod) :
    ∃ ps, resolvePackageSource cr.Spec = .ok ps
      ∧ pod.Spec.Volumes
          = cr.Spec.Volumes ++ legacyVolume cr.Spec
            ++ appendedVolumes ps cr.Name
                (cr.Spec.Package.map (withDefaultSecret (optionsOf w cr) ps))
                (withDefaultWorkingVolume (optionsOf w cr) cr.Spec)
                cr.Spec.S3BucketInput.isSome := by
  obtain ⟨ps, vols, git, gsr, wmr, cmd, er, h1, h2, -, -, -, -, -, hpod⟩ :=
    newPodForCR_ok_inv w cr pod h
  refine ⟨ps, h1, ?_⟩
  have hv := podVolumes_eq _ _ _ _ h2
  obtain ⟨-, -, d3, -, d5, -, -⟩ := effectiveSpec_defaults w cr ps
  have hs3 := (effectiveSpec_fields w cr ps).2.2.2.2.2.2.2.1
  rw [effectiveSpec_package, d3, d5, hs3] at hv
  rw [← hv, hpod]
  unfold assemblePod
  simp only [hs3]
  rcases cr.Spec.S3BucketInput with _ | s3
  · simp
  · simp

theorem Outcome.pure_eq_ok {α : Type} (a : α) : (pure a : Outcome α) = Outcome.ok a := rfl

theorem resourceList_eq (w : World) (cpu memory : List Char)
    (o : Option Resourcedefinition) (r : ResourceList)
    (h : resourceList w cpu memory o = .ok r) : r = roleResources cpu memory o := by
  unfold resourceList at h
  unfold roleResources
  rcases o with _ | o
  · exact (Outcome.ok.inj h).symm
  · simp only [MustParse] at h
    by_cases hc : o.Cpu = []
    · by_cases hm : o.Memory = []
      · simp [hc, hm, Outcome.pure_bind, Outcome.ok_bind, Outcome.pure_eq_ok] at h
        simp [hc, hm, ← h]
      · have lm : o.Memory.length > 0 := List.length_pos.2 hm
        by_cases qm : w.quantityOk o.Memory = true
        · simp [hc, hm, qm, lm, Outcome.pure_bind, Outcome.ok_bind, Outcome.pure_eq_ok] at h
          simp [hc, hm, ← h]
        · simp [hc, hm, qm, lm, Outcome.pure_bind, Outcome.panic_bind] at h
    · have lc : o.Cpu.length > 0 := List.length_pos.2 hc
      by_cases qc : w.quantityOk o.Cpu = true
      · by_cases hm : o.Memory = []
        · simp [hc, hm, qc, lc, Outcome.pure_bind, Outcome.ok_bind, Outcome.pure_eq_ok] at h
          simp [hc, hm, ← h]
        · have lm : o.Memory.length > 0 := List.length_pos.2 hm
          by_cases qm : w.quantityOk o.Memory = true
          · simp [hc, hm, qm, qc, lc, lm, Outcome.pure_bind, Outcome.ok_bind,
              Outcome.pure_eq_ok] at h
            simp [hc, hm, ← h]
          · simp [hc, hm, qm, qc, lc, lm, Outcome.pure_bind, Outcome.ok_bind,
              Outcome.panic_bind] at h
      · simp [hc, qc, lc, Outcome.panic_bind] at h

/-- The two containers of a returned pod. -/
theorem containers_of_ok (w : World) (cr : Workflow) (pod : Pod)
    (h : newPodForCR w cr = .ok pod) :
    ∃ ps cmd, resolvePackageSource cr.Spec = .ok ps
      ∧ primaryCommandLine ps (effectiveSpec w cr ps) = .ok cmd
      ∧ pod.Spec.Containers
          = [primarycontainerOf (effectiveSpec w cr ps) cmd.2
              (primaryVolumeMounts (effectiveSpec w cr ps)
                ++ (if cr.Spec.S3BucketInput.isSome = true then [volMountS3Fetch] else []))
              (roleResources "1000m".toList "500Mi".toList
                (cr.Spec.Resources.bind fun r => r.ElaunchPrimary)) cmd.1,
             monitorElaunchContainerOf (optionsOf w cr) (effectiveSpec w cr ps)
              (roleResources "100m".toList "200Mi".toList
                (cr.Spec.Resources.bind fun r => r.Monitor))] := by
  obtain ⟨ps, vols, git, gsr, wmr, cmd, er, h1, -, -, -, h5, h6, h7, hpod⟩ :=
    newPodForCR_ok_inv w cr pod h
  refine ⟨ps, cmd, h1, h6, ?_⟩
  have hres := (effectiveSpec_fields w cr ps).2.2.2.2.2.2.2.2
  have hs3 := (effectiveSpec_fields w cr ps).2.2.2.2.2.2.2.1
  rw [hres] at h5 h7
  rw [← resourceList_eq _ _ _ _ _ h5, ← resourceList_eq _ _ _ _ _ h7, hpod]
  unfold assemblePod
  simp only [hs3]
  rcases cr.Spec.S3BucketInput with _ | s3
  · simp
  · simp

/-- The init containers of a returned pod, with their resources made explicit. -/
theorem init_of_ok_resources (w : World) (cr : Workflow) (pod : Pod)
    (h : newPodForCR w cr = .ok pod) :
    ∃ (ps : List Char) (git : List (List Char) × List (List Char) × List VolumeMount),
      resolvePackageSource cr.Spec = .ok ps
      ∧ pod.Spec.InitContainers
          = (if ps = WorkflowSourcePackageHTTPS ∨ ps = WorkflowSourcePackageSSH
                ∨ ps = WorkflowSourcePackageConfigMap then
              [initContainerPackageOf (w.parseInt (Getenv w "USER_ID".toList)) (optionsOf w cr)
                (effectiveSpec w cr ps) git.1 git.2.1 git.2.2
                (roleResources "100m".toList "200Mi".toList
                  (cr.Spec.Resources.bind fun r => r.GitFetch))]
            else [])
            ++ (match cr.Spec.S3BucketInput with
                | none => []
                | some s3 =>
                  [s3FetchFilesOf w (w.parseInt (Getenv w "USER_ID".toList)) (optionsOf w cr)
                    (effectiveSpec w cr ps) s3
                    (roleResources "100m".toList "200Mi".toList
                      (cr.Spec.Resources.bind fun r => r.GitFetch))]) := by
  obtain ⟨ps, vols, git, gsr, wmr, cmd, er, h1, -, -, h4, -, -, -, hpod⟩ :=
    newPodForCR_ok_inv w cr pod h
  have hres := (effectiveSpec_fields w cr ps).2.2.2.2.2.2.2.2
  have hs3 := (effectiveSpec_fields w cr ps).2.2.2.2.2.2.2.1
  rw [hres] at h4
  have hg := resourceList_eq _ _ _ _ _ h4
  subst hg
  refine ⟨ps, git, h1, ?_⟩
  rw [hpod]
  unfold assemblePod
  simp only [hs3]
  rcases cr.Spec.S3BucketInput with _ | s3
  · simp
  · simp

theorem initContainerPackageOf_resources (user : Int) (o : DefaultWorkflowOptions)
    (spec : WorkflowSpec) (gco oc : List (List Char)) (vm : List VolumeMount)
    (gsr : ResourceList) :
    (initContainerPackageOf user o spec gco oc vm gsr).Resources
      = { Limits := gsr, Requests := gsr } := by
  unfold initContainerPackageOf
  split_ifs <;> rfl

theorem init_resources_of_ok (w : World) (cr : Workflow) (pod : Pod)
    (h : newPodForCR w cr = .ok pod) (c : Container) (hc : c ∈ pod.Spec.InitContainers) :
    c.Resources
      = { Limits := roleResources "100m".toList "200Mi".toList
                      (cr.Spec.Resources.bind fun r => r.GitFetch)
          Requests := roleResources "100m".toList "200Mi".toList
                        (cr.Spec.Resources.bind fun r => r.GitFetch) } := by
  obtain ⟨ps, git, -, hinit⟩ := init_of_ok_resources w cr pod h
  rw [hinit, List.mem_append] at hc
  rcases hc with hc | hc
  · split_ifs at hc
    · rw [List.mem_singleton] at hc
      rw [hc, initContainerPackageOf_resources]
    · exact absurd hc (List.not_mem_nil _)
  · rcases hs : cr.Spec.S3BucketInput with _ | s3
    · rw [hs] at hc
      exact absurd hc (List.not_mem_nil _)
    · rw [hs] at hc
      rw [List.mem_singleton.1 hc]
      rfl

/-! ## Path rewriting and the deprecated-field migration -/

theorem rewrite_absolute_paths_getElem? (paths : List (List Char)) (root : List Char) (i : Nat) :
    (rewrite_absolute_paths paths root)[i]?
      = paths[i]?.map fun v => if HasPrefix v "/".toList = true then v else root ++ "/".toList ++ v := by
  unfold rewrite_absolute_paths
  rw [List.getElem?_map]
  rcases paths[i]? with _ | v
  · rfl
  · simp only [Option.map_some']
    by_cases h : HasPrefix v ['/'] = true
    · have h2 : HasPrefix v "/".toList = true := h
      simp [h, h2]
    · have h2 : ¬ HasPrefix v "/".toList = true := h
      simp only [Bool.not_eq_true] at h
      simp [h, h2]

theorem hasPrefix_slash_append (root v : List Char) (h : HasPrefix root ['/'] = true) :
    HasPrefix (root ++ ['/'] ++ v) ['/'] = true := by
  unfold HasPrefix at *
  rcases root with _ | ⟨c, cs⟩
  · simp at h
  · simpa using h

theorem rewrite_absolute_paths_idem (paths : List (List Char)) (root root2 : List Char)
    (h : HasPrefix root ['/'] = true) :
    rewrite_absolute_paths (rewrite_absolute_paths paths root) root2
      = rewrite_absolute_paths paths root := by
  unfold rewrite_absolute_paths
  rw [List.map_map]
  apply List.map_congr_left
  intro v _
  by_cases hv : HasPrefix v ['/'] = true
  · simp [hv]
  · simp only [Bool.not_eq_true] at hv
    have k := hasPrefix_slash_append root v h
    simp only [List.append_assoc, List.singleton_append] at k
    simp [hv, k]

theorem inputdirOf_eq (spec : WorkflowSpec) :
    inputdirOf spec
      = (if spec.S3BucketInput.isSome = true then "/tmp/s3-root-dir/input".toList
         else "/tmp/inputdir".toList)
    ∧ datadirOf spec
      = (if spec.S3BucketInput.isSome = true then "/tmp/s3-root-dir/data".toList
         else "/tmp/inputdir".toList)
    ∧ variabledir = "/tmp/inputdir".toList := by
  unfold inputdirOf datadirOf
  refine ⟨?_, ?_, rfl⟩
  · split_ifs
    · decide
    · rfl
  · split_ifs
    · decide
    · rfl

theorem roots_absolute (spec : WorkflowSpec) :
    HasPrefix (inputdirOf spec) ['/'] = true ∧ HasPrefix (datadirOf spec) ['/'] = true
      ∧ HasPrefix variabledir ['/'] = true := by
  obtain ⟨a, b, c⟩ := inputdirOf_eq spec
  rw [a, b, c]
  refine ⟨?_, ?_, by decide⟩
  · split_ifs <;> decide
  · split_ifs <;> decide

theorem rewritePaths_idem (t : WorkflowSpec) : rewritePaths (rewritePaths t) = rewritePaths t := by
  obtain ⟨a, b, c⟩ := roots_absolute t
  have e : rewritePaths (rewritePaths t)
      = { rewritePaths t with
          Inputs := rewrite_absolute_paths (rewrite_absolute_paths t.Inputs (inputdirOf t))
            (inputdirOf t)
          Variables := rewrite_absolute_paths (rewrite_absolute_paths t.Variables variabledir)
            variabledir
          Data := rewrite_absolute_paths (rewrite_absolute_paths t.Data (datadirOf t))
            (datadirOf t) } := rfl
  rw [e, rewrite_absolute_paths_idem _ _ _ a, rewrite_absolute_paths_idem _ _ _ b,
    rewrite_absolute_paths_idem _ _ _ c]
  rfl

theorem migrateInputDataVolume_settled (t : WorkflowSpec)
    (h : ∀ vol, t.InputDataVolume = some vol → ¬ vol.Name.length > 0) :
    migrateInputDataVolume t = t := by
  unfold migrateInputDataVolume
  rcases hv : t.InputDataVolume with _ | vol
  · rfl
  · simp only [h vol hv, if_false]

theorem migrateInputDataVolume_clears (s : WorkflowSpec) (vol : Volume)
    (h : (migrateInputDataVolume s).InputDataVolume = some vol) : ¬ vol.Name.length > 0 := by
  unfold migrateInputDataVolume at h
  rcases hv : s.InputDataVolume with _ | v0
  · rw [hv] at h
    simp only [hv] at h
    exact absurd h (by simp)
  · rw [hv] at h
    by_cases hn : v0.Name.length > 0
    · simp only [hn, if_true] at h
      exact absurd h (by simp)
    · simp only [hn, if_false, hv] at h
      rw [← Option.some.inj h]
      exact hn

theorem migrateSpec_idem (s : WorkflowSpec) : migrateSpec (migrateSpec s) = migrateSpec s := by
  unfold migrateSpec
  have h1 : migrateInputDataVolume (rewritePaths (migrateInputDataVolume s))
      = rewritePaths (migrateInputDataVolume s) :=
    migrateInputDataVolume_settled _ (fun vol hv => migrateInputDataVolume_clears s vol hv)
  rw [h1, rewritePaths_idem]

/-! ## The bucket-fetch arguments -/

theorem foldl_fetch_flag (flag pre : List Char) (l : List (List Char))
    (init : List (List Char)) :
    l.foldl
        (fun cmd v =>
          if HasPrefix v pre = true then
            cmd ++ [flag, (SplitPathToSourcePathAndTargetName (v.drop pre.length)).SourcePath]
          else cmd)
        init
      = init ++ (l.filter fun v => HasPrefix v pre).flatMap fun v =>
          [flag, (SplitPathToSourcePathAndTargetName (v.drop pre.length)).SourcePath] := by
  induction l generalizing init with
  | nil => simp
  | cons x xs ih =>
    rw [List.foldl_cons, ih]
    by_cases hx : HasPrefix x pre = true
    · simp [hx]
    · simp [hx]

theorem s3FetchCommandFor_eq (spec : WorkflowSpec) :
    s3FetchCommandFor spec
      = ((spec.Inputs.filter fun v => HasPrefix v "/tmp/s3-root-dir/input/".toList).flatMap
          fun v => ["-i".toList,
            (SplitPathToSourcePathAndTargetName
              (v.drop "/tmp/s3-root-dir/input/".toList.length)).SourcePath])
        ++ ((spec.Data.filter fun v => HasPrefix v "/tmp/s3-root-dir/data/".toList).flatMap
          fun v => ["-d".toList,
            (SplitPathToSourcePathAndTargetName
              (v.drop "/tmp/s3-root-dir/data/".toList.length)).SourcePath]) := by
  have e1 : rootDirS3InputData ++ "/input/".toList = "/tmp/s3-root-dir/input/".toList := by
    decide
  have e2 : rootDirS3InputData ++ "/data/".toList = "/tmp/s3-root-dir/data/".toList := by
    decide
  unfold s3FetchCommandFor
  simp only [e1, e2]
  rw [foldl_fetch_flag, foldl_fetch_flag, List.nil_append]

/-! ## The defaults -/

theorem getDefaultValues_of_document (w : World) (ns name : List Char)
    (data : List Char → Option (List Char)) (doc : List Char)
    (h1 : w.getConfigMap ns name = some data) (h2 : data "config.json".toList = some doc) :
    getDefaultValues w ns name
      = { FlowImage :=
            if (w.jsonUnmarshal doc).1.Image ≠ [] then (w.jsonUnmarshal doc).1.Image
            else Getenv w "FLOW_IMAGE".toList
          GitSyncImage :=
            if (w.jsonUnmarshal doc).1.GitSyncImage ≠ [] then (w.jsonUnmarshal doc).1.GitSyncImage
            else Getenv w "GIT_SYNC_IMAGE".toList
          S3FetchFilesImage :=
            if (w.jsonUnmarshal doc).1.S3FetchFilesImage ≠ [] then
              (w.jsonUnmarshal doc).1.S3FetchFilesImage
            else Getenv w "S3_FETCH_FILES_IMAGE".toList
          WorkflowMonitoringImage :=
            if (w.jsonUnmarshal doc).1.WorkflowMonitoringImage ≠ [] then
              (w.jsonUnmarshal doc).1.WorkflowMonitoringImage
            else Getenv w "WORKFLOW_MONITORING_IMAGE".toList
          GitSecret := (w.jsonUnmarshal doc).1.GitSecret
          GitSecretOAuth := (w.jsonUnmarshal doc).1.GitSecretOAuth
          WorkingVolume := (w.jsonUnmarshal doc).1.WorkingVolume
          ImagePullSecrets := (w.jsonUnmarshal doc).1.ImagePullSecrets } := by
  unfold getDefaultValues
  simp only [h1, h2]
  generalize (w.jsonUnmarshal doc).1 = config
  by_cases a : config.Image = [] <;> by_cases b : config.GitSyncImage = [] <;>
    by_cases c : config.S3FetchFilesImage = [] <;>
    by_cases d : config.WorkflowMonitoringImage = [] <;>
    simp [a, b, c, d, List.length_pos]

theorem getDefaultValues_without_document (w : World) (ns name : List Char)
    (h : w.getConfigMap ns name = none
      ∨ ∃ data, w.getConfigMap ns name = some data ∧ data "config.json".toList = none) :
    getDefaultValues w ns name
      = { FlowImage := Getenv w "FLOW_IMAGE".toList
          GitSyncImage := Getenv w "GIT_SYNC_IMAGE".toList
          S3FetchFilesImage := Getenv w "S3_FETCH_FILES_IMAGE".toList
          WorkflowMonitoringImage := Getenv w "WORKFLOW_MONITORING_IMAGE".toList
          GitSecret := []
          GitSecretOAuth := []
          WorkingVolume := []
          ImagePullSecrets := [] } := by
  unfold getDefaultValues
  rcases h with h | ⟨data, h1, h2⟩
  · simp only [h]
  · simp only [h1, h2]

/-! ## The debug flag -/

theorem injectValues_withDebug (o : DefaultWorkflowOptions) (ps : List Char) (s : WorkflowSpec)
    (d : Bool) :
    injectValues o ps { s with Debug := d } = { injectValues o ps s with Debug := d } := by
  have a1 : ∀ t : WorkflowSpec, injectS3FetchFilesImage o { t with Debug := d }
      = { injectS3FetchFilesImage o t with Debug := d } := by
    intro t; unfold injectS3FetchFilesImage; split_ifs <;> rfl
  have a2 : ∀ t : WorkflowSpec, injectImage o { t with Debug := d }
      = { injectImage o t with Debug := d } := by
    intro t; unfold injectImage; split_ifs <;> rfl
  have a3 : ∀ t : WorkflowSpec, injectGitsecret o ps { t with Debug := d }
      = { injectGitsecret o ps t with Debug := d } := by
    intro t
    rcases t with ⟨x1, x2, pkg, x4, x5, x6, x7, x8, x9, x10, x11, x12, x13, x14, x15, x16, x17,
      x18⟩
    rcases pkg with _ | pkg
    · rfl
    · unfold injectGitsecret
      dsimp only
      split_ifs <;> rfl
  have a4 : ∀ t : WorkflowSpec, injectImagePullSecrets o { t with Debug := d }
      = { injectImagePullSecrets o t with Debug := d } := by
    intro t; unfold injectImagePullSecrets; split_ifs <;> rfl
  have a5 : ∀ t : WorkflowSpec, injectWorkingVolume o { t with Debug := d }
      = { injectWorkingVolume o t with Debug := d } := by
    intro t; unfold injectWorkingVolume; split_ifs <;> rfl
  unfold injectValues
  simp only [a1, a2, a3, a4, a5]

theorem migrateSpec_withDebug (s : WorkflowSpec) (d : Bool) :
    migrateSpec { s with Debug := d } = { migrateSpec s with Debug := d } := by
  have a1 : migrateInputDataVolume { s with Debug := d }
      = { migrateInputDataVolume s with Debug := d } := by
    rcases s with ⟨x1, x2, x3, x4, x5, x6, x7, x8, x9, idv, x11, x12, x13, x14, x15, x16, x17,
      x18⟩
    rcases idv with _ | vol
    · rfl
    · unfold migrateInputDataVolume
      dsimp only
      split_ifs <;> rfl
  unfold migrateSpec
  rw [a1]
  rfl

theorem effectiveSpec_withDebug (w : World) (cr : Workflow) (ps : List Char) (d : Bool) :
    effectiveSpec w (withDebug cr d) ps = { effectiveSpec w cr ps with Debug := d } := by
  unfold effectiveSpec
  show migrateSpec (injectValues (optionsOf w cr) ps { cr.Spec with Debug := d }) = _
  rw [injectValues_withDebug, migrateSpec_withDebug]

theorem assemblePod_withDebug (w : World) (cr : Workflow) (ps : List Char) (S : WorkflowSpec)
    (vols : List Volume) (gco oc : List (List Char)) (vm : List VolumeMount)
    (gsr wmr : ResourceList) (command : List (List Char)) (envVars : List EnvVar)
    (er : ResourceList) :
    assemblePod w (withDebug cr true) ps { S with Debug := true } vols gco oc vm gsr wmr command
        envVars er
      = echoed (assemblePod w (withDebug cr false) ps { S with Debug := false } vols gco oc vm
          gsr wmr command envVars er) := by
  unfold assemblePod echoed
  rfl

/-- Setting the debug flag puts `echo` in front of the primary command and
changes nothing else; in particular the call succeeds with the flag set exactly
when it succeeds with the flag unset. -/
theorem newPodForCR_withDebug (w : World) (cr : Workflow) (pod : Pod)
    (h : newPodForCR w (withDebug cr false) = .ok pod) :
    newPodForCR w (withDebug cr true) = .ok (echoed pod) := by
  obtain ⟨ps, vols, git, gsr, wmr, cmd, er, h1, h2, h3, h4, h5, h6, h7, hpod⟩ :=
    newPodForCR_ok_inv w (withDebug cr false) pod h
  rw [effectiveSpec_withDebug] at h2 h3 h4 h5 h6 h7 hpod
  have g1 : resolvePackageSource (withDebug cr true).Spec = .ok ps := h1
  have g2 : podVolumes ps (withDebug cr true).Name { effectiveSpec w cr ps with Debug := true }
      = .ok vols := h2
  have g3 : gitSyncSetup w ps { effectiveSpec w cr ps with Debug := true }
      (branchNameOf { effectiveSpec w cr ps with Debug := true })
      [{ Name := gitVolumeNamePackage, MountPath := "/tmp/git".toList }, volMountGitSyncConfig]
      = .ok git := h3
  have g4 : resourceList w "100m".toList "200Mi".toList
      (({ effectiveSpec w cr ps with Debug := true } : WorkflowSpec).Resources.bind
        fun r => r.GitFetch) = .ok gsr := h4
  have g5 : resourceList w "100m".toList "200Mi".toList
      (({ effectiveSpec w cr ps with Debug := true } : WorkflowSpec).Resources.bind
        fun r => r.Monitor) = .ok wmr := h5
  have g6 : primaryCommandLine ps { effectiveSpec w cr ps with Debug := true } = .ok cmd := h6
  have g7 : resourceList w "1000m".toList "500Mi".toList
      (({ effectiveSpec w cr ps with Debug := true } : WorkflowSpec).Resources.bind
        fun r => r.ElaunchPrimary) = .ok er := h7
  rw [newPodForCR_eq_podSteps]
  unfold podSteps
  rw [g1, Outcome.bind_ok]
  simp only [effectiveSpec_withDebug]
  rw [g2, Outcome.bind_ok, g3, Outcome.bind_ok, g4, Outcome.bind_ok, g5, Outcome.bind_ok, g6,
    Outcome.bind_ok, g7, Outcome.bind_ok, hpod, assemblePod_withDebug]

theorem secret_mem_appendedVolumes (ps name : List Char) (p : Gitrepo) (wv : Volume)
    (s3 : Bool) (h : p.Gitsecret ≠ []) :
    ({ Name := "git-secrets-package".toList
       VolumeSource := { Secret := some { SecretName := p.Gitsecret, DefaultMode := some 288 } } }
      : Volume) ∈ appendedVolumes ps name (some p) wv s3 := by
  unfold appendedVolumes
  simp [h]

/-! ## Volumes and their mounts -/

theorem gitSyncSetup_configMap (w : World) (spec : WorkflowSpec) (pkg : Gitrepo)
    (b : List Char) (vm : List VolumeMount) (hp : spec.Package = some pkg) :
    gitSyncSetup w WorkflowSourcePackageConfigMap spec b vm
      = .ok (["/etc/flowir_package/package.json".toList, "/tmp/git/".toList],
          ["/bin/expand_package.py".toList],
          vm ++ [{ Name := pkg.FromConfigMap, MountPath := "/etc/flowir_package".toList }]) := by
  have n1 : WorkflowSourcePackageConfigMap ≠ WorkflowSourcePackageSSH := by decide
  have n2 : WorkflowSourcePackageConfigMap ≠ WorkflowSourcePackageHTTPS := by decide
  unfold gitSyncSetup
  rw [if_neg n1, if_neg n2, if_pos rfl, hp]

theorem initContainerPackageOf_mounts (user : Int) (o : DefaultWorkflowOptions)
    (spec : WorkflowSpec) (gco oc : List (List Char)) (vm : List VolumeMount)
    (gsr : ResourceList) :
    (initContainerPackageOf user o spec gco oc vm gsr).VolumeMounts
      = vm ++ (match spec.Package with
               | some pkg =>
                 if pkg.Gitsecret ≠ [] then
                   [{ Name := "git-secrets-package".toList, MountPath := "/etc/git-secret".toList }]
                 else []
               | none => []) := by
  have e : (initContainerPackageOf user o spec gco oc vm gsr).VolumeMounts
      = (match spec.Package with
         | some pkg =>
           if pkg.Gitsecret.length > 0 then
             vm ++ [({ Name := "git-secrets-package".toList
                       MountPath := "/etc/git-secret".toList } : VolumeMount)]
           else vm
         | none => vm) := by
    unfold initContainerPackageOf
    split_ifs <;> rfl
  rw [e]
  rcases spec.Package with _ | pkg
  · simp
  · by_cases h : pkg.Gitsecret = []
    · simp [h]
    · simp [h, List.length_pos]

theorem mem_appendedVolumes (ps name : List Char) (pkg : Option Gitrepo) (wv : Volume)
    (s3 : Bool) (v : Volume) (h : v ∈ appendedVolumes ps name pkg wv s3) :
    v.Name = "config-volume".toList ∨ v.Name = wv.Name
      ∨ (∃ p, pkg = some p ∧ p.Gitsecret ≠ [] ∧ v.Name = "git-secrets-package".toList)
      ∨ v.Name = "git-sync-config".toList
      ∨ (∃ p, pkg = some p ∧ ps = WorkflowSourcePackageConfigMap ∧ v.Name = p.FromConfigMap)
      ∨ v.Name = "git-sync-package".toList ∨ v.Name = "tmp-volume-name".toList
      ∨ (s3 = true ∧ v.Name = "s3-fetch".toList) := by
  unfold appendedVolumes at h
  simp only [List.mem_append] at h
  rcases h with ((((h | h) | h) | h) | h) | h
  · simp only [List.mem_cons, List.mem_singleton, List.not_mem_nil, or_false] at h
    rcases h with h | h
    · left; rw [h]
    · right; left; rw [h]
  · right; right; left
    rcases pkg with _ | p
    · exact absurd h (List.not_mem_nil _)
    · by_cases hs : p.Gitsecret = []
      · simp [hs] at h
      · simp only [hs, ne_eq, not_false_eq_true, if_true, List.mem_singleton] at h
        exact ⟨p, rfl, hs, by rw [h]⟩
  · right; right; right; left
    rw [List.mem_singleton.1 h]
  · right; right; right; right; left
    rcases pkg with _ | p
    · exact absurd h (List.not_mem_nil _)
    · by_cases hc : ps = WorkflowSourcePackageConfigMap
      · simp only [hc, if_true, List.mem_singleton] at h
        exact ⟨p, rfl, hc, by rw [h]⟩
      · simp [hc] at h
  · simp only [List.mem_cons, List.mem_singleton, List.not_mem_nil, or_false] at h
    rcases h with h | h
    · right; right; right; right; right; left; rw [h]
    · right; right; right; right; right; right; left; rw [h]
  · right; right; right; right; right; right; right
    by_cases hs : s3 = true
    · simp only [hs, if_true, List.mem_singleton] at h
      exact ⟨hs, by rw [h]⟩
    · simp [hs] at h

theorem mem_legacyVolume (spec : WorkflowSpec) (v : Volume) (h : v ∈ legacyVolume spec) :
    ({ Name := v.Name, MountPath := rootDirConfigMapInputData } : VolumeMount)
      ∈ legacyVolumeMount spec := by
  unfold legacyVolume at h
  unfold legacyVolumeMount
  rcases hv : spec.InputDataVolume with _ | vol
  · rw [hv] at h
    exact absurd h (List.not_mem_nil _)
  · rw [hv] at h
    by_cases hn : vol.Name.length > 0
    · simp only [hn, if_true, List.mem_singleton] at h
      simp [hn, h]
    · simp [hn] at h

/-- Every volume `newPodForCR` appends is mounted, under its name, by a container
of the returned pod, but for the secret volume `git-secrets-package`: only the
package-fetch container mounts it, and that container is part of the pod for the
https, ssh and configMap variants alone. -/
theorem appended_volume_mounted (w : World) (cr : Workflow) (pod : Pod)
    (h : newPodForCR w cr = .ok pod) :
    ∃ ps, resolvePackageSource cr.Spec = .ok ps
      ∧ ∀ v ∈ pod.Spec.Volumes.drop cr.Spec.Volumes.length,
          (v.Name ≠ "git-secrets-package".toList ∨ ps = WorkflowSourcePackageHTTPS
            ∨ ps = WorkflowSourcePackageSSH ∨ ps = WorkflowSourcePackageConfigMap) →
          ∃ c ∈ pod.Spec.InitContainers ++ pod.Spec.Containers,
            ∃ m ∈ c.VolumeMounts, m.Name = v.Name := by
  obtain ⟨ps, h1, hv⟩ := volumes_of_ok w cr pod h
  obtain ⟨ps2, cmd, h1c, -, hc⟩ := containers_of_ok w cr pod h
  obtain ⟨ps3, git, gsr, h1i, hgit, hinit⟩ := init_of_ok w cr pod h
  have e2 : ps = ps2 := Outcome.ok.inj (h1.symm.trans h1c)
  have e3 : ps = ps3 := Outcome.ok.inj (h1.symm.trans h1i)
  subst e2 e3
  obtain ⟨-, -, d3, -, -, d6, -⟩ := effectiveSpec_defaults w cr ps
  have hpk := effectiveSpec_package w cr ps
  refine ⟨ps, h1, ?_⟩
  intro v hvm hcond
  rw [hv, List.append_assoc, List.drop_left, List.mem_append] at hvm
  have hvmP : ∀ spec env vm er command,
      (primarycontainerOf spec env vm er command).VolumeMounts = vm := by
    intro spec env vm er command
    unfold primarycontainerOf
    split_ifs <;> rfl
  -- a mount of the primary container is a mount of a container of the pod
  have prim : ∀ m : VolumeMount,
      m ∈ primaryVolumeMounts (effectiveSpec w cr ps)
          ++ (if cr.Spec.S3BucketInput.isSome = true then [volMountS3Fetch] else []) →
      m.Name = v.Name →
      ∃ c ∈ pod.Spec.InitContainers ++ pod.Spec.Containers,
        ∃ m ∈ c.VolumeMounts, m.Name = v.Name := by
    intro m hm hn
    have hP : primarycontainerOf (effectiveSpec w cr ps) cmd.2
          (primaryVolumeMounts (effectiveSpec w cr ps)
            ++ (if cr.Spec.S3BucketInput.isSome = true then [volMountS3Fetch] else []))
          (roleResources "1000m".toList "500Mi".toList
            (cr.Spec.Resources.bind fun r => r.ElaunchPrimary)) cmd.1
        ∈ pod.Spec.InitContainers ++ pod.Spec.Containers :=
      List.mem_append_right _ (by rw [hc]; exact List.mem_cons_self _ _)
    exact ⟨_, hP, m, by rw [hvmP]; exact hm, hn⟩
  have pm : ∀ m : VolumeMount, m ∈ primaryVolumeMounts (effectiveSpec w cr ps) →
      m.Name = v.Name →
      ∃ c ∈ pod.Spec.InitContainers ++ pod.Spec.Containers,
        ∃ m ∈ c.VolumeMounts, m.Name = v.Name :=
    fun m hm hn => prim m (List.mem_append_left _ hm) hn
  -- a mount of the package-fetch container, when that container is part of the pod
  have ini : (ps = WorkflowSourcePackageHTTPS ∨ ps = WorkflowSourcePackageSSH
        ∨ ps = WorkflowSourcePackageConfigMap) →
      ∀ m : VolumeMount,
        m ∈ (initContainerPackageOf (w.parseInt (Getenv w "USER_ID".toList)) (optionsOf w cr)
              (effectiveSpec w cr ps) git.1 git.2.1 git.2.2 gsr).VolumeMounts →
        m.Name = v.Name →
        ∃ c ∈ pod.Spec.InitContainers ++ pod.Spec.Containers,
          ∃ m ∈ c.VolumeMounts, m.Name = v.Name := by
    intro hps m hm hn
    have hI : initContainerPackageOf (w.parseInt (Getenv w "USER_ID".toList)) (optionsOf w cr)
          (effectiveSpec w cr ps) git.1 git.2.1 git.2.2 gsr
        ∈ pod.Spec.InitContainers ++ pod.Spec.Containers := by
      refine List.mem_append_left _ ?_
      rw [hinit, if_pos hps]
      exact List.mem_append_left _ (List.mem_singleton.2 rfl)
    exact ⟨_, hI, m, hm, hn⟩
  rcases hvm with hl | ha
  · -- the deprecated input data volume
    refine pm ⟨v.Name, rootDirConfigMapInputData, []⟩ ?_ rfl
    unfold primaryVolumeMounts
    rw [d6]
    simp only [List.mem_append]
    exact Or.inl (Or.inl (Or.inl (Or.inl (Or.inl (Or.inr (mem_legacyVolume _ _ hl))))))
  · rcases mem_appendedVolumes _ _ _ _ _ _ ha with k | k | k | k | k | k | k | k
    · refine pm configVolumeMount ?_ k.symm
      unfold primaryVolumeMounts
      simp
    · refine pm ⟨(effectiveSpec w cr ps).WorkingVolume.Name, workdir, []⟩ ?_ (by rw [k, d3])
      unfold primaryVolumeMounts
      simp
    · obtain ⟨p, hp, hs, hn⟩ := k
      have hps : ps = WorkflowSourcePackageHTTPS ∨ ps = WorkflowSourcePackageSSH
          ∨ ps = WorkflowSourcePackageConfigMap := by
        rcases hcond with hcond | hcond
        · exact absurd hn hcond
        · exact hcond
      refine ini hps ⟨"git-secrets-package".toList, "/etc/git-secret".toList, []⟩ ?_ hn.symm
      rw [initContainerPackageOf_mounts, hpk, hp]
      simp [hs]
    · refine pm volMountGitSyncConfig ?_ k.symm
      unfold primaryVolumeMounts
      simp
    · obtain ⟨p, hp, hcm, hn⟩ := k
      subst hcm
      rw [← hpk] at hp
      rw [gitSyncSetup_configMap w _ p _ _ hp] at hgit
      have hg := (Outcome.ok.inj hgit).symm
      refine ini (Or.inr (Or.inr rfl)) ⟨p.FromConfigMap, "/etc/flowir_package".toList, []⟩
        ?_ hn.symm
      rw [initContainerPackageOf_mounts, hg]
      simp
    · refine pm ⟨gitVolumeNamePackage, packageMountOf (effectiveSpec w cr ps), []⟩ ?_ k.symm
      unfold primaryVolumeMounts
      simp
    · refine pm tempVolumeMountPrimary ?_ k.symm
      unfold primaryVolumeMounts
      simp
    · obtain ⟨hs, hn⟩ := k
      refine prim volMountS3Fetch ?_ hn.symm
      rw [if_pos hs]
      simp

/-! ## Claims on the bucket-fetch arguments, the path rewriting and the migration -/

/-- C21, the code at a failing input: a spec with `s3BucketInput` set and the
input `x:renamed.txt`, that is the source `x` with the rename target
`renamed.txt`. The entry is rewritten to `/tmp/s3-root-dir/input/x:renamed.txt`,
and `SplitPathToSourcePathAndTargetName` does not split `x:renamed.txt`, its
pattern asking for two characters before the colon: the bucket-fetch container
gets the arguments `-i x:renamed.txt`, rename target included. -/
theorem C21_rename_target_in_fetch_args :
    initArgsOf (newPodForCR bareWorld
        { Spec := { Package := some { FromPath := "/pkg".toList },
                    S3BucketInput := some {},
                    Inputs := ["x:renamed.txt".toList] } })
      = [["-i".toList, "x:renamed.txt".toList]]
    ∧ SplitPathToSourcePathAndTargetName "x:renamed.txt".toList
      = ⟨"x:renamed.txt".toList, none⟩
    ∧ "/tmp/s3-root-dir/input/x:renamed.txt".toList.drop "/tmp/s3-root-dir/input/".toList.length
      = "x:renamed.txt".toList := by
  decide

/-- The arguments of the bucket-fetch container `s3-fetch`, the last init
container of a returned pod of a spec with `s3BucketInput` set: for each rewritten
input under `/tmp/s3-root-dir/input/`, in order, `-i` and the SourcePath of
`SplitPathToSourcePathAndTargetName` applied to the entry without that prefix;
then for each rewritten data entry under `/tmp/s3-root-dir/data/`, in order, `-d`
and the SourcePath likewise. Entries outside the two roots add nothing. An input
given as `foo\:bar.txt` yields `-i foo:bar.txt`. -/
theorem bucket_fetch_args_of_ok :
    (∀ (w : World) (cr : Workflow) (pod : Pod) (s3 : S3BucketInfo),
      newPodForCR w cr = .ok pod → cr.Spec.S3BucketInput = some s3 →
      ∃ c, pod.Spec.InitContainers.getLast? = some c ∧ c.Name = "s3-fetch".toList
        ∧ c.Args
          = (((rewrite_absolute_paths cr.Spec.Inputs "/tmp/s3-root-dir/input".toList).filter
                fun v => HasPrefix v "/tmp/s3-root-dir/input/".toList).flatMap
              fun v => ["-i".toList,
                (SplitPathToSourcePathAndTargetName
                  (v.drop "/tmp/s3-root-dir/input/".toList.length)).SourcePath])
            ++ (((rewrite_absolute_paths cr.Spec.Data "/tmp/s3-root-dir/data".toList).filter
                fun v => HasPrefix v "/tmp/s3-root-dir/data/".toList).flatMap
              fun v => ["-d".toList,
                (SplitPathToSourcePathAndTargetName
                  (v.drop "/tmp/s3-root-dir/data/".toList.length)).SourcePath]))
    ∧ (initContainersOf (newPodForCR bareWorld
          { Spec := { Package := some { FromPath := "/pkg".toList },
                      S3BucketInput := some {},
                      Inputs := ["foo\\:bar.txt".toList] } })).map (fun c => (c.Name, c.Args))
        = [("s3-fetch".toList, ["-i".toList, "foo:bar.txt".toList])] := by
  constructor
  · intro w cr pod s3 h hs
    obtain ⟨ps, git, gsr, h1, -, hinit⟩ := init_of_ok w cr pod h
    rw [hs] at hinit
    obtain ⟨-, f2, -, f4, -⟩ := effectiveSpec_fields w cr ps
    obtain ⟨i1, i2, -⟩ := inputdirOf_eq cr.Spec
    rw [hs] at i1 i2
    refine ⟨_, by rw [hinit, List.getLast?_append]; rfl, rfl, ?_⟩
    show s3FetchCommandFor (effectiveSpec w cr ps) = _
    rw [s3FetchCommandFor_eq, f2, f4, i1, i2]
    rfl
  · decide

theorem bucket_fetch_args_example :
    ∃ pod, newPodForCR bareWorld
        { Spec := { Package := some { URL := "git@github.com:org/repo.git".toList },
                    S3BucketInput := some {},
                    Inputs := ["a.txt".toList, "/abs/b.txt".toList,
                               "dir/c.txt:renamed.txt".toList],
                    Data := ["d.dat".toList] } } = .ok pod
      ∧ ∃ c, pod.Spec.InitContainers.getLast? = some c
        ∧ c.Args = ["-i".toList, "a.txt".toList, "-i".toList, "dir/c.txt".toList,
                    "-d".toList, "d.dat".toList] := by
  refine ⟨_, rfl, ?_⟩
  obtain ⟨c, h1, -, h3⟩ := bucket_fetch_args_of_ok.1 bareWorld
    { Spec := { Package := some { URL := "git@github.com:org/repo.git".toList },
                S3BucketInput := some {},
                Inputs := ["a.txt".toList, "/abs/b.txt".toList,
                           "dir/c.txt:renamed.txt".toList],
                Data := ["d.dat".toList] } } _ {} rfl rfl
  refine ⟨c, h1, ?_⟩
  rw [h3]
  decide

/-- C22: `rewrite_absolute_paths(paths, root)` keeps length and order; an entry
that does not start with `/` becomes `root + "/" + entry`, the raw string being
kept, and an entry that starts with `/` is unchanged. In the primary command of a
returned pod the inputs, variables and data appear rewritten with the root
`/tmp/inputdir` when no `s3BucketInput` is set, and with `/tmp/s3-root-dir/input`
for the inputs, `/tmp/s3-root-dir/data` for the data and still `/tmp/inputdir` for
the variables when it is set. -/
theorem C22_rewrite_absolute_paths :
    (∀ (paths : List (List Char)) (root : List Char),
      (rewrite_absolute_paths paths root).length = paths.length
      ∧ ∀ (i : Nat) (v : List Char), paths[i]? = some v →
          (rewrite_absolute_paths paths root)[i]?
            = some (if HasPrefix v "/".toList = true then v else root ++ "/".toList ++ v))
    ∧ (∀ (w : World) (cr : Workflow) (pod : Pod), newPodForCR w cr = .ok pod →
        ∃ c back, pod.Spec.Containers.head? = some c
          ∧ c.Command
            = (if cr.Spec.Debug = true then ["echo".toList] else [])
              ++ [if cr.Spec.Command ≠ [] then cr.Spec.Command else "elaunch.py".toList]
              ++ ((rewrite_absolute_paths cr.Spec.Inputs
                    (if cr.Spec.S3BucketInput.isSome = true then "/tmp/s3-root-dir/input".toList
                     else "/tmp/inputdir".toList)).flatMap fun x => ["-i".toList, x])
              ++ ((rewrite_absolute_paths cr.Spec.Variables "/tmp/inputdir".toList).flatMap
                    fun x => ["-a".toList, x])
              ++ ((rewrite_absolute_paths cr.Spec.Data
                    (if cr.Spec.S3BucketInput.isSome = true then "/tmp/s3-root-dir/data".toList
                     else "/tmp/inputdir".toList)).flatMap fun x => ["-d".toList, x])
              ++ back) := by
  constructor
  · intro paths root
    refine ⟨by unfold rewrite_absolute_paths; rw [List.length_map], ?_⟩
    intro i v hv
    rw [rewrite_absolute_paths_getElem?, hv]
    rfl
  · intro w cr pod h
    obtain ⟨ps, pkg, c, -, -, h3, h4, -⟩ := primary_of_ok w cr pod h
    obtain ⟨f1, f2, f3, f4, f5, -⟩ := effectiveSpec_fields w cr ps
    obtain ⟨i1, i2, i3⟩ := inputdirOf_eq cr.Spec
    refine ⟨c, cr.Spec.AdditionalOptions ++ manifestArgs pkg (variantPath ps cr.Spec pkg)
        ++ [packagePath pkg (variantPath ps cr.Spec pkg)], h3, ?_⟩
    rw [h4, commandHead_eq, f1, f2, f3, f4, f5, i1, i2, i3]
    simp only [List.append_assoc]

theorem C22_rewrite_absolute_paths_witness :
    (rewrite_absolute_paths ["a.txt:b.txt".toList, "/abs/c".toList, "d\\:e".toList]
        "/tmp/inputdir".toList)[0]? = some "/tmp/inputdir/a.txt:b.txt".toList
    ∧ (rewrite_absolute_paths ["a.txt:b.txt".toList, "/abs/c".toList, "d\\:e".toList]
        "/tmp/inputdir".toList)[1]? = some "/abs/c".toList
    ∧ (rewrite_absolute_paths ["a.txt:b.txt".toList, "/abs/c".toList, "d\\:e".toList]
        "/tmp/inputdir".toList)[2]? = some "/tmp/inputdir/d\\:e".toList
    ∧ ∃ pod, newPodForCR bareWorld
          { Spec := { Package := some { URL := "git@github.com:org/repo.git".toList },
                      S3BucketInput := some {},
                      Inputs := ["a.txt".toList],
                      Variables := ["v.conf".toList],
                      Data := ["/abs/d.dat".toList] } } = .ok pod
        ∧ ∃ c back, pod.Spec.Containers.head? = some c
          ∧ c.Command
              = ["elaunch.py".toList, "-i".toList, "/tmp/s3-root-dir/input/a.txt".toList,
                 "-a".toList, "/tmp/inputdir/v.conf".toList, "-d".toList,
                 "/abs/d.dat".toList] ++ back := by
  refine ⟨(C22_rewrite_absolute_paths.1 _ "/tmp/inputdir".toList).2 0 "a.txt:b.txt".toList rfl,
    (C22_rewrite_absolute_paths.1 _ "/tmp/inputdir".toList).2 1 "/abs/c".toList rfl,
    (C22_rewrite_absolute_paths.1 _ "/tmp/inputdir".toList).2 2 "d\\:e".toList rfl, _, rfl, ?_⟩
  obtain ⟨c, back, h1, h2⟩ := C22_rewrite_absolute_paths.2 bareWorld
    { Spec := { Package := some { URL := "git@github.com:org/repo.git".toList },
                S3BucketInput := some {},
                Inputs := ["a.txt".toList],
                Variables := ["v.conf".toList],
                Data := ["/abs/d.dat".toList] } } _ rfl
  exact ⟨c, back, h1, h2.trans rfl⟩

/-- C23: the deprecated-field migration with the path rewriting, as a function on
the spec, is idempotent: applied to its own output it changes nothing. After the
first pass `inputDataVolume` is cleared when it was present and named, its volume
and mount having been appended once; a second pass appends nothing to `volumes`
or `volumeMounts` and leaves `inputs`, `variables` and `data` as they are. -/
theorem C23_migration_idempotent (spec : WorkflowSpec) :
    migrateSpec (migrateSpec spec) = migrateSpec spec
    ∧ (∀ vol, spec.InputDataVolume = some vol → vol.Name ≠ [] →
        (migrateSpec spec).InputDataVolume = none
        ∧ (migrateSpec spec).Volumes = spec.Volumes ++ [vol]
        ∧ (migrateSpec spec).VolumeMounts
            = spec.VolumeMounts ++ [{ Name := vol.Name, MountPath := "/tmp/inputdir".toList }])
    ∧ (migrateSpec (migrateSpec spec)).Volumes = (migrateSpec spec).Volumes
    ∧ (migrateSpec (migrateSpec spec)).VolumeMounts = (migrateSpec spec).VolumeMounts
    ∧ (migrateSpec (migrateSpec spec)).Inputs = (migrateSpec spec).Inputs
    ∧ (migrateSpec (migrateSpec spec)).Variables = (migrateSpec spec).Variables
    ∧ (migrateSpec (migrateSpec spec)).Data = (migrateSpec spec).Data := by
  have h := migrateSpec_idem spec
  refine ⟨h, ?_, by rw [h], by rw [h], by rw [h], by rw [h], by rw [h]⟩
  intro vol hv hn
  have hl : vol.Name.length > 0 := List.length_pos.2 hn
  unfold migrateSpec rewritePaths migrateInputDataVolume
  simp only [hv, hl, if_true]
  exact ⟨trivial, trivial, rfl⟩

theorem C23_migration_idempotent_witness :
    (migrateSpec { InputDataVolume := some { Name := "legacy".toList },
                   Inputs := ["a.txt".toList] }).InputDataVolume = none
    ∧ (migrateSpec { InputDataVolume := some { Name := "legacy".toList },
                     Inputs := ["a.txt".toList] }).Volumes = [{ Name := "legacy".toList }]
    ∧ (migrateSpec { InputDataVolume := some { Name := "legacy".toList },
                     Inputs := ["a.txt".toList] }).VolumeMounts
        = [{ Name := "legacy".toList, MountPath := "/tmp/inputdir".toList }] :=
  (C23_migration_idempotent
    { InputDataVolume := some { Name := "legacy".toList }, Inputs := ["a.txt".toList] }).2.1
    { Name := "legacy".toList } rfl (by decide)

/-! ## Claims on the defaults -/

/-- C24: when the ConfigMap is retrieved, holds `config.json` and that document
decodes, `getDefaultValues` returns for each of the four image fields the value
of the document if it is non-empty and the value of the environment otherwise,
and `GitSecret`, `GitSecretOAuth`, `WorkingVolume` and `ImagePullSecrets` are the
values of the document, empty ones included. -/
theorem C24_defaults_from_document (w : World) (ns name : List Char)
    (data : List Char → Option (List Char)) (doc : List Char)
    (config : ConsumableComputingConfig)
    (h1 : w.getConfigMap ns name = some data) (h2 : data "config.json".toList = some doc)
    (h3 : w.jsonUnmarshal doc = (config, true)) :
    getDefaultValues w ns name
      = { FlowImage := if config.Image ≠ [] then config.Image else Getenv w "FLOW_IMAGE".toList
          GitSyncImage :=
            if config.GitSyncImage ≠ [] then config.GitSyncImage
            else Getenv w "GIT_SYNC_IMAGE".toList
          S3FetchFilesImage :=
            if config.S3FetchFilesImage ≠ [] then config.S3FetchFilesImage
            else Getenv w "S3_FETCH_FILES_IMAGE".toList
          WorkflowMonitoringImage :=
            if config.WorkflowMonitoringImage ≠ [] then config.WorkflowMonitoringImage
            else Getenv w "WORKFLOW_MONITORING_IMAGE".toList
          GitSecret := config.GitSecret
          GitSecretOAuth := config.GitSecretOAuth
          WorkingVolume := config.WorkingVolume
          ImagePullSecrets := config.ImagePullSecrets } := by
  have hc : (w.jsonUnmarshal doc).1 = config := by rw [h3]
  rw [getDefaultValues_of_document w ns name data doc h1 h2, hc]

theorem C24_defaults_from_document_witness :
    getDefaultValues
        (documentWorld { Image := "doc-flow".toList, GitSecret := "doc-secret".toList } true)
        "ns".toList "st4sd-runtime-service".toList
      = { FlowImage := "doc-flow".toList
          GitSyncImage := "env-git-sync".toList
          S3FetchFilesImage := "env-s3-fetch".toList
          WorkflowMonitoringImage := "env-monitor".toList
          GitSecret := "doc-secret".toList
          GitSecretOAuth := []
          WorkingVolume := []
          ImagePullSecrets := [] } :=
  C24_defaults_from_document
    (documentWorld { Image := "doc-flow".toList, GitSecret := "doc-secret".toList } true)
    "ns".toList "st4sd-runtime-service".toList
    (fun k => if k = "config.json".toList then some "document".toList else none)
    "document".toList { Image := "doc-flow".toList, GitSecret := "doc-secret".toList }
    rfl rfl rfl

/-- C25, the code at a failing input: the ConfigMap is retrieved and holds
`config.json`, and `json.Unmarshal` returns an error after having decoded the
fields `image` and `workingVolume` (a later field of the document has the wrong
type). `getDefaultValues` logs the error and goes on (lines 322-347): the
launcher image and the working volume are those of the document, not the
environment-only defaults. -/
theorem C25_unmarshal_error_keeps_decoded_fields :
    getDefaultValues
        (documentWorld { Image := "doc-flow".toList, WorkingVolume := "doc-pvc".toList } false)
        "ns".toList "st4sd-runtime-service".toList
      = { FlowImage := "doc-flow".toList
          GitSyncImage := "env-git-sync".toList
          S3FetchFilesImage := "env-s3-fetch".toList
          WorkflowMonitoringImage := "env-monitor".toList
          GitSecret := []
          GitSecretOAuth := []
          WorkingVolume := "doc-pvc".toList
          ImagePullSecrets := [] }
    ∧ Getenv
        (documentWorld { Image := "doc-flow".toList, WorkingVolume := "doc-pvc".toList } false)
        "FLOW_IMAGE".toList = "env-flow".toList := by
  decide

/-- Without the ConfigMap, or without `config.json` in it, the defaults are those
of the environment alone, and after a decoding error that left the target
untouched as well. -/
theorem defaults_from_environment (w : World) (ns name : List Char)
    (h : w.getConfigMap ns name = none
      ∨ (∃ data, w.getConfigMap ns name = some data ∧ data "config.json".toList = none)
      ∨ ∃ data doc, w.getConfigMap ns name = some data ∧ data "config.json".toList = some doc
          ∧ (w.jsonUnmarshal doc).1 = {}) :
    getDefaultValues w ns name
      = { FlowImage := Getenv w "FLOW_IMAGE".toList
          GitSyncImage := Getenv w "GIT_SYNC_IMAGE".toList
          S3FetchFilesImage := Getenv w "S3_FETCH_FILES_IMAGE".toList
          WorkflowMonitoringImage := Getenv w "WORKFLOW_MONITORING_IMAGE".toList
          GitSecret := []
          GitSecretOAuth := []
          WorkingVolume := []
          ImagePullSecrets := [] } := by
  rcases h with h | h | ⟨data, doc, h1, h2, h3⟩
  · exact getDefaultValues_without_document w ns name (Or.inl h)
  · exact getDefaultValues_without_document w ns name (Or.inr h)
  · rw [getDefaultValues_of_document w ns name data doc h1 h2, h3]
    rfl

/-! ## Claims on resources, volumes, defaults in the pod and the debug flag -/

/-- C26: in a returned pod every container has Requests equal to Limits. The
primary launcher `elaunch-primary` has cpu `1000m` and memory `500Mi`, the monitor
`monitor-elaunch-container` and every init container (package fetch, bucket fetch)
have cpu `100m` and memory `200Mi`, each value being replaced by the override of
the role when that override is given and non-empty: an override with only the cpu
leaves the memory at its default, and the other way round. -/
theorem C26_resources (w : World) (cr : Workflow) (pod : Pod)
    (h : newPodForCR w cr = .ok pod) :
    ∃ c m, pod.Spec.Containers = [c, m] ∧ c.Name = "elaunch-primary".toList
      ∧ m.Name = "monitor-elaunch-container".toList
      ∧ (∀ x ∈ pod.Spec.InitContainers ++ pod.Spec.Containers,
          x.Resources.Requests = x.Resources.Limits)
      ∧ c.Resources.Limits
          = (match cr.Spec.Resources.bind fun r => r.ElaunchPrimary with
             | none => { cpu := ⟨"1000m".toList⟩, memory := ⟨"500Mi".toList⟩ }
             | some o =>
               { cpu := ⟨if o.Cpu ≠ [] then o.Cpu else "1000m".toList⟩
                 memory := ⟨if o.Memory ≠ [] then o.Memory else "500Mi".toList⟩ })
      ∧ m.Resources.Limits
          = (match cr.Spec.Resources.bind fun r => r.Monitor with
             | none => { cpu := ⟨"100m".toList⟩, memory := ⟨"200Mi".toList⟩ }
             | some o =>
               { cpu := ⟨if o.Cpu ≠ [] then o.Cpu else "100m".toList⟩
                 memory := ⟨if o.Memory ≠ [] then o.Memory else "200Mi".toList⟩ })
      ∧ ∀ x ∈ pod.Spec.InitContainers,
          x.Resources.Limits
            = (match cr.Spec.Resources.bind fun r => r.GitFetch with
               | none => { cpu := ⟨"100m".toList⟩, memory := ⟨"200Mi".toList⟩ }
               | some o =>
                 { cpu := ⟨if o.Cpu ≠ [] then o.Cpu else "100m".toList⟩
                   memory := ⟨if o.Memory ≠ [] then o.Memory else "200Mi".toList⟩ }) := by
  obtain ⟨ps, cmd, -, -, hc⟩ := containers_of_ok w cr pod h
  have hp : ∀ spec env vm er command,
      (primarycontainerOf spec env vm er command).Name = "elaunch-primary".toList
      ∧ (primarycontainerOf spec env vm er command).Resources
          = { Limits := er, Requests := er } := by
    intro spec env vm er command
    unfold primarycontainerOf
    split_ifs <;> exact ⟨rfl, rfl⟩
  refine ⟨_, _, hc, (hp _ _ _ _ _).1, rfl, ?_, ?_, rfl, ?_⟩
  · intro x hx
    rw [List.mem_append] at hx
    rcases hx with hx | hx
    · rw [init_resources_of_ok w cr pod h x hx]
    · rw [hc] at hx
      simp only [List.mem_cons, List.mem_singleton, List.not_mem_nil, or_false] at hx
      rcases hx with hx | hx
      · rw [hx, (hp _ _ _ _ _).2]
      · rw [hx]
        rfl
  · rw [(hp _ _ _ _ _).2]
    rfl
  · intro x hx
    rw [init_resources_of_ok w cr pod h x hx]
    rfl

theorem C26_resources_witness :
    ∃ pod, newPodForCR exampleWorld
        { Spec := { Package := some { URL := "git@github.com:org/repo.git".toList },
                    Resources := some { ElaunchPrimary := some { Cpu := "2".toList } } } }
        = .ok pod
      ∧ ∃ c m, pod.Spec.Containers = [c, m]
        ∧ c.Resources
            = { Limits := { cpu := ⟨"2".toList⟩, memory := ⟨"500Mi".toList⟩ }
                Requests := { cpu := ⟨"2".toList⟩, memory := ⟨"500Mi".toList⟩ } }
        ∧ m.Resources
            = { Limits := { cpu := ⟨"100m".toList⟩, memory := ⟨"200Mi".toList⟩ }
                Requests := { cpu := ⟨"100m".toList⟩, memory := ⟨"200Mi".toList⟩ } } := by
  refine ⟨_, rfl, ?_⟩
  obtain ⟨c, m, h1, -, -, h4, h5, h6, -⟩ := C26_resources exampleWorld
    { Spec := { Package := some { URL := "git@github.com:org/repo.git".toList },
                Resources := some { ElaunchPrimary := some { Cpu := "2".toList } } } } _ rfl
  have hc := h4 c (by rw [h1]; simp)
  have hm := h4 m (by rw [h1]; simp)
  refine ⟨c, m, h1, ?_, ?_⟩
  · have e : c.Resources = { Limits := c.Resources.Limits, Requests := c.Resources.Requests } :=
      rfl
    rw [e, hc, h5]
    decide
  · have e : m.Resources = { Limits := m.Resources.Limits, Requests := m.Resources.Requests } :=
      rfl
    rw [e, hm, h6]
    decide

/-- C27: the volumes of a returned pod are those of the spec, then the deprecated
`inputDataVolume` if it was present and named, then in this order:
`config-volume` (ConfigMap `<name>-config`), the working volume,
`git-secrets-package` exactly when the package has a non-empty effective secret,
`git-sync-config`, a ConfigMap volume named `package.fromConfigMap` exactly for the
configMap variant, the emptyDir `git-sync-package` and the emptyDir
`tmp-volume-name`; nothing stands before or between them, and the only volume that
may follow is the emptyDir `s3-fetch`, present exactly when `s3BucketInput` is
set. -/
theorem C27_volumes (w : World) (cr : Workflow) (pod : Pod)
    (h : newPodForCR w cr = .ok pod) :
    ∃ ps pkg, resolvePackageSource cr.Spec = .ok ps ∧ cr.Spec.Package = some pkg
      ∧ pod.Spec.Volumes
        = cr.Spec.Volumes
          ++ (match cr.Spec.InputDataVolume with
              | some vol => if vol.Name ≠ [] then [vol] else []
              | none => [])
          ++ [{ Name := "config-volume".toList
                VolumeSource := { ConfigMap := some { Name := cr.Name ++ "-config".toList } } },
              withDefaultWorkingVolume (optionsOf w cr) cr.Spec]
          ++ (if (withDefaultSecret (optionsOf w cr) ps pkg).Gitsecret ≠ [] then
                [{ Name := "git-secrets-package".toList
                   VolumeSource :=
                     { Secret :=
                         some { SecretName := (withDefaultSecret (optionsOf w cr) ps pkg).Gitsecret
                                DefaultMode := some 288 } } }]
              else [])
          ++ [{ Name := "git-sync-config".toList
                VolumeSource := { ConfigMap := some { Name := "git-sync-config".toList } } }]
          ++ (if ps = WorkflowSourcePackageConfigMap then
                [{ Name := pkg.FromConfigMap
                   VolumeSource := { ConfigMap := some { Name := pkg.FromConfigMap } } }]
              else [])
          ++ [{ Name := "git-sync-package".toList, VolumeSource := { EmptyDir := some {} } },
              { Name := "tmp-volume-name".toList, VolumeSource := { EmptyDir := some {} } }]
          ++ (if cr.Spec.S3BucketInput.isSome = true then
                [{ Name := "s3-fetch".toList, VolumeSource := { EmptyDir := some {} } }]
              else []) := by
  obtain ⟨ps, h1, hv⟩ := volumes_of_ok w cr pod h
  obtain ⟨ps2, pkg, c, -, h2, -⟩ := primary_of_ok w cr pod h
  have hl : legacyVolume cr.Spec
      = (match cr.Spec.InputDataVolume with
         | some vol => if vol.Name ≠ [] then [vol] else []
         | none => []) := by
    unfold legacyVolume
    rcases cr.Spec.InputDataVolume with _ | vol
    · rfl
    · by_cases hn : vol.Name = []
      · simp [hn]
      · simp [hn, List.length_pos]
  refine ⟨ps, pkg, h1, h2, ?_⟩
  rw [hv, hl, h2, Option.map_some']
  unfold appendedVolumes
  simp only [(withDefaultSecret_fields _ _ _).2.2.2.2.1, List.append_assoc]

theorem C27_volumes_witness :
    ∃ pod, newPodForCR bareWorld
        { Name := "wf".toList,
          Spec := { Package := some { FromConfigMap := "pkg-cm".toList },
                    Volumes := [{ Name := "user".toList }],
                    WorkingVolume := { Name := "work".toList },
                    InputDataVolume := some { Name := "legacy".toList } } } = .ok pod
      ∧ pod.Spec.Volumes.map (fun v => v.Name)
          = ["user".toList, "legacy".toList, "config-volume".toList, "work".toList,
             "git-sync-config".toList, "pkg-cm".toList, "git-sync-package".toList,
             "tmp-volume-name".toList] := by
  refine ⟨_, rfl, ?_⟩
  obtain ⟨ps, pkg, h1, h2, h3⟩ := C27_volumes bareWorld
    { Name := "wf".toList,
      Spec := { Package := some { FromConfigMap := "pkg-cm".toList },
                Volumes := [{ Name := "user".toList }],
                WorkingVolume := { Name := "work".toList },
                InputDataVolume := some { Name := "legacy".toList } } } _ rfl
  have hps : ps = WorkflowSourcePackageConfigMap :=
    Outcome.ok.inj (h1.symm.trans (show resolvePackageSource _ = .ok _ from rfl))
  have hpk := (Option.some.inj h2).symm
  subst hps hpk
  rw [h3]
  decide

/-- C29: in a returned pod a blank field of the spec is filled from the defaults
and a non-blank one is kept. The image of the primary container is `spec.image`
if non-empty and the default launcher image otherwise. The effective
`package.gitsecret` is the one of the spec if non-empty, else the default plain
secret for the ssh variant, the default OAuth secret for the https variant and
empty for the other variants; when it is non-empty it is the secret of the volume
`git-secrets-package`. The image pull secrets are those of the spec when
non-empty and the default ones otherwise. The working volume is that of the spec
when it has a name, else, when a default claim name exists, the volume
`working-volume` backed by the PersistentVolumeClaim of that name; it is mounted
at `/tmp/workdir` in the primary container. -/
theorem C29_defaults_fill_blanks (w : World) (cr : Workflow) (pod : Pod)
    (h : newPodForCR w cr = .ok pod) :
    ∃ ps pkg c m secret workingVolume,
      resolvePackageSource cr.Spec = .ok ps ∧ cr.Spec.Package = some pkg
      ∧ pod.Spec.Containers = [c, m]
      ∧ c.Image = (if cr.Spec.Image ≠ [] then cr.Spec.Image else (optionsOf w cr).FlowImage)
      ∧ secret
          = (if pkg.Gitsecret ≠ [] then pkg.Gitsecret
             else if ps = WorkflowSourcePackageSSH then (optionsOf w cr).GitSecret
             else if ps = WorkflowSourcePackageHTTPS then (optionsOf w cr).GitSecretOAuth
             else [])
      ∧ (effectiveSpec w cr ps).Package = some { pkg with Gitsecret := secret }
      ∧ (secret ≠ [] →
          ({ Name := "git-secrets-package".toList
             VolumeSource := { Secret := some { SecretName := secret, DefaultMode := some 288 } } }
            : Volume) ∈ pod.Spec.Volumes)
      ∧ pod.Spec.ImagePullSecrets
          = (if cr.Spec.ImagePullSecrets ≠ [] then cr.Spec.ImagePullSecrets
             else (optionsOf w cr).ImagePullSecrets)
      ∧ workingVolume
          = (if cr.Spec.WorkingVolume.Name ≠ [] then cr.Spec.WorkingVolume
             else if (optionsOf w cr).WorkingVolume ≠ [] then
               { Name := "working-volume".toList
                 VolumeSource :=
                   { PersistentVolumeClaim :=
                       some { ClaimName := (optionsOf w cr).WorkingVolume, ReadOnly := false } } }
             else cr.Spec.WorkingVolume)
      ∧ workingVolume ∈ pod.Spec.Volumes
      ∧ ({ Name := workingVolume.Name, MountPath := "/tmp/workdir".toList } : VolumeMount)
          ∈ c.VolumeMounts := by
  obtain ⟨ps, h1, hv⟩ := volumes_of_ok w cr pod h
  obtain ⟨ps2, pkg, c0, -, h2, -⟩ := primary_of_ok w cr pod h
  obtain ⟨ps3, cmd, h1c, -, hc⟩ := containers_of_ok w cr pod h
  have hps : ps3 = ps := Outcome.ok.inj (h1c.symm.trans h1)
  subst hps
  obtain ⟨d1, d2, d3, -, -, -, -⟩ := effectiveSpec_defaults w cr ps3
  have hsec : withDefaultSecret (optionsOf w cr) ps3 pkg
      = { pkg with
          Gitsecret :=
            if pkg.Gitsecret ≠ [] then pkg.Gitsecret
            else if ps3 = WorkflowSourcePackageSSH then (optionsOf w cr).GitSecret
            else if ps3 = WorkflowSourcePackageHTTPS then (optionsOf w cr).GitSecretOAuth
            else [] } := by
    unfold withDefaultSecret
    by_cases a : pkg.Gitsecret = []
    · by_cases b : ps3 = WorkflowSourcePackageSSH
      · simp [a, b]
      · by_cases c : ps3 = WorkflowSourcePackageHTTPS
        · have n : WorkflowSourcePackageHTTPS ≠ WorkflowSourcePackageSSH := by decide
          subst c
          simp [a, n]
        · simp only [a, b, c, if_true, if_false, ne_eq, not_true_eq_false]
          rw [← a]
    · simp [a]
  have hwv : withDefaultWorkingVolume (optionsOf w cr) cr.Spec
      = (if cr.Spec.WorkingVolume.Name ≠ [] then cr.Spec.WorkingVolume
         else if (optionsOf w cr).WorkingVolume ≠ [] then
           { Name := "working-volume".toList
             VolumeSource :=
               { PersistentVolumeClaim :=
                   some { ClaimName := (optionsOf w cr).WorkingVolume, ReadOnly := false } } }
         else cr.Spec.WorkingVolume) := by
    unfold withDefaultWorkingVolume
    by_cases a : cr.Spec.WorkingVolume.Name = []
    · by_cases b : (optionsOf w cr).WorkingVolume = []
      · simp [a, b]
      · simp [a, b]
    · simp [a]
  have hvm : ∀ spec env vm er command,
      (primarycontainerOf spec env vm er command).Image = spec.Image
      ∧ (primarycontainerOf spec env vm er command).VolumeMounts = vm := by
    intro spec env vm er command
    unfold primarycontainerOf
    split_ifs <;> exact ⟨rfl, rfl⟩
  refine ⟨ps3, pkg, _, _, _, _, h1, h2, hc, ?_, rfl, ?_, ?_, ?_, rfl, ?_, ?_⟩
  · rw [(hvm _ _ _ _ _).1, d1]
    by_cases a : cr.Spec.Image = []
    · simp [a]
    · simp [a]
  · rw [effectiveSpec_package, h2, Option.map_some', hsec]
  · intro hne
    have hg : (withDefaultSecret (optionsOf w cr) ps3 pkg).Gitsecret
        = (if pkg.Gitsecret ≠ [] then pkg.Gitsecret
           else if ps3 = WorkflowSourcePackageSSH then (optionsOf w cr).GitSecret
           else if ps3 = WorkflowSourcePackageHTTPS then (optionsOf w cr).GitSecretOAuth
           else []) := by rw [hsec]
    rw [hv, h2, Option.map_some', ← hg]
    exact List.mem_append_right _
      (secret_mem_appendedVolumes _ _ _ _ _ (by rw [hg]; exact hne))
  · have hi : pod.Spec.ImagePullSecrets = (effectiveSpec w cr ps3).ImagePullSecrets := by
      obtain ⟨ps4, vols, git, gsr, wmr, cmd4, er, h14, -, -, -, -, -, -, hpod⟩ :=
        newPodForCR_ok_inv w cr pod h
      have hps : ps4 = ps3 := Outcome.ok.inj (h14.symm.trans h1)
      subst hps
      rw [hpod]
      rfl
    rw [hi, d2]
    by_cases a : cr.Spec.ImagePullSecrets = []
    · simp [a]
    · simp [a]
  · rw [hv, ← hwv]
    unfold appendedVolumes
    simp
  · rw [(hvm _ _ _ _ _).2, ← hwv, ← d3]
    unfold primaryVolumeMounts
    simp [workdir]

theorem C29_defaults_fill_blanks_witness :
    ∃ pod, newPodForCR
        (documentWorld { GitSecret := "doc-ssh-secret".toList,
                         WorkingVolume := "doc-pvc".toList,
                         ImagePullSecrets := ["doc-pull".toList] } true)
        { Spec := { Package := some { URL := "git@github.com:org/repo.git".toList },
                    Image := "my-image".toList } } = .ok pod
      ∧ ∃ c m, pod.Spec.Containers = [c, m] ∧ c.Image = "my-image".toList
        ∧ pod.Spec.ImagePullSecrets = ["doc-pull".toList]
        ∧ ({ Name := "git-secrets-package".toList
             VolumeSource :=
               { Secret := some { SecretName := "doc-ssh-secret".toList
                                  DefaultMode := some 288 } } } : Volume) ∈ pod.Spec.Volumes
        ∧ ({ Name := "working-volume".toList
             VolumeSource :=
               { PersistentVolumeClaim :=
                   some { ClaimName := "doc-pvc".toList, ReadOnly := false } } } : Volume)
            ∈ pod.Spec.Volumes := by
  refine ⟨_, rfl, ?_⟩
  obtain ⟨ps, pkg, c, m, secret, wv, h1, h2, h3, h4, h5, -, h7, h8, h9, h10, -⟩ :=
    C29_defaults_fill_blanks
      (documentWorld { GitSecret := "doc-ssh-secret".toList,
                       WorkingVolume := "doc-pvc".toList,
                       ImagePullSecrets := ["doc-pull".toList] } true)
      { Spec := { Package := some { URL := "git@github.com:org/repo.git".toList },
                  Image := "my-image".toList } } _ rfl
  have hps : ps = WorkflowSourcePackageSSH :=
    Outcome.ok.inj (h1.symm.trans (show resolvePackageSource _ = .ok _ from rfl))
  have hpk := (Option.some.inj h2).symm
  subst hps hpk
  have hs : secret = "doc-ssh-secret".toList := h5.trans (by decide)
  have hw : wv = { Name := "working-volume".toList
                   VolumeSource :=
                     { PersistentVolumeClaim :=
                         some { ClaimName := "doc-pvc".toList, ReadOnly := false } } } :=
    h9.trans (by decide)
  subst hs hw
  exact ⟨c, m, h3, h4.trans (by decide), h8.trans (by decide), h7 (by decide), h10⟩

/-- C30: for two workflows that differ only in the debug flag, when
`newPodForCR` returns a pod with the flag unset it returns a pod with the flag
set, whose primary container has the command of the former with `echo` put in
front; everything else in the two pods is the same. -/
theorem C30_debug_prepends_echo (w : World) (cr : Workflow) (pod : Pod)
    (h : newPodForCR w (withDebug cr false) = .ok pod) :
    ∃ c m, pod.Spec.Containers = [c, m]
      ∧ newPodForCR w (withDebug cr true)
          = .ok { pod with
                  Spec :=
                    { pod.Spec with
                      Containers := [{ c with Command := "echo".toList :: c.Command }, m] } } := by
  obtain ⟨ps, cmd, -, -, hc⟩ := containers_of_ok w (withDebug cr false) pod h
  refine ⟨_, _, hc, ?_⟩
  rw [newPodForCR_withDebug w cr pod h]
  unfold echoed
  rw [hc]

theorem C30_debug_prepends_echo_witness :
    ∃ pod c m, newPodForCR bareWorld
        (withDebug
          { Spec := { Package := some { URL := "git@github.com:org/repo.git".toList } } } false)
        = .ok pod
      ∧ pod.Spec.Containers = [c, m]
      ∧ c.Command = ["elaunch.py".toList, "/mnt/package/repo.git".toList]
      ∧ newPodForCR bareWorld
          (withDebug
            { Spec := { Package := some { URL := "git@github.com:org/repo.git".toList } } } true)
          = .ok { pod with
                  Spec :=
                    { pod.Spec with
                      Containers :=
                        [{ c with
                           Command := ["echo".toList, "elaunch.py".toList,
                                       "/mnt/package/repo.git".toList] }, m] } } := by
  obtain ⟨c, m, h1, h2⟩ := C30_debug_prepends_echo bareWorld
    { Spec := { Package := some { URL := "git@github.com:org/repo.git".toList } } } _ rfl
  have hc : c.Command = ["elaunch.py".toList, "/mnt/package/repo.git".toList] := by
    have := congrArg (fun l => (l.head?.map fun x => x.Command)) h1
    simp only [List.head?_cons, Option.map_some'] at this
    exact (Option.some.inj this).symm.trans (by decide)
  refine ⟨_, c, m, rfl, h1, hc, ?_⟩
  rw [h2, hc]

/-- C28, refuted as stated: a package of the fromPath variant that names a secret
gets the volume `git-secrets-package`, but the only container that mounts it, the
package-fetch container, is not part of the pod of that variant: no container of
the returned pod has a mount of that name. -/
theorem C28_counterexample :
    (volumesOf (newPodForCR bareWorld
        { Spec := { Package := some { FromPath := "/pkg".toList, Gitsecret := "secret".toList },
                    WorkingVolume := { Name := "work".toList } } })).map (fun v => v.Name)
      = ["config-volume".toList, "work".toList, "git-secrets-package".toList,
         "git-sync-config".toList, "git-sync-package".toList, "tmp-volume-name".toList]
    ∧ mountNamesOf (newPodForCR bareWorld
        { Spec := { Package := some { FromPath := "/pkg".toList, Gitsecret := "secret".toList },
                    WorkingVolume := { Name := "work".toList } } })
      = ["config-volume".toList, "work".toList, "git-sync-package".toList,
         "tmp-volume-name".toList, "git-sync-config".toList, "work".toList,
         "tmp-volume-name".toList, "config-volume".toList, "git-sync-config".toList]
    ∧ initContainersOf (newPodForCR bareWorld
        { Spec := { Package := some { FromPath := "/pkg".toList, Gitsecret := "secret".toList },
                    WorkingVolume := { Name := "work".toList } } }) = [] := by
  decide

/-- C28, amended: in a returned pod every volume that `newPodForCR` appends to
those of the spec has a mount of the same name in a container of the pod (init
containers, primary container or monitor), the secret volume
`git-secrets-package` of the fromPath and the instance variant apart; for the
https, ssh and configMap variants this holds for the secret volume too. -/
theorem C28_appended_volumes_mounted (w : World) (cr : Workflow) (pod : Pod)
    (h : newPodForCR w cr = .ok pod) :
    ∃ ps, resolvePackageSource cr.Spec = .ok ps
      ∧ ∀ v ∈ pod.Spec.Volumes.drop cr.Spec.Volumes.length,
          (v.Name ≠ "git-secrets-package".toList ∨ ps = WorkflowSourcePackageHTTPS
            ∨ ps = WorkflowSourcePackageSSH ∨ ps = WorkflowSourcePackageConfigMap) →
          ∃ c ∈ pod.Spec.InitContainers ++ pod.Spec.Containers,
            ∃ m ∈ c.VolumeMounts, m.Name = v.Name :=
  appended_volume_mounted w cr pod h

theorem C28_appended_volumes_mounted_witness :
    ∃ pod, newPodForCR bareWorld
        { Spec := { Package := some { URL := "git@github.com:org/repo.git".toList,
                                      Gitsecret := "secret".toList },
                    Volumes := [{ Name := "user".toList }] } } = .ok pod
      ∧ ∃ c ∈ pod.Spec.InitContainers ++ pod.Spec.Containers,
          ∃ m ∈ c.VolumeMounts, m.Name = "git-secrets-package".toList := by
  refine ⟨_, rfl, ?_⟩
  obtain ⟨ps, h1, h2⟩ := C28_appended_volumes_mounted bareWorld
    { Spec := { Package := some { URL := "git@github.com:org/repo.git".toList,
                                  Gitsecret := "secret".toList },
                Volumes := [{ Name := "user".toList }] } } _ rfl
  have hps : ps = WorkflowSourcePackageSSH :=
    Outcome.ok.inj (h1.symm.trans (show resolvePackageSource _ = .ok _ from rfl))
  subst hps
  exact h2
    { Name := "git-secrets-package".toList
      VolumeSource := { Secret := some { SecretName := "secret".toList, DefaultMode := some 288 } } }
    (by decide) (Or.inr (Or.inr (Or.inl rfl)))

/-! ## Iteration order of the dataset keys -/

theorem assemblePod_withRangeOrder (w : World)
    (r : List (List Char × List Char) → List (List Char × List Char)) (cr : Workflow)
    (ps : List Char) (vols : List Volume) (gco oc : List (List Char)) (vm : List VolumeMount)
    (gsr wmr : ResourceList) (command : List (List Char)) (envVars : List EnvVar)
    (er : ResourceList)
    (h : ∀ s3, cr.Spec.S3BucketInput = some s3 → s3.Dataset = []) :
    assemblePod (withRangeOrder w r) cr ps (effectiveSpec w cr ps) vols gco oc vm gsr wmr command
        envVars er
      = assemblePod w cr ps (effectiveSpec w cr ps) vols gco oc vm gsr wmr command envVars er := by
  have hs3 := (effectiveSpec_fields w cr ps).2.2.2.2.2.2.2.1
  unfold assemblePod
  rw [hs3]
  rcases hs : cr.Spec.S3BucketInput with _ | s3
  · rfl
  · have e : ∀ user o,
        s3FetchFilesOf (withRangeOrder w r) user o (effectiveSpec w cr ps) s3 gsr
          = s3FetchFilesOf w user o (effectiveSpec w cr ps) s3 gsr := by
      intro user o
      unfold s3FetchFilesOf s3EnvVarsFor
      simp [h s3 hs]
    simp only [e]
    rfl

/-- The result of `newPodForCR` depends on the order in which `range` visits the
map `s3Keys` only through the bucket-fetch container of a spec that names a
dataset: without `s3BucketInput`, or with an empty dataset name, the result is the
same in every order. -/
theorem newPodForCR_withRangeOrder (w : World)
    (r : List (List Char × List Char) → List (List Char × List Char)) (cr : Workflow)
    (h : ∀ s3, cr.Spec.S3BucketInput = some s3 → s3.Dataset = []) :
    newPodForCR (withRangeOrder w r) cr = newPodForCR w cr := by
  rw [newPodForCR_eq_podSteps, newPodForCR_eq_podSteps]
  unfold podSteps
  have e1 : ∀ ps, effectiveSpec (withRangeOrder w r) cr ps = effectiveSpec w cr ps :=
    fun _ => rfl
  have e2 : ∀ ps S b vm, gitSyncSetup (withRangeOrder w r) ps S b vm = gitSyncSetup w ps S b vm :=
    fun _ _ _ _ => rfl
  have e3 : ∀ c m o, resourceList (withRangeOrder w r) c m o = resourceList w c m o :=
    fun _ _ _ => rfl
  simp only [e1, e2, e3, assemblePod_withRangeOrder w r cr _ _ _ _ _ _ _ _ _ _ h]

/-! ## The clone destination of the https variant -/

theorem gitSyncSetup_https_short_path (w : World) (spec : WorkflowSpec) (pkg : Gitrepo)
    (u : URL) (b : List Char) (vm : List VolumeMount) (hp : spec.Package = some pkg)
    (hu : w.urlParse pkg.URL = .ok u)
    (hs : u.Path = [] ∨ (splitSlash (u.Path.drop 1))[1]? = none) :
    gitSyncSetup w WorkflowSourcePackageHTTPS spec b vm = .panic := by
  have n : WorkflowSourcePackageHTTPS ≠ WorkflowSourcePackageSSH := by decide
  unfold gitSyncSetup
  rw [if_neg n, if_pos rfl]
  simp only [hp, hu]
  rcases hs with hs | hs
  · simp [hs]
  · simp only [hs]
    split_ifs <;> rfl

/-- A URL of the https variant that parses to a path with fewer than two segments
after its first character makes `newPodForCR` panic: `u.Path[1:]` on an empty
path, or element 1 of a one-element split (line 688). -/
theorem newPodForCR_https_short_path (w : World) (cr : Workflow) (pkg : Gitrepo) (u : URL)
    (hres : resolvePackageSource cr.Spec = .ok WorkflowSourcePackageHTTPS)
    (hp : cr.Spec.Package = some pkg) (hu : w.urlParse pkg.URL = .ok u)
    (hs : u.Path = [] ∨ (splitSlash (u.Path.drop 1))[1]? = none) :
    newPodForCR w cr = .panic := by
  have n : WorkflowSourcePackageHTTPS ≠ WorkflowSourcePackageConfigMap := by decide
  rw [newPodForCR_eq_podSteps]
  unfold podSteps
  rw [hres, Outcome.bind_ok]
  have hpk := effectiveSpec_package w cr WorkflowSourcePackageHTTPS
  rw [hp, Option.map_some'] at hpk
  have hurl := (withDefaultSecret_fields (optionsOf w cr) WorkflowSourcePackageHTTPS pkg).1
  obtain ⟨v, hv⟩ := podVolumes_ok WorkflowSourcePackageHTTPS cr.Name
    (effectiveSpec w cr WorkflowSourcePackageHTTPS) n
  have hg := gitSyncSetup_https_short_path w (effectiveSpec w cr WorkflowSourcePackageHTTPS) _ u
    (branchNameOf (effectiveSpec w cr WorkflowSourcePackageHTTPS))
    [{ Name := gitVolumeNamePackage, MountPath := "/tmp/git".toList }, volMountGitSyncConfig]
    hpk (by rw [hurl]; exact hu) hs
  simp only [hv, Outcome.bind_ok, hg, Outcome.bind_panic]

/-! ## Claims on determinism and on the https clone destination -/

/-- C31, the code at a failing input: a spec whose `s3BucketInput` names a dataset.
The environment of the bucket-fetch container is built by `range` over the map
`s3Keys` (lines 919-936), and Go fixes no iteration order for a map: two runs on
the same workflow, environment and stored configuration, one visiting the map as
it is written and one in the reverse order, return pods whose bucket-fetch
containers list the five variables in different orders. -/
theorem C31_range_order_changes_plan :
    initEnvNamesOf (newPodForCR bareWorld
        { Spec := { Package := some { FromPath := "/pkg".toList },
                    S3BucketInput := some { Dataset := "my-dataset".toList } } })
      = [["ROOT_OUTPUT".toList, "S3_ACCESS_KEY_ID".toList, "S3_SECRET_ACCESS_KEY".toList,
          "S3_ENDPOINT".toList, "S3_BUCKET".toList, "S3_REGION".toList]]
    ∧ initEnvNamesOf (newPodForCR (withRangeOrder bareWorld List.reverse)
        { Spec := { Package := some { FromPath := "/pkg".toList },
                    S3BucketInput := some { Dataset := "my-dataset".toList } } })
      = [["ROOT_OUTPUT".toList, "S3_REGION".toList, "S3_BUCKET".toList, "S3_ENDPOINT".toList,
          "S3_SECRET_ACCESS_KEY".toList, "S3_ACCESS_KEY_ID".toList]]
    ∧ initContainersOf (newPodForCR bareWorld
        { Spec := { Package := some { FromPath := "/pkg".toList },
                    S3BucketInput := some { Dataset := "my-dataset".toList } } })
      ≠ initContainersOf (newPodForCR (withRangeOrder bareWorld List.reverse)
        { Spec := { Package := some { FromPath := "/pkg".toList },
                    S3BucketInput := some { Dataset := "my-dataset".toList } } }) := by
  decide

/-- C32, the code at a failing input: the URL
`https://example.com/group/sub/repo.git`, whose path has three segments. The
script clones into `/tmp/git/sub`, named after the second segment of the path
(line 688), while the primary command is given `/mnt/package/repo.git`, named
after `path.Base` of the URL (line 847): on the shared volume the two directories
differ. -/
theorem C32_clone_and_launch_directories_differ :
    initArgsOf (newPodForCR
        (parsingWorld "https://example.com/group/sub/repo.git".toList
          { Host := "example.com".toList, Path := "/group/sub/repo.git".toList })
        { Spec := { Package := some { URL := "https://example.com/group/sub/repo.git".toList } } })
      = [["git clone --recurse-submodules --depth=1 ".toList
            ++ "https://example.com/group/sub/repo.git".toList ++ " ".toList
            ++ "/tmp/git/sub".toList
            ++ " && git -C ".toList ++ "/tmp/git/sub".toList
            ++ " submodule update --remote".toList
            ++ " &&  git -C ".toList ++ "/tmp/git/sub".toList
            ++ " remote remove origin".toList]]
    ∧ primaryCommand (newPodForCR
        (parsingWorld "https://example.com/group/sub/repo.git".toList
          { Host := "example.com".toList, Path := "/group/sub/repo.git".toList })
        { Spec := { Package := some { URL := "https://example.com/group/sub/repo.git".toList } } })
      = some ["elaunch.py".toList, "/mnt/package/repo.git".toList]
    ∧ pathBase "https://example.com/group/sub/repo.git".toList = "repo.git".toList
    ∧ (splitSlash ("/group/sub/repo.git".toList.drop 1))[1]? = some "sub".toList := by
  refine ⟨rfl, rfl, by decide, by decide⟩

/-- C33, the code at failing inputs: the URL `https://example.com/repo.git` parses
to the path `/repo.git`, whose split after the first character has one element, so
`strings.Split(u.Path[1:], "/")[1]` indexes out of range; the URL
`https://example.com` parses to the empty path, so `u.Path[1:]` slices out of
range. In both cases `newPodForCR` panics instead of returning a pod or an error. -/
theorem C33_https_short_path_panics :
    newPodForCR
        (parsingWorld "https://example.com/repo.git".toList
          { Host := "example.com".toList, Path := "/repo.git".toList })
        { Spec := { Package := some { URL := "https://example.com/repo.git".toList } } }
      = .panic
    ∧ newPodForCR
        (parsingWorld "https://example.com".toList { Host := "example.com".toList, Path := [] })
        { Spec := { Package := some { URL := "https://example.com".toList } } }
      = .panic :=
  ⟨rfl, rfl⟩

end St4sd
